import Mathlib

/-!
# MZOTBC: multi-zone boiler controller

A shallow embedding of the control core of `antst/mzotbc`
(`internal/thermo_controller.go`, `internal/thermo_model/model.go`,
`internal/sensor_controller.go`, `internal/zone_controller.go`,
`internal/utils.go`) and of the legacy demand computation (`src/model.go`,
`src/thermo_controller.go`), together with theorems about them.

Conventions of the embedding.

* `float64` values are modelled twice.  The first part takes them as exact
  rationals `ℚ`: arithmetic is exact, there is no NaN and no infinity.  The
  section `ieee` embeds the numeric core again (the sensor value handler,
  `calculateSetpoint`, `boundTset`, one iteration of `handleUpdate`,
  `averageSetpoints` and `ThermoMarshalHelper`) over `ieee.Float64`, which has
  NaN and both infinities, overflow to an infinity, Go's comparisons, and
  `math.Pow(x, 1.0/3)` as a parameter; the statements about the formula, the
  range and the diagnostics of the boiler command are made there.
* `time.Time` is modelled by an integer count of microseconds relative to the
  Unix epoch; `time.Now()` is an explicit argument `now` of every function that
  reads the clock.
* Configuration pointers that `FillDefaults` makes non-nil are plain values;
  pointers that may stay nil are `Option`s.
* Locks and logging are not modelled.  Database writes and channel sends are
  returned by the handlers as a list of `Effect`s, in program order; what the
  engine publishes is returned as a list of `EngineEffect`s.
* The event loop of `Run` is a step function on the received event; timers are
  not modelled beyond the record of a reset.
* Go array indexing panics when out of range; indexed reads and writes return
  `Option`, with `none` standing for the panic.
-/

namespace Mzotbc

/-! ## Time (`internal/utils.go`) -/

/-- Instants, as microseconds relative to the Unix epoch. -/
abbrev Time := Int

/-- The "never" instant: `zeroTS = time.UnixMicro(0)`. -/
def zeroTS : Time := 0

/-- The Go method `t.After(u)`. -/
def Time.After (t u : Time) : Bool := decide (u < t)

/-! ## Constants (`internal/thermo_controller.go`, `internal/sensor_controller.go`) -/

def minValidTemp : ℚ := -100.0
def defaultTSet : ℚ := 10.0
def minEnableTemp : ℚ := 18.0
def maxTSet : ℚ := 75.0
def minTSet : ℚ := 20.0
def fallbackTSet : ℚ := 10.0
def epsilon : ℚ := 1e-10

/-- Go `boundTset`: cap at `maxTSet`, snap everything below `minTSet` to the fallback. -/
def boundTset (tset : ℚ) : ℚ :=
  if tset > maxTSet then maxTSet
  else if tset < minTSet then fallbackTSet
  else tset

/-! ## Sensors (`internal/config/sensor.go`, `internal/sensor_controller.go`) -/

/-- Go `config.SensorConfig`; `Offset`, `Scale` and `Weight` are non-nil after `FillDefaults`. -/
structure SensorConfig where
  Name : String
  Topic : String
  JSONEntry : Option String
  Offset : ℚ
  Scale : ℚ
  Weight : ℚ

/-- The data fields of Go `SensorController`. -/
structure SensorController where
  name : String
  cfg : SensorConfig
  value : ℚ
  timestamp : Time

/-- One iteration of the loop of `sensorsMean` on the accumulators `(v, wt)`. -/
def sensorsMeanStep (acc : ℚ × ℚ) (sensor : SensorController) : ℚ × ℚ :=
  if sensor.timestamp.After zeroTS then
    let weight := sensor.cfg.Weight
    (acc.1 + sensor.value * weight, acc.2 + weight)
  else acc

/-- Go `sensorsMean`; `now` is the reading of `time.Now()`. -/
def sensorsMean (now : Time) (sensors : List SensorController) : ℚ × Time :=
  let acc := sensors.foldl sensorsMeanStep (0, 0)
  let v := acc.1
  let wt := acc.2
  if wt < epsilon then (0, zeroTS) else (v / wt, now)

/-- The sensors that have reported: those whose timestamp is after `zeroTS`. -/
def reported (sensors : List SensorController) : List SensorController :=
  sensors.filter (fun s => s.timestamp.After zeroTS)

/-- Sum of the weights of a list of sensors. -/
def weightSum (sensors : List SensorController) : ℚ :=
  (sensors.map (fun s => s.cfg.Weight)).sum

/-- Sum of `value * weight` over a list of sensors. -/
def weightedValueSum (sensors : List SensorController) : ℚ :=
  (sensors.map (fun s => s.value * s.cfg.Weight)).sum

/-! ## Payload extraction (`internal/utils.go`) -/

/-- An MQTT message: topic and payload. -/
structure Message where
  topic : String
  payload : String

/-- The dynamic values `encoding/json` stores in an `interface{}`. -/
inductive JsonValue where
  | null
  | bool (b : Bool)
  | number (x : ℚ)
  | str (s : String)
  | array (xs : List JsonValue)
  | object (kvs : List (String × JsonValue))

/-- The two standard-library decoders used by `extractF64PlainOrJson`, as parameters:
`parseFloat s` is `strconv.ParseFloat(s, 64)` and `jsonUnmarshal s` is `json.Unmarshal` of `s`
into a `map[string]interface{}`; `none` stands for a non-nil `err`.  The parsed value is a
rational here; the payloads `NaN` and `Inf`, which `ParseFloat` accepts, are covered by
`ieee.Decoders`. -/
structure Decoders where
  parseFloat : String → Option ℚ
  jsonUnmarshal : String → Option (String → Option JsonValue)

/-- The four failure exits of `extractF64PlainOrJson`. -/
inductive ExtractError where
  | parseFloat
  | unmarshal
  | notFound
  | cannotCast
  deriving DecidableEq

/-- Go `extractF64PlainOrJson`. -/
def extractF64PlainOrJson (d : Decoders) (message : Message) (JSONEntry : Option String) :
    Except ExtractError ℚ :=
  match JSONEntry with
  | none =>
    match d.parseFloat message.payload with
    | some x => .ok x
    | none => .error .parseFloat
  | some entry =>
    match d.jsonUnmarshal message.payload with
    | none => .error .unmarshal
    | some valMap =>
      match valMap entry with
      | none => .error .notFound
      | some (.number t0) => .ok t0
      | some _ => .error .cannotCast

/-- A decoder pair for worked examples: it knows the plain payloads `"21.5"`, `"10"` and `"20"`
and the JSON payload with the single field `temperature` holding `21.5`. -/
def sampleDecoders : Decoders where
  parseFloat := fun s =>
    if s = "21.5" then some 21.5
    else if s = "10" then some 10
    else if s = "20" then some 20
    else none
  jsonUnmarshal := fun s =>
    if s = "\x7b\"temperature\": 21.5\x7d" then
      some (fun k => if k = "temperature" then some (.number 21.5) else none)
    else none

/-! ## Effects of the update handlers -/

/-- What a handler does to the outside world: database upserts (`writeState`) and channel
sends, in program order. -/
inductive Effect where
  | upsertSensorValue (sensorName : String) (value : ℚ)
  | upsertZoneSetpoint (zoneName : String) (setpoint : ℚ)
  | controlChanSend
  | childChanSend
  deriving DecidableEq

/-- Go `NewSensorController`; `stored` is the result of `readState` (`none` when the query
fails) and `now` the reading of `time.Now()`. -/
def NewSensorController (now : Time) (stored : Option ℚ) (_name : String)
    (_cfg : SensorConfig) : SensorController :=
  let s : SensorController := { name := _name, cfg := _cfg, value := 0, timestamp := zeroTS }
  match stored with
  | some val => { s with value := val, timestamp := now }
  | none => s

/-- Go `SensorController.ValueUpdateHandler`. -/
def SensorController.ValueUpdateHandler (d : Decoders) (s : SensorController)
    (message : Message) : SensorController × List Effect :=
  match extractF64PlainOrJson d message s.cfg.JSONEntry with
  | .error _ => (s, [])
  | .ok t0 =>
    let oldValue := s.value
    let s : SensorController := { s with value := t0 * s.cfg.Scale + s.cfg.Offset }
    let written := [Effect.upsertSensorValue s.name s.value]
    if oldValue ≠ s.value then (s, written ++ [Effect.controlChanSend]) else (s, written)

/-! ## Zones (`internal/config/setpoint.go`, `internal/config/zone.go`,
`internal/zone_controller.go`) -/

/-- Go `config.SetpointConfig`; `Offset` and `Scale` are non-nil after `FillDefaults`. -/
structure SetpointConfig where
  Topic : String
  JSONEntry : Option String
  Offset : ℚ
  Scale : ℚ

/-- Go `config.ZoneConfig` (without the unused heat-demand and valve lists). -/
structure ZoneConfig where
  HeatingParameter : Option ℚ
  RoomCompensation : ℚ
  SensorsAverageType : String
  Weight : ℚ
  Setpoint : SetpointConfig
  Sensors : List SensorConfig

/-- The data fields of Go `ZoneController`. -/
structure ZoneController where
  name : String
  cfg : ZoneConfig
  sensors : List SensorController
  setpoint : ℚ
  setpointTimestamp : Time
  averageTemperature : ℚ
  averageTimestamp : Time
  tSet : ℚ
  tSetTimestamp : Time
  averageFunc : Time → List SensorController → ℚ × Time

/-- Go `ZoneController.getPair`. -/
def ZoneController.getPair (z : ZoneController) : ℚ × ℚ × Bool :=
  (z.setpoint, z.averageTemperature,
    z.setpointTimestamp.After zeroTS && z.averageTimestamp.After zeroTS)

/-- Go `ZoneController.setpointUpdateHandler`; `now` is the reading of `time.Now()`. -/
def ZoneController.setpointUpdateHandler (d : Decoders) (now : Time) (z : ZoneController)
    (message : Message) : ZoneController × List Effect :=
  match extractF64PlainOrJson d message z.cfg.Setpoint.JSONEntry with
  | .error _ => (z, [])
  | .ok t0 =>
    let oldSP := z.setpoint
    let z : ZoneController :=
      { z with
        setpoint := t0 * z.cfg.Setpoint.Scale + z.cfg.Setpoint.Offset
        setpointTimestamp := now }
    let written := [Effect.upsertZoneSetpoint z.name z.setpoint]
    if t0 ≠ oldSP then (z, written ++ [Effect.childChanSend]) else (z, written)

/-- A sensor configuration with the `FillDefaults` values (offset 0, scale 1, weight 1). -/
def sampleSensorConfig : SensorConfig :=
  { Name := "", Topic := "home/living/temperature", JSONEntry := none,
    Offset := 0.0, Scale := 1.0, Weight := 1.0 }

/-- A zone whose setpoint topic is scaled by 2, with stored setpoint 20 (the result of an
earlier delivery of the raw value 10). -/
def sampleScaledZone : ZoneController :=
  { name := "living"
    cfg :=
      { HeatingParameter := none, RoomCompensation := 1.5, SensorsAverageType := "mean",
        Weight := 1.0,
        Setpoint := { Topic := "home/living/setpoint", JSONEntry := none, Offset := 0.0,
                      Scale := 2.0 },
        Sensors := [] }
    sensors := []
    setpoint := 20
    setpointTimestamp := 1700000000000000
    averageTemperature := 0
    averageTimestamp := zeroTS
    tSet := 0
    tSetTimestamp := zeroTS
    averageFunc := sensorsMean }

/-! ## Thermal model (`internal/thermo_model/model.go`) -/

namespace thermo_model

def maxPower : Nat := 3
def nelCoeff : Nat := 14

def mCoeff : List ℚ :=
  [1.665451e-04, -6.595542e-04, 1.326216e-03, 1.243637e-01,
   -6.933021e-04, -1.242895e-01, 6.221294e-02, -7.483894e-05,
   5.947953e-03, -4.194166e-03, 8.534580e-01, 2.610415e-03,
   7.909183e-02, -1.989083e+00]

def mTermsHP : List Nat := [2, 1, 1, 1, 1, 1, 1, 0, 0, 0, 0, 0, 0, 0]
def mTermsSP : List Nat := [0, 2, 1, 1, 0, 0, 0, 3, 2, 1, 1, 0, 0, 0]
def mTermsOT : List Nat := [0, 0, 1, 0, 2, 1, 0, 0, 0, 1, 0, 2, 1, 0]

/-- The indexed write `a[i] = v` on a Go array; `none` is the out-of-range panic. -/
def setAt (a : List ℚ) (i : Nat) (v : ℚ) : Option (List ℚ) :=
  if i < a.length then some (a.set i v) else none

/-- Body of the loop `for i := 2; i <= maxPower; i++` filling the three power tables. -/
def powerStep (hp sp ot : ℚ) (tables : List ℚ × List ℚ × List ℚ) (i : Nat) :
    Option (List ℚ × List ℚ × List ℚ) := do
  let hpPwr ← setAt tables.1 i ((← tables.1[i - 1]?) * hp)
  let spPwr ← setAt tables.2.1 i ((← tables.2.1[i - 1]?) * sp)
  let otPwr ← setAt tables.2.2 i ((← tables.2.2[i - 1]?) * ot)
  pure (hpPwr, spPwr, otPwr)

/-- Body of the loop `for i := 0; i < nelCoeff; i++` accumulating `tset`. -/
def termStep (hpPwr spPwr otPwr : List ℚ) (tset : ℚ) (i : Nat) : Option ℚ := do
  let c ← mCoeff[i]?
  let h ← hpPwr[(← mTermsHP[i]?)]?
  let s ← spPwr[(← mTermsSP[i]?)]?
  let o ← otPwr[(← mTermsOT[i]?)]?
  pure (tset + c * h * s * o)

/-- Go `thermo_model.CalculateSetpoint`; `none` is an index-out-of-range panic. -/
def CalculateSetpoint (hp sp ot _rt : ℚ) : Option ℚ := do
  let zeroed : List ℚ := List.replicate (maxPower + 1) 0
  let hpPwr ← setAt zeroed 0 1.0
  let spPwr ← setAt zeroed 0 1.0
  let otPwr ← setAt zeroed 0 1.0
  let hpPwr ← setAt hpPwr 1 hp
  let spPwr ← setAt spPwr 1 sp
  let otPwr ← setAt otPwr 1 ot
  let tables ← (List.range' 2 (maxPower + 1 - 2)).foldlM (powerStep hp sp ot)
    (hpPwr, spPwr, otPwr)
  (List.range nelCoeff).foldlM (termStep tables.1 tables.2.1 tables.2.2) 0.0

end thermo_model

/-! ## Control engine (`internal/config/config.go`, `internal/thermo_controller.go`) -/

/-- The part of Go `config.Config` the engine reads; `DefaultHeatingParameter` is non-nil
after `FillDefaults`. -/
structure Config where
  DefaultHeatingParameter : ℚ
  Zones : List (String × ZoneConfig)

/-- One key of the Go maps `zones`, `updateMap` and `zoneTRs`: the zone the pointer refers to,
its dirty flag `updateMap[zone]` and its stored demand `zoneTRs[zone]`. -/
structure ZoneEntry where
  zone : ZoneController
  needsUpdate : Bool
  TR : ℚ

/-- The data fields of Go `ThermoController`.  The three maps `zones`, `updateMap` and
`zoneTRs` always have the same keys (`initializeZones` fills all three for every zone and
nothing deletes a key), so they are kept as one list with a row per zone; a `range` loop over
any of them visits the rows in list order. -/
structure ThermoController where
  cfg : Config
  zones : List ZoneEntry
  enabled : Bool

/-- The map `c.zoneTRs`: every zone with its stored demand. -/
def ThermoController.zoneTRs (c : ThermoController) : List (ZoneController × ℚ) :=
  c.zones.map (fun e => (e.zone, e.TR))

/-- The map `c.updateMap`: every zone with its dirty flag. -/
def ThermoController.updateMap (c : ThermoController) : List (ZoneController × Bool) :=
  c.zones.map (fun e => (e.zone, e.needsUpdate))

/-- Go `ThermoController.getHeatingParameter`. -/
def ThermoController.getHeatingParameter (c : ThermoController) (zone : ZoneController) : ℚ :=
  match zone.cfg.HeatingParameter with
  | some hp => hp
  | none => c.cfg.DefaultHeatingParameter

/-- Go `ThermoController.calculateSetpoint`; `none` is a panic inside the thermal model.  On
NaN readings, which pass through `boundTset`, see `ieee.ThermoController.calculateSetpoint`. -/
def ThermoController.calculateSetpoint (c : ThermoController) (zone : ZoneController)
    (OT : ℚ) : Option (ℚ × Bool) :=
  let sp := zone.getPair.1
  let rt := zone.getPair.2.1
  let ok := zone.getPair.2.2
  let hp := c.getHeatingParameter zone
  let dT := (rt - sp) * 1.5
  let hp := hp - dT
  if ok && decide (OT > minValidTemp) then do
    let tset ← thermo_model.CalculateSetpoint hp zone.setpoint OT zone.averageTemperature
    let tset := boundTset tset
    let tset := if OT > sp - 3.0 ∨ rt > sp + 2.0 then fallbackTSet else tset
    pure (tset, true)
  else
    pure (0.0, false)

/-- A zone with valid setpoint 20 and valid average temperature 20, no heating-parameter
override. -/
def sampleZone : ZoneController :=
  { name := "living"
    cfg :=
      { HeatingParameter := none, RoomCompensation := 1.5, SensorsAverageType := "mean",
        Weight := 1.0,
        Setpoint := { Topic := "home/living/setpoint", JSONEntry := none, Offset := 0.0,
                      Scale := 1.0 },
        Sensors := [sampleSensorConfig] }
    sensors := [{ name := "zone-living-1", cfg := sampleSensorConfig, value := 20,
                  timestamp := 1700000000000000 }]
    setpoint := 20
    setpointTimestamp := 1700000000000000
    averageTemperature := 20
    averageTimestamp := 1700000001000000
    tSet := 0
    tSetTimestamp := zeroTS
    averageFunc := sensorsMean }

/-- An engine over `sampleZone` with the default heating parameter 15. -/
def sampleController : ThermoController :=
  { cfg := { DefaultHeatingParameter := 15.0, Zones := [("living", sampleZone.cfg)] }
    zones := [{ zone := sampleZone, needsUpdate := false, TR := 0.0 }]
    enabled := true }

/-! ## Cross-zone aggregation (`internal/thermo_controller.go`) -/

/-- Go `math.Round` in exact arithmetic: the nearest integer, halves away from zero. -/
def mathRound (x : ℚ) : ℤ :=
  if 0 ≤ x then ⌊x + 1 / 2⌋ else ⌈x - 1 / 2⌉

/-- The expression `math.Round(math.Pow(x, 1.0/pwr)*2)` with `pwr = 3`, in exact arithmetic:
for `x ≥ 0` the integer `n` nearest to twice the cube root of `x` (halves upwards), that is
the greatest `n` with `(2n - 1)^3 ≤ 64 x`.  For `x < 0` Go yields NaN, which the rational
model cannot hold; the value here is then 0, and every statement that relies on the cube
root says `0 ≤ x`.  The value `math.Pow` returns in `float64` arithmetic, which at an exact
tie lies just below the cube root, is the parameter of `ieee.powThird`. -/
def roundTwiceCbrt (x : ℚ) : ℤ :=
  (Nat.findGreatest (fun n : ℕ => (2 * (n : ℚ) - 1) ^ 3 ≤ 64 * x) (2 * (⌈x⌉₊ + 1)) : ℕ)

/-- The record marshalled by Go `ThermoMarshalHelper`. -/
structure ZoneReport where
  Zone : String
  Setpoint : ℚ
  Temperature : ℚ
  CS : ℚ
  deriving DecidableEq

/-- Go `ThermoMarshalHelper`; the zone pointer may be nil (`none`), and reading its fields then
panics (`none`).  `json.Marshal` cannot fail on rational numbers; its failure on NaN and the
infinities is in `ieee.ThermoMarshalHelper`. -/
def ThermoMarshalHelper (t : ℚ) (z : Option ZoneController) : Option ZoneReport :=
  match z with
  | none => none
  | some z =>
    some { CS := t, Setpoint := z.setpoint, Temperature := z.averageTemperature, Zone := z.name }

/-- What the engine does to the outside world, in program order: the three diagnostic
publishes of `averageSetpoints`, the boiler command of `BoilerController.Update`, the reset of
the quiet timer, and the publish, database write and channel send of `setEnabled`. -/
inductive EngineEffect where
  | publishMaxdiff (r : ZoneReport)
  | publishMaxcs (r : ZoneReport)
  | publishMincs (r : ZoneReport)
  | boilerUpdate (Tset : ℚ) (chEnable : Bool)
  | resetTimer
  | publishActive (payload : String)
  | writeEnabled (value : String)
  | forceChanSend
  deriving DecidableEq

/-- The variables carried by the first loop of `averageSetpoints`. -/
structure DemandScan where
  maxT : ℚ
  minT : ℚ
  maxDiff : ℚ
  maxZone : Option ZoneController
  minZone : Option ZoneController
  maxDiffZone : Option ZoneController

/-- The initial values `maxT, minT, maxDiff := -1000.0, 1000.0, -10000.0` and nil zones. -/
def scanInit : DemandScan :=
  { maxT := -1000.0, minT := 1000.0, maxDiff := -10000.0,
    maxZone := none, minZone := none, maxDiffZone := none }

/-- Body of the first loop of `averageSetpoints` for the map entry `zone ↦ f`. -/
def scanStep (s : DemandScan) (e : ZoneController × ℚ) : DemandScan :=
  let zone := e.1
  let f := e.2
  let s : DemandScan := if f > s.maxT then { s with maxT := f, maxZone := some zone } else s
  let s : DemandScan :=
    if f < s.minT ∧ f > 10.0 then { s with minT := f, minZone := some zone } else s
  let md := zone.setpoint - zone.averageTemperature
  if md > s.maxDiff then { s with maxDiffZone := some zone, maxDiff := md } else s

/-- The cutoff `tCut := minT + 0.7*(maxT-minT)`. -/
def tCutOf (s : DemandScan) : ℚ :=
  s.minT + 0.7 * (s.maxT - s.minT)

/-- Body of the second loop of `averageSetpoints` on the accumulators `(tAvg, weight)`;
`math.Pow(f, 3.0)` is the exact cube. -/
def accumulateStep (tCut : ℚ) (acc : ℚ × ℚ) (e : ZoneController × ℚ) : ℚ × ℚ :=
  let zone := e.1
  let f := e.2
  if f ≥ tCut then (acc.1 + zone.cfg.Weight * f ^ 3, acc.2 + zone.cfg.Weight) else acc

/-- The value of `tSet` after the `if weight > 0` block of `averageSetpoints`, in exact
arithmetic; with overflow, NaN and the library cube root it is `ieee.tSetOf`. -/
def tSetOf (tAvg weight : ℚ) : ℚ :=
  if weight > 0 then boundTset ((roundTwiceCbrt (tAvg / weight) : ℚ) / 2) else defaultTSet

/-- The diagnostic publishes of `averageSetpoints`: `maxdiff` unconditionally (a nil
`maxDiffZone` panics inside `ThermoMarshalHelper`), `maxcs` and `mincs` only for a non-nil
zone. -/
def diagnosticsOf (s : DemandScan) : Option (List EngineEffect) := do
  let r ← ThermoMarshalHelper s.maxDiff s.maxDiffZone
  let maxcs ←
    match s.maxZone with
    | some z => (ThermoMarshalHelper s.maxT (some z)).map (fun r => [EngineEffect.publishMaxcs r])
    | none => some []
  let mincs ←
    match s.minZone with
    | some z => (ThermoMarshalHelper s.minT (some z)).map (fun r => [EngineEffect.publishMincs r])
    | none => some []
  pure (EngineEffect.publishMaxdiff r :: (maxcs ++ mincs))

/-- The `(tSet, chEnable)` that `averageSetpoints` computes from the map `zoneTRs` (given as the
list of its entries in iteration order) before it publishes the diagnostics. -/
def aggregateOf (zoneTRs : List (ZoneController × ℚ)) : ℚ × Bool :=
  let s := zoneTRs.foldl scanStep scanInit
  let tCut := tCutOf s
  let acc := zoneTRs.foldl (accumulateStep tCut) (0.0, 0.0)
  let tSet := tSetOf acc.1 acc.2
  let chEnable := decide (tSet ≥ minEnableTemp)
  (tSet, chEnable)

/-- Go `averageSetpoints` as a function of the map `zoneTRs`: the diagnostic publishes and the
returned `(tSet, chEnable)`; `none` is the nil-pointer panic in `ThermoMarshalHelper`. -/
def averageSetpointsOver (zoneTRs : List (ZoneController × ℚ)) :
    Option (List EngineEffect × ℚ × Bool) :=
  (diagnosticsOf (zoneTRs.foldl scanStep scanInit)).map
    (fun published => (published, aggregateOf zoneTRs))

/-- The setpoint gap `zone.setpoint - zone.averageTemperature` of a map entry. -/
def gapOf (e : ZoneController × ℚ) : ℚ :=
  e.1.setpoint - e.1.averageTemperature

/-- The entries that pass the test `f >= tCut` of the second loop. -/
def chosenAt (tCut : ℚ) (zoneTRs : List (ZoneController × ℚ)) : List (ZoneController × ℚ) :=
  zoneTRs.filter (fun e => decide (e.2 ≥ tCut))

/-- Sum of the zone weights of a list of map entries. -/
def zoneWeightSum (zoneTRs : List (ZoneController × ℚ)) : ℚ :=
  (zoneTRs.map (fun e => e.1.cfg.Weight)).sum

/-- Sum of `weight * demand^3` over a list of map entries. -/
def weightedCubeSum (zoneTRs : List (ZoneController × ℚ)) : ℚ :=
  (zoneTRs.map (fun e => e.1.cfg.Weight * e.2 ^ 3)).sum

/-- Go `ThermoController.averageSetpoints`. -/
def ThermoController.averageSetpoints (c : ThermoController) :
    Option (List EngineEffect × ℚ × Bool) :=
  averageSetpointsOver c.zoneTRs

/-- The sample zone after a sensor glitch: average temperature 10020 with setpoint 20, so the
setpoint gap is exactly -10000. -/
def glitchZone : ZoneController :=
  { sampleZone with averageTemperature := 10020 }

/-- A second zone, `bedroom`, with the same readings as the sample zone. -/
def bedroomZone : ZoneController :=
  { sampleZone with name := "bedroom" }

/-! ## The decision loop (`internal/thermo_controller.go`) -/

/-- Go `thermoState`. -/
structure thermoState where
  OT : ℚ
  tSet : ℚ
  chEnable : Bool
  forceUpdate : Bool
  deriving DecidableEq

/-- The state `Run` starts from: `&thermoState{OT: minValidTemp, tSet: defaultTSet}`. -/
def initialState : thermoState :=
  { OT := minValidTemp, tSet := defaultTSet, chEnable := false, forceUpdate := false }

/-- Go `ThermoController.update`: the boiler command handed to `BoilerController.Update`. -/
def ThermoController.update (c : ThermoController) (tSet : ℚ) (chEnable : Bool) :
    List EngineEffect :=
  if !c.enabled then [EngineEffect.boilerUpdate defaultTSet false]
  else [EngineEffect.boilerUpdate tSet chEnable]

/-- One iteration of the loop `for zone, needsUpdate := range c.updateMap` of `handleUpdate`:
the row after the iteration and whether `needTRupdate` was set by it. -/
def ThermoController.handleUpdateZone (c : ThermoController) (OT : ℚ) (e : ZoneEntry) :
    Option (ZoneEntry × Bool) :=
  if !e.needsUpdate then some (e, false)
  else do
    let r ← c.calculateSetpoint e.zone OT
    let newTR := r.1
    let ok := r.2
    if ok && decide (newTR ≠ e.TR) then
      pure ({ e with needsUpdate := false, TR := newTR }, true)
    else
      pure ({ e with needsUpdate := false }, false)

/-- The loop `for zone, needsUpdate := range c.updateMap` of `handleUpdate` over the rows, with
the running value of `needTRupdate`. -/
def ThermoController.handleUpdateLoop (c : ThermoController) (OT : ℚ) :
    List ZoneEntry → Bool → Option (List ZoneEntry × Bool)
  | [], needTRupdate => some ([], needTRupdate)
  | e :: rest, needTRupdate => do
    let r ← c.handleUpdateZone OT e
    let rs ← c.handleUpdateLoop OT rest (needTRupdate || r.2)
    pure (r.1 :: rs.1, rs.2)

/-- The rows after the block `if state.forceUpdate { for _, zone := range c.zones {
c.updateMap[zone] = true } }` of `handleUpdate`. -/
def ThermoController.markedZones (c : ThermoController) (forceUpdate : Bool) : List ZoneEntry :=
  if forceUpdate then c.zones.map (fun e => { e with needsUpdate := true })
  else c.zones

/-- Go `ThermoController.handleUpdate`: the engine and the state after the call and what was
published; `none` is a panic. -/
def ThermoController.handleUpdate (c : ThermoController) (state : thermoState) :
    Option (ThermoController × thermoState × List EngineEffect) := do
  let looped ← c.handleUpdateLoop state.OT (c.markedZones state.forceUpdate) false
  let c : ThermoController := { c with zones := looped.1 }
  let needTRupdate := looped.2
  if needTRupdate || state.forceUpdate then do
    let r ← c.averageSetpoints
    let newTSet := r.2.1
    let newChEnable := r.2.2
    if newTSet ≠ state.tSet ∨ newChEnable ≠ state.chEnable ∨ state.forceUpdate = true then
      pure (c, { state with tSet := newTSet, chEnable := newChEnable, forceUpdate := false },
        r.1 ++ c.update newTSet newChEnable)
    else
      pure (c, { state with forceUpdate := false }, r.1)
  else
    pure (c, { state with forceUpdate := false }, [])

/-- The cases of the `select` in `Run`: a value on `forceChan`, on `outsideChan`, on `zoneChan`
(the zone is named), on the quiet timer `timer.C`, on the heartbeat `ticker.C`. -/
inductive EngineEvent where
  | force
  | outside (newOT : ℚ)
  | zone (name : String)
  | timer
  | ticker
  deriving DecidableEq

/-- One turn of the `for { select { ... } }` loop of `Run` on the received event;
`resetTimer` is recorded as an effect. -/
def ThermoController.runStep (c : ThermoController) (state : thermoState) :
    EngineEvent → Option (ThermoController × thermoState × List EngineEffect)
  | .force => some (c, { state with forceUpdate := true }, [EngineEffect.resetTimer])
  | .outside newOT =>
    if newOT ≠ state.OT then
      some (c, { state with OT := newOT, forceUpdate := true }, [EngineEffect.resetTimer])
    else some (c, state, [])
  | .zone name =>
    some ({ c with zones := c.zones.map (fun e =>
        if e.zone.name = name then { e with needsUpdate := true } else e) },
      state, [EngineEffect.resetTimer])
  | .timer => c.handleUpdate state
  | .ticker => some (c, state, c.update state.tSet state.chEnable)

/-- A run of `Run` over a sequence of received events, collecting the effects in order. -/
def ThermoController.runEvents (c : ThermoController) (state : thermoState) :
    List EngineEvent → Option (ThermoController × thermoState × List EngineEffect)
  | [] => some (c, state, [])
  | ev :: rest => do
    let r ← c.runStep state ev
    let rs ← r.1.runEvents r.2.1 rest
    pure (rs.1, rs.2.1, r.2.2 ++ rs.2.2)

/-- Go `strings.ToLower`, letter by letter on the ASCII range. -/
def stringsToLower (s : String) : String :=
  String.mk (s.data.map Char.toLower)

/-- Go `ThermoController.setEnabled`. -/
def ThermoController.setEnabled (c : ThermoController) (val : String) :
    ThermoController × List EngineEffect :=
  if stringsToLower val = "true" ∨ stringsToLower val = "on" then
    ({ c with enabled := true },
      [EngineEffect.publishActive "ON", EngineEffect.writeEnabled "true",
        EngineEffect.forceChanSend])
  else if stringsToLower val = "false" ∨ stringsToLower val = "off" then
    ({ c with enabled := false },
      [EngineEffect.publishActive "OFF", EngineEffect.writeEnabled "false",
        EngineEffect.forceChanSend])
  else (c, [])

/-- The boiler commands among a list of effects, in order. -/
def boilerCommands : List EngineEffect → List (ℚ × Bool)
  | [] => []
  | EngineEffect.boilerUpdate t ch :: rest => (t, ch) :: boilerCommands rest
  | _ :: rest => boilerCommands rest

/-! ## Averaging strategy (`internal/zone_controller.go`, `internal/outside_controller.go`,
`internal/config/outside.go`) -/

/-- Go `config.DefaultAverageType`. -/
def DefaultAverageType : String := "mean"

/-- Go `ZoneController.LinkAverageFun`. -/
def ZoneController.LinkAverageFun (z : ZoneController) : ZoneController :=
  if z.cfg.SensorsAverageType = DefaultAverageType then
    { z with averageFunc := sensorsMean }
  else
    { z with
      cfg := { z.cfg with SensorsAverageType := DefaultAverageType }
      averageFunc := sensorsMean }

/-- The expression `message.Topic()[strings.LastIndex(message.Topic(), "/")+1:]`: what follows
the last `/` of the topic (the whole topic when it has none). -/
def lastTopicSegment (topic : String) : String :=
  String.mk ((topic.data.reverse.takeWhile (fun ch => ch ≠ '/')).reverse)

/-- Go `ZoneController.controlUpdateHandler`; it sends on no channel, so the result is the zone
alone. -/
def ZoneController.controlUpdateHandler (d : Decoders) (z : ZoneController)
    (message : Message) : ZoneController :=
  let topic := lastTopicSegment message.topic
  if topic = "weight" ∨ topic = "heating_parameter" then
    match d.parseFloat message.payload with
    | none => z
    | some value =>
      if topic = "weight" then { z with cfg := { z.cfg with Weight := value } }
      else { z with cfg := { z.cfg with HeatingParameter := some value } }
  else if topic = "sensors_average_type" then
    ZoneController.LinkAverageFun
      { z with cfg := { z.cfg with SensorsAverageType := message.payload } }
  else z

/-- Go `config.OutsideConfig`. -/
structure OutsideConfig where
  TemperatureSensors : List SensorConfig
  TemperatureAverageType : String
  WindSpeedSensors : List SensorConfig
  WindSpeedAverageType : String
  HumiditySensors : List SensorConfig
  HumidityAverageType : String

/-- The data fields of Go `OutsideController`. -/
structure OutsideController where
  cfg : OutsideConfig
  temperatureSensors : List SensorController
  humiditySensors : List SensorController
  windSpeedSensors : List SensorController
  averageTemperature : ℚ
  averageTemperatureTimestamp : Time
  averageTemperatureFunc : Time → List SensorController → ℚ × Time

/-- Go `OutsideController.LinkAverageFun`. -/
def OutsideController.LinkAverageFun (o : OutsideController) : OutsideController :=
  if o.cfg.TemperatureAverageType = "mean" then
    { o with averageTemperatureFunc := sensorsMean }
  else
    { o with
      cfg := { o.cfg with TemperatureAverageType := DefaultAverageType }
      averageTemperatureFunc := sensorsMean }

/-! ## Control requests to the engine (`internal/thermo_controller.go`) -/

/-- Go `ThermoController.controlUpdateHandler`: the engine after the request and what it
published or sent.  The log level (`c.cfg.LogLevel`) is not among the modelled configuration
fields, so the `log_level` case leaves the engine as it is. -/
def ThermoController.controlUpdateHandler (d : Decoders) (c : ThermoController)
    (message : Message) : ThermoController × List EngineEffect :=
  let topic := lastTopicSegment message.topic
  if topic = "default_heating_parameter" then
    match d.parseFloat message.payload with
    | some hp => ({ c with cfg := { c.cfg with DefaultHeatingParameter := hp } }, [])
    | none => (c, [])
  else if topic = "log_level" then (c, [])
  else if topic = "enable" then c.setEnabled message.payload
  else (c, [])

/-- An engine configured without any zone: the three maps are empty. -/
def emptyController : ThermoController :=
  { cfg := { DefaultHeatingParameter := 15.0, Zones := [] }, zones := [], enabled := true }

/-! ## The legacy engine (`src/model.go`, `src/thermo_controller.go`) -/

namespace legacy

/-- Body of the legacy loop `for i := 1; i <= maxPower; i++` filling the three power tables;
`math.Pow(x, float64(i))` is the exact power `x ^ i`. -/
def powerStep (hp sp ot : ℚ) (tables : List ℚ × List ℚ × List ℚ) (i : Nat) :
    Option (List ℚ × List ℚ × List ℚ) := do
  let hpPwr ← thermo_model.setAt tables.1 i (hp ^ i)
  let spPwr ← thermo_model.setAt tables.2.1 i (sp ^ i)
  let otPwr ← thermo_model.setAt tables.2.2 i (ot ^ i)
  pure (hpPwr, spPwr, otPwr)

/-- Legacy `estimateTset` (`src/model.go`), over the same coefficient and exponent tables as
the current model; `none` is an index-out-of-range panic. -/
def estimateTset (hp sp ot _rt : ℚ) : Option ℚ := do
  let zeroed : List ℚ := List.replicate (thermo_model.maxPower + 1) 0
  let hpPwr ← thermo_model.setAt zeroed 0 1.0
  let spPwr ← thermo_model.setAt zeroed 0 1.0
  let otPwr ← thermo_model.setAt zeroed 0 1.0
  let tables ← (List.range' 1 thermo_model.maxPower).foldlM (powerStep hp sp ot)
    (hpPwr, spPwr, otPwr)
  (List.range thermo_model.mCoeff.length).foldlM
    (thermo_model.termStep tables.1 tables.2.1 tables.2.2) 0.0

/-- Legacy `boundTset` (`src/thermo_controller.go`): two assignments in sequence. -/
def boundTset (tset : ℚ) : ℚ :=
  let tset := if tset > 75.0 then 75 else tset
  let tset := if tset < 20 then 10 else tset
  tset

/-- Legacy `ThermoController.calculateSetpoint` (`src/thermo_controller.go`). -/
def calculateSetpoint (c : ThermoController) (zone : ZoneController) (OT : ℚ) :
    Option (ℚ × Bool) :=
  let sp := zone.getPair.1
  let rt := zone.getPair.2.1
  let ok := zone.getPair.2.2
  let hp := c.cfg.DefaultHeatingParameter
  let hp := match zone.cfg.HeatingParameter with
    | some v => v
    | none => hp
  let dT := (rt - sp) * 1.5
  let hp := hp - dT
  if ok && decide (OT > -100.0) then do
    let tset ← estimateTset hp zone.setpoint OT zone.averageTemperature
    let tset := boundTset tset
    let tset := if OT > sp - 3.0 ∨ rt > sp + 2.0 then 10.0 else tset
    pure (tset, true)
  else
    pure (0.0, false)

end legacy

/-- The sample zone one degree cooler (19 instead of 20) with the heating-parameter override
13.5: its bias `13.5 - 1.5*(19 - 20)` is the sample zone's `15 - 1.5*(20 - 20)`. -/
def compensatedZone : ZoneController :=
  { sampleZone with
    averageTemperature := 19
    cfg := { sampleZone.cfg with HeatingParameter := some 13.5 } }

/-! ## The engine over IEEE 754 values (`float64` with NaN and the infinities)

The definitions above take `float64` as exact rationals.  This section embeds the numeric
core once more over `Float64`, which adds NaN, `+Inf` and `-Inf`: `strconv.ParseFloat` returns
them with a nil error, every comparison with NaN is false and `!=` with NaN is true.  Finite
values are still taken exactly (rounding to 53 bits is not modelled and there is no negative
zero); a finite result at or beyond the `float64` range becomes an infinity. -/

namespace ieee

/-- A Go `float64`: a finite value, `+Inf`, `-Inf` or NaN. -/
inductive Float64 where
  | finite (q : ℚ)
  | posInf
  | negInf
  | nan
  deriving DecidableEq

namespace Float64

/-- The least magnitude that rounds to an infinity: `math.MaxFloat64` plus half a unit in its
last place, `2^1024 - 2^970`. -/
def overflowBound : ℚ := 2 ^ 1024 - 2 ^ 970

/-- The `float64` a finite operation yields for the exact result `q`. -/
def ofRat (q : ℚ) : Float64 :=
  if overflowBound ≤ q then posInf
  else if q ≤ -overflowBound then negInf
  else finite q

/-- Unary minus. -/
def neg : Float64 → Float64
  | finite q => finite (-q)
  | posInf => negInf
  | negInf => posInf
  | nan => nan

/-- The Go operator `+` on `float64`. -/
def add : Float64 → Float64 → Float64
  | finite a, finite b => ofRat (a + b)
  | finite _, posInf => posInf
  | finite _, negInf => negInf
  | finite _, nan => nan
  | posInf, finite _ => posInf
  | posInf, posInf => posInf
  | posInf, negInf => nan
  | posInf, nan => nan
  | negInf, finite _ => negInf
  | negInf, posInf => nan
  | negInf, negInf => negInf
  | negInf, nan => nan
  | nan, _ => nan

/-- The Go operator `-` on `float64`. -/
def sub (a b : Float64) : Float64 := add a (neg b)

/-- The Go operator `*` on `float64`. -/
def mul : Float64 → Float64 → Float64
  | finite a, finite b => ofRat (a * b)
  | finite a, posInf => if a = 0 then nan else if 0 < a then posInf else negInf
  | finite a, negInf => if a = 0 then nan else if 0 < a then negInf else posInf
  | finite _, nan => nan
  | posInf, finite b => if b = 0 then nan else if 0 < b then posInf else negInf
  | posInf, posInf => posInf
  | posInf, negInf => negInf
  | posInf, nan => nan
  | negInf, finite b => if b = 0 then nan else if 0 < b then negInf else posInf
  | negInf, posInf => negInf
  | negInf, negInf => posInf
  | negInf, nan => nan
  | nan, _ => nan

/-- The Go operator `/` on `float64` (a zero divisor is taken as `+0`). -/
def div : Float64 → Float64 → Float64
  | finite a, finite b =>
    if b = 0 then (if a = 0 then nan else if 0 < a then posInf else negInf)
    else ofRat (a / b)
  | finite _, posInf => finite 0
  | finite _, negInf => finite 0
  | finite _, nan => nan
  | posInf, finite b => if 0 ≤ b then posInf else negInf
  | posInf, posInf => nan
  | posInf, negInf => nan
  | posInf, nan => nan
  | negInf, finite b => if 0 ≤ b then negInf else posInf
  | negInf, posInf => nan
  | negInf, negInf => nan
  | negInf, nan => nan
  | nan, _ => nan

/-- The Go operator `<` on `float64`: false whenever an operand is NaN. -/
def lt : Float64 → Float64 → Bool
  | finite a, finite b => decide (a < b)
  | finite _, posInf => true
  | finite _, negInf => false
  | finite _, nan => false
  | posInf, _ => false
  | negInf, finite _ => true
  | negInf, posInf => true
  | negInf, negInf => false
  | negInf, nan => false
  | nan, _ => false

/-- The Go operator `<=` on `float64`: false whenever an operand is NaN. -/
def le : Float64 → Float64 → Bool
  | finite a, finite b => decide (a ≤ b)
  | finite _, posInf => true
  | finite _, negInf => false
  | finite _, nan => false
  | posInf, posInf => true
  | posInf, finite _ => false
  | posInf, negInf => false
  | posInf, nan => false
  | negInf, finite _ => true
  | negInf, posInf => true
  | negInf, negInf => true
  | negInf, nan => false
  | nan, _ => false

/-- The Go operator `!=` on `float64`: true whenever an operand is NaN. -/
def ne : Float64 → Float64 → Bool
  | nan, _ => true
  | finite _, nan => true
  | posInf, nan => true
  | negInf, nan => true
  | finite a, finite b => decide (a ≠ b)
  | finite _, posInf => true
  | finite _, negInf => true
  | posInf, finite _ => true
  | posInf, posInf => false
  | posInf, negInf => true
  | negInf, finite _ => true
  | negInf, posInf => true
  | negInf, negInf => false

/-- Go `math.IsNaN`. -/
def isNaN : Float64 → Bool
  | nan => true
  | _ => false

/-- Whether the value is neither NaN nor an infinity. -/
def isFinite : Float64 → Bool
  | finite _ => true
  | _ => false

/-- Go `math.Round`: the nearest integer, halves away from zero; NaN and the infinities are
returned as they are. -/
def round : Float64 → Float64
  | finite q => finite (mathRound q)
  | posInf => posInf
  | negInf => negInf
  | nan => nan

/-- Go `math.Pow(f, pwr)` with `pwr = 3.0`: the cube. -/
def powCube : Float64 → Float64
  | finite q => ofRat (q ^ 3)
  | posInf => posInf
  | negInf => negInf
  | nan => nan

end Float64

instance instAddFloat64 : Add Float64 := ⟨Float64.add⟩
instance instSubFloat64 : Sub Float64 := ⟨Float64.sub⟩
instance instMulFloat64 : Mul Float64 := ⟨Float64.mul⟩
instance instDivFloat64 : Div Float64 := ⟨Float64.div⟩
instance instNegFloat64 : Neg Float64 := ⟨Float64.neg⟩
instance instLTFloat64 : LT Float64 := ⟨fun a b => Float64.lt a b = true⟩
instance instLEFloat64 : LE Float64 := ⟨fun a b => Float64.le a b = true⟩
instance instDecidableLTFloat64 (a b : Float64) : Decidable (a < b) :=
  inferInstanceAs (Decidable (Float64.lt a b = true))
instance instDecidableLEFloat64 (a b : Float64) : Decidable (a ≤ b) :=
  inferInstanceAs (Decidable (Float64.le a b = true))

/-- The one library function taken as a parameter: `powThird x` is the `float64` that
`math.Pow(x, 1.0/3)` returns for a positive finite `x` (a value close to the cube root of `x`,
not always the nearest one). -/
structure GoMath where
  powThird : ℚ → ℚ

/-- Go `math.Pow(x, 1.0/pwr)` with `pwr = 3.0`: NaN for NaN and for a negative finite base,
`+Inf` for both infinities, `0` for `0`, and the library value for a positive finite base. -/
def powThird (L : GoMath) : Float64 → Float64
  | .finite q => if q < 0 then .nan else if q = 0 then .finite 0 else .finite (L.powThird q)
  | .posInf => .posInf
  | .negInf => .posInf
  | .nan => .nan

/-! ### Sensors (`internal/sensor_controller.go`, `internal/utils.go`) -/

/-- Go `config.SensorConfig`, the fields the value handler reads. -/
structure SensorConfig where
  JSONEntry : Option String
  Offset : Float64
  Scale : Float64
  Weight : Float64

/-- The data fields of Go `SensorController`. -/
structure SensorController where
  name : String
  cfg : SensorConfig
  value : Float64
  timestamp : Time

/-- The two decoders of `extractF64PlainOrJson` as parameters; `strconv.ParseFloat` may return
NaN or an infinity with a nil error (for the payloads `NaN`, `Inf`, `+Inf`, `-Inf`,
`Infinity`), a JSON number is always finite. -/
structure Decoders where
  parseFloat : String → Option Float64
  jsonUnmarshal : String → Option (String → Option JsonValue)

/-- Go `extractF64PlainOrJson`. -/
def extractF64PlainOrJson (d : Decoders) (message : Message) (JSONEntry : Option String) :
    Except ExtractError Float64 :=
  match JSONEntry with
  | none =>
    match d.parseFloat message.payload with
    | some x => .ok x
    | none => .error .parseFloat
  | some entry =>
    match d.jsonUnmarshal message.payload with
    | none => .error .unmarshal
    | some valMap =>
      match valMap entry with
      | none => .error .notFound
      | some (.number t0) => .ok (.finite t0)
      | some _ => .error .cannotCast

/-- A decoder pair for worked examples: it knows the plain payloads `NaN`, `+Inf` and `21.5`. -/
def sampleDecoders : Decoders where
  parseFloat := fun s =>
    if s = "NaN" then some .nan
    else if s = "+Inf" then some .posInf
    else if s = "21.5" then some (.finite 21.5)
    else none
  jsonUnmarshal := fun _ => none

/-- What the value handler does to the outside world: the database upsert of `writeState` and
the send on `controlChan`, in program order. -/
inductive Effect where
  | upsertSensorValue (sensorName : String) (value : Float64)
  | controlChanSend
  deriving DecidableEq

/-- Go `SensorController.ValueUpdateHandler`. -/
def SensorController.ValueUpdateHandler (d : Decoders) (s : SensorController)
    (message : Message) : SensorController × List Effect :=
  match extractF64PlainOrJson d message s.cfg.JSONEntry with
  | .error _ => (s, [])
  | .ok t0 =>
    let oldValue := s.value
    let s : SensorController := { s with value := t0 * s.cfg.Scale + s.cfg.Offset }
    let written := [Effect.upsertSensorValue s.name s.value]
    if Float64.ne oldValue s.value then (s, written ++ [Effect.controlChanSend])
    else (s, written)

/-- A sensor as `NewSensorController` builds it without a stored row, with the `FillDefaults`
configuration (offset 0, scale 1, weight 1). -/
def sampleSensor : SensorController :=
  { name := "zone-living-1"
    cfg := { JSONEntry := none, Offset := .finite 0.0, Scale := .finite 1.0,
             Weight := .finite 1.0 }
    value := .finite 0
    timestamp := zeroTS }

/-! ### Per-zone demand (`internal/thermo_controller.go`, `internal/thermo_model/model.go`,
`internal/zone_controller.go`) -/

def minValidTemp : Float64 := .finite (-100.0)
def defaultTSet : Float64 := .finite 10.0
def minEnableTemp : Float64 := .finite 18.0
def maxTSet : Float64 := .finite 75.0
def minTSet : Float64 := .finite 20.0
def fallbackTSet : Float64 := .finite 10.0

/-- Go `boundTset`; both comparisons are false for NaN, which is returned as it is. -/
def boundTset (tset : Float64) : Float64 :=
  if tset > maxTSet then maxTSet
  else if tset < minTSet then fallbackTSet
  else tset

/-- Go `config.ZoneConfig`, the fields the engine reads. -/
structure ZoneConfig where
  HeatingParameter : Option Float64
  Weight : Float64

/-- The data fields of Go `ZoneController` that the engine reads. -/
structure ZoneController where
  name : String
  cfg : ZoneConfig
  setpoint : Float64
  setpointTimestamp : Time
  averageTemperature : Float64
  averageTimestamp : Time

/-- Go `ZoneController.getPair`. -/
def ZoneController.getPair (z : ZoneController) : Float64 × Float64 × Bool :=
  (z.setpoint, z.averageTemperature,
    z.setpointTimestamp.After zeroTS && z.averageTimestamp.After zeroTS)

namespace thermo_model

/-- The coefficient table `mCoeff` as `float64` values. -/
def mCoeff : List Float64 := Mzotbc.thermo_model.mCoeff.map Float64.finite

/-- The indexed write `a[i] = v` on a Go array; `none` is the out-of-range panic. -/
def setAt (a : List Float64) (i : Nat) (v : Float64) : Option (List Float64) :=
  if i < a.length then some (a.set i v) else none

/-- Body of the loop `for i := 2; i <= maxPower; i++` filling the three power tables. -/
def powerStep (hp sp ot : Float64) (tables : List Float64 × List Float64 × List Float64)
    (i : Nat) : Option (List Float64 × List Float64 × List Float64) := do
  let hpPwr ← setAt tables.1 i ((← tables.1[i - 1]?) * hp)
  let spPwr ← setAt tables.2.1 i ((← tables.2.1[i - 1]?) * sp)
  let otPwr ← setAt tables.2.2 i ((← tables.2.2[i - 1]?) * ot)
  pure (hpPwr, spPwr, otPwr)

/-- Body of the loop `for i := 0; i < nelCoeff; i++` accumulating `tset`. -/
def termStep (hpPwr spPwr otPwr : List Float64) (tset : Float64) (i : Nat) :
    Option Float64 := do
  let c ← mCoeff[i]?
  let h ← hpPwr[(← Mzotbc.thermo_model.mTermsHP[i]?)]?
  let s ← spPwr[(← Mzotbc.thermo_model.mTermsSP[i]?)]?
  let o ← otPwr[(← Mzotbc.thermo_model.mTermsOT[i]?)]?
  pure (tset + c * h * s * o)

/-- Go `thermo_model.CalculateSetpoint`; `none` is an index-out-of-range panic. -/
def CalculateSetpoint (hp sp ot _rt : Float64) : Option Float64 := do
  let zeroed : List Float64 :=
    List.replicate (Mzotbc.thermo_model.maxPower + 1) (Float64.finite 0)
  let hpPwr ← setAt zeroed 0 (.finite 1.0)
  let spPwr ← setAt zeroed 0 (.finite 1.0)
  let otPwr ← setAt zeroed 0 (.finite 1.0)
  let hpPwr ← setAt hpPwr 1 hp
  let spPwr ← setAt spPwr 1 sp
  let otPwr ← setAt otPwr 1 ot
  let tables ← (List.range' 2 (Mzotbc.thermo_model.maxPower + 1 - 2)).foldlM
    (powerStep hp sp ot) (hpPwr, spPwr, otPwr)
  (List.range Mzotbc.thermo_model.nelCoeff).foldlM
    (termStep tables.1 tables.2.1 tables.2.2) (.finite 0.0)

end thermo_model

/-- Go `config.Config`, the field the demand computation reads. -/
structure Config where
  DefaultHeatingParameter : Float64

/-- The fields of Go `ThermoController` that `calculateSetpoint` reads. -/
structure ThermoController where
  cfg : Config

/-- Go `ThermoController.getHeatingParameter`. -/
def ThermoController.getHeatingParameter (c : ThermoController) (zone : ZoneController) :
    Float64 :=
  match zone.cfg.HeatingParameter with
  | some hp => hp
  | none => c.cfg.DefaultHeatingParameter

/-- Go `ThermoController.calculateSetpoint`; `none` is a panic inside the thermal model. -/
def ThermoController.calculateSetpoint (c : ThermoController) (zone : ZoneController)
    (OT : Float64) : Option (Float64 × Bool) :=
  let sp := zone.getPair.1
  let rt := zone.getPair.2.1
  let ok := zone.getPair.2.2
  let hp := c.getHeatingParameter zone
  let dT := (rt - sp) * .finite 1.5
  let hp := hp - dT
  if ok && decide (OT > minValidTemp) then do
    let tset ← thermo_model.CalculateSetpoint hp zone.setpoint OT zone.averageTemperature
    let tset := boundTset tset
    let tset :=
      if OT > sp - .finite 3.0 ∨ rt > sp + .finite 2.0 then fallbackTSet else tset
    pure (tset, true)
  else
    pure (.finite 0.0, false)

/-- One key of the Go maps `updateMap` and `zoneTRs`: the zone, its dirty flag and its stored
demand. -/
structure ZoneEntry where
  zone : ZoneController
  needsUpdate : Bool
  TR : Float64

/-- One iteration of the loop `for zone, needsUpdate := range c.updateMap` of `handleUpdate`:
the row after the iteration and whether `needTRupdate` was set by it. -/
def ThermoController.handleUpdateZone (c : ThermoController) (OT : Float64) (e : ZoneEntry) :
    Option (ZoneEntry × Bool) :=
  if !e.needsUpdate then some (e, false)
  else do
    let r ← c.calculateSetpoint e.zone OT
    let newTR := r.1
    let ok := r.2
    if ok && Float64.ne newTR e.TR then
      pure ({ e with needsUpdate := false, TR := newTR }, true)
    else
      pure ({ e with needsUpdate := false }, false)

/-- A zone with valid setpoint 20 and valid average temperature 20, weight 1 and no
heating-parameter override. -/
def sampleZone : ZoneController :=
  { name := "living"
    cfg := { HeatingParameter := none, Weight := .finite 1.0 }
    setpoint := .finite 20
    setpointTimestamp := 1700000000000000
    averageTemperature := .finite 20
    averageTimestamp := 1700000001000000 }

/-- A second zone, `bedroom`, with the same readings as the sample zone. -/
def bedroomZone : ZoneController :=
  { sampleZone with name := "bedroom" }

/-- An engine with the default heating parameter 15. -/
def sampleController : ThermoController :=
  { cfg := { DefaultHeatingParameter := .finite 15.0 } }

/-! ### Cross-zone aggregation (`internal/thermo_controller.go`) -/

/-- The record marshalled by Go `ThermoMarshalHelper`. -/
structure ZoneReport where
  Zone : String
  Setpoint : Float64
  Temperature : Float64
  CS : Float64
  deriving DecidableEq

/-- Go `json.Marshal` of the report: it fails (`none`) when one of the three numbers is NaN or
an infinity. -/
def jsonMarshal (report : ZoneReport) : Option ZoneReport :=
  if report.Setpoint.isFinite && report.Temperature.isFinite && report.CS.isFinite then
    some report
  else none

/-- Go `ThermoMarshalHelper`: reading the fields of a nil zone panics (outer `none`); when
`json.Marshal` fails the error is logged and the nil byte slice is returned (inner `none`, an
empty payload). -/
def ThermoMarshalHelper (t : Float64) (z : Option ZoneController) :
    Option (Option ZoneReport) :=
  match z with
  | none => none
  | some z =>
    some (jsonMarshal
      { CS := t, Setpoint := z.setpoint, Temperature := z.averageTemperature, Zone := z.name })

/-- The three diagnostic publishes of `averageSetpoints` with their payloads (`none` is the
empty payload). -/
inductive EngineEffect where
  | publishMaxdiff (payload : Option ZoneReport)
  | publishMaxcs (payload : Option ZoneReport)
  | publishMincs (payload : Option ZoneReport)
  deriving DecidableEq

/-- The variables carried by the first loop of `averageSetpoints`. -/
structure DemandScan where
  maxT : Float64
  minT : Float64
  maxDiff : Float64
  maxZone : Option ZoneController
  minZone : Option ZoneController
  maxDiffZone : Option ZoneController

/-- The initial values `maxT, minT, maxDiff := -1000.0, 1000.0, -10000.0` and nil zones. -/
def scanInit : DemandScan :=
  { maxT := .finite (-1000.0), minT := .finite 1000.0, maxDiff := .finite (-10000.0),
    maxZone := none, minZone := none, maxDiffZone := none }

/-- Body of the first loop of `averageSetpoints` for the map entry `zone ↦ f`. -/
def scanStep (s : DemandScan) (e : ZoneController × Float64) : DemandScan :=
  let zone := e.1
  let f := e.2
  let s : DemandScan := if f > s.maxT then { s with maxT := f, maxZone := some zone } else s
  let s : DemandScan :=
    if f < s.minT ∧ f > .finite 10.0 then { s with minT := f, minZone := some zone } else s
  let md := zone.setpoint - zone.averageTemperature
  if md > s.maxDiff then { s with maxDiffZone := some zone, maxDiff := md } else s

/-- The cutoff `tCut := minT + 0.7*(maxT-minT)`. -/
def tCutOf (s : DemandScan) : Float64 :=
  s.minT + .finite 0.7 * (s.maxT - s.minT)

/-- Body of the second loop of `averageSetpoints` on the accumulators `(tAvg, weight)`. -/
def accumulateStep (tCut : Float64) (acc : Float64 × Float64) (e : ZoneController × Float64) :
    Float64 × Float64 :=
  let zone := e.1
  let f := e.2
  if f ≥ tCut then (acc.1 + zone.cfg.Weight * f.powCube, acc.2 + zone.cfg.Weight) else acc

/-- The value of `tSet` after the `if weight > 0` block of `averageSetpoints`. -/
def tSetOf (L : GoMath) (tAvg weight : Float64) : Float64 :=
  if weight > .finite 0 then
    boundTset (Float64.round (powThird L (tAvg / weight) * .finite 2) / .finite 2)
  else defaultTSet

/-- The diagnostic publishes of `averageSetpoints`: `maxdiff` unconditionally (a nil
`maxDiffZone` panics inside `ThermoMarshalHelper`), `maxcs` and `mincs` only for a non-nil
zone. -/
def diagnosticsOf (s : DemandScan) : Option (List EngineEffect) := do
  let r ← ThermoMarshalHelper s.maxDiff s.maxDiffZone
  let maxcs ←
    match s.maxZone with
    | some z => (ThermoMarshalHelper s.maxT (some z)).map (fun r => [EngineEffect.publishMaxcs r])
    | none => some []
  let mincs ←
    match s.minZone with
    | some z => (ThermoMarshalHelper s.minT (some z)).map (fun r => [EngineEffect.publishMincs r])
    | none => some []
  pure (EngineEffect.publishMaxdiff r :: (maxcs ++ mincs))

/-- The `(tSet, chEnable)` that `averageSetpoints` computes from the map `zoneTRs` (given as the
list of its entries in iteration order) before it publishes the diagnostics. -/
def aggregateOf (L : GoMath) (zoneTRs : List (ZoneController × Float64)) : Float64 × Bool :=
  let s := zoneTRs.foldl scanStep scanInit
  let tCut := tCutOf s
  let acc := zoneTRs.foldl (accumulateStep tCut) (.finite 0.0, .finite 0.0)
  let tSet := tSetOf L acc.1 acc.2
  let chEnable := decide (tSet ≥ minEnableTemp)
  (tSet, chEnable)

/-- Go `ThermoController.averageSetpoints` as a function of the map `zoneTRs` it ranges over:
the diagnostic publishes and the returned `(tSet, chEnable)`; `none` is the nil-pointer panic
in `ThermoMarshalHelper`. -/
def averageSetpoints (L : GoMath) (zoneTRs : List (ZoneController × Float64)) :
    Option (List EngineEffect × Float64 × Bool) :=
  (diagnosticsOf (zoneTRs.foldl scanStep scanInit)).map
    (fun published => (published, aggregateOf L zoneTRs))

/-- The setpoint gap `zone.setpoint - zone.averageTemperature` of a map entry. -/
def gapOf (e : ZoneController × Float64) : Float64 :=
  e.1.setpoint - e.1.averageTemperature

/-- The entries that pass the test `f >= tCut` of the second loop. -/
def chosenAt (tCut : Float64) (zoneTRs : List (ZoneController × Float64)) :
    List (ZoneController × Float64) :=
  zoneTRs.filter (fun e => decide (e.2 ≥ tCut))

/-- The sample zone with the weight `+Inf` (payload `Inf` on its `weight` control topic). -/
def infiniteWeightZone : ZoneController :=
  { sampleZone with cfg := { HeatingParameter := none, Weight := .posInf } }

/-- The sample zone with the weight `1e308` (payload `1e308` on its `weight` control
topic). -/
def heavyZone : ZoneController :=
  { sampleZone with cfg := { HeatingParameter := none, Weight := .finite (10 ^ 308) } }

/-- A zone `bedroom` with the readings of the sample zone and the weight `1e308`. -/
def heavyBedroomZone : ZoneController :=
  { heavyZone with name := "bedroom" }

/-- The sum `sum(weight_i * math.Pow(demand_i, 3))` as the second loop of `averageSetpoints`
accumulates it from `0.0`, in iteration order. -/
def weightedCubeSum (zs : List (ZoneController × Float64)) : Float64 :=
  zs.foldl (fun s e => s + e.1.cfg.Weight * e.2.powCube) (.finite 0.0)

/-- The sum `sum(weight_i)` as the second loop of `averageSetpoints` accumulates it from
`0.0`, in iteration order. -/
def zoneWeightSum (zs : List (ZoneController × Float64)) : Float64 :=
  zs.foldl (fun s e => s + e.1.cfg.Weight) (.finite 0.0)

/-- The full record of the sample zone (`living`, setpoint 20, temperature 20) with driving
value `cs`. -/
def sampleReport (cs : Float64) : ZoneReport :=
  { Zone := "living", Setpoint := .finite 20, Temperature := .finite 20, CS := cs }

/-- Values of `math.Pow(x, 1.0/3)` for worked examples, as `float64` arithmetic gives them:
one unit in the last place below the exact cube roots 40 and 20.25 (the exponent `1.0/3` is
below one third), and 1 elsewhere. -/
def sampleMath : GoMath where
  powThird := fun x =>
    if x = 64000 then 40 - 1 / 2 ^ 47
    else if x = 531441 / 64 then 81 / 4 - 1 / 2 ^ 48
    else 1

end ieee

/-! ## Theorems -/

/-- C1: `boundTset t` is `75.0` for `t > 75.0`, the fallback `10.0` for `t < 20.0`, and `t`
itself for `20.0 ≤ t ≤ 75.0`; in particular `boundTset 80.0 = 75.0`, `boundTset 19.9 = 10.0`,
`boundTset 20.0 = 20.0` and `boundTset 50.0 = 50.0`. -/
theorem boundTset_spec :
    (∀ t : ℚ, 75.0 < t → boundTset t = 75.0) ∧
    (∀ t : ℚ, t < 20.0 → boundTset t = 10.0) ∧
    (∀ t : ℚ, 20.0 ≤ t → t ≤ 75.0 → boundTset t = t) ∧
    boundTset 80.0 = 75.0 ∧ boundTset 19.9 = 10.0 ∧
    boundTset 20.0 = 20.0 ∧ boundTset 50.0 = 50.0 := by
  refine ⟨?_, ?_, ?_, ?_, ?_, ?_, ?_⟩
  · intro t ht
    simp only [boundTset, maxTSet]
    rw [if_pos ht]
  · intro t ht
    have h1 : ¬ t > (75.0 : ℚ) := by norm_num at ht ⊢; linarith
    simp only [boundTset, maxTSet, minTSet, fallbackTSet]
    rw [if_neg h1, if_pos ht]
  · intro t h1 h2
    simp only [boundTset, maxTSet, minTSet]
    rw [if_neg (not_lt.mpr h2), if_neg (not_lt.mpr h1)]
  all_goals norm_num [boundTset, maxTSet, minTSet, fallbackTSet]

theorem sensorsMean_foldl (sensors : List SensorController) (acc : ℚ × ℚ) :
    sensors.foldl sensorsMeanStep acc =
      (acc.1 + weightedValueSum (reported sensors), acc.2 + weightSum (reported sensors)) := by
  induction sensors generalizing acc with
  | nil => simp [reported, weightSum, weightedValueSum]
  | cons s rest ih =>
    rw [List.foldl_cons, ih]
    by_cases h : s.timestamp.After zeroTS = true
    · simp [sensorsMeanStep, reported, weightSum, weightedValueSum, h, add_assoc]
    · simp [sensorsMeanStep, reported, weightSum, weightedValueSum, h]

theorem sensorsMean_eq (now : Time) (sensors : List SensorController) :
    sensorsMean now sensors =
      if weightSum (reported sensors) < epsilon then (0, zeroTS)
      else (weightedValueSum (reported sensors) / weightSum (reported sensors), now) := by
  simp [sensorsMean, sensorsMean_foldl]

theorem reported_remove (l1 l2 : List SensorController) (s : SensorController)
    (hs : s.timestamp.After zeroTS = false) :
    reported (l1 ++ s :: l2) = reported (l1 ++ l2) := by
  simp [reported, List.filter_append, List.filter_cons, hs]

/-- C2: `sensorsMean` returns `Σ value_i*weight_i / Σ weight_i` over the sensors whose timestamp
is after `zeroTS` together with the valid timestamp `now`; when that weight sum is below `1e-10`
(in particular when no sensor has reported) it returns `(0, zeroTS)`; a sensor whose timestamp
is not after `zeroTS` may be removed, or replaced by any other such sensor, without changing
the result. -/
theorem sensorsMean_spec (now : Time) (hnow : now.After zeroTS = true)
    (sensors : List SensorController) :
    (weightSum (reported sensors) < 1e-10 → sensorsMean now sensors = (0, zeroTS)) ∧
    (¬ weightSum (reported sensors) < 1e-10 →
      sensorsMean now sensors =
        (weightedValueSum (reported sensors) / weightSum (reported sensors), now) ∧
      (sensorsMean now sensors).2.After zeroTS = true) ∧
    (reported sensors = [] → sensorsMean now sensors = (0, zeroTS)) ∧
    (∀ l1 l2 s s', sensors = l1 ++ s :: l2 →
      s.timestamp.After zeroTS = false → s'.timestamp.After zeroTS = false →
      sensorsMean now sensors = sensorsMean now (l1 ++ l2) ∧
      sensorsMean now sensors = sensorsMean now (l1 ++ s' :: l2)) := by
  refine ⟨?_, ?_, ?_, ?_⟩
  · intro h
    rw [sensorsMean_eq, epsilon, if_pos h]
  · intro h
    have e : sensorsMean now sensors =
        (weightedValueSum (reported sensors) / weightSum (reported sensors), now) := by
      rw [sensorsMean_eq, epsilon, if_neg h]
    exact ⟨e, by rw [e]; exact hnow⟩
  · intro h
    rw [sensorsMean_eq, h]
    norm_num [weightSum, epsilon]
  · intro l1 l2 s s' hl hs hs'
    subst hl
    constructor
    · rw [sensorsMean_eq, sensorsMean_eq, reported_remove l1 l2 s hs]
    · rw [sensorsMean_eq, sensorsMean_eq, reported_remove l1 l2 s hs,
        reported_remove l1 l2 s' hs']

/-- Witness for C2: one reporting sensor (21.5, weight 2) and one that never reported. -/
theorem sensorsMean_spec_witness :
    sensorsMean 1700000000000000
      [⟨"a", ⟨"a", "t/a", none, 0, 1, 2⟩, 21.5, 1699999999000000⟩,
       ⟨"b", ⟨"b", "t/b", none, 0, 1, 5⟩, 99, zeroTS⟩]
      = (21.5, 1700000000000000) := by
  have h := (sensorsMean_spec 1700000000000000 (by decide)
      [⟨"a", ⟨"a", "t/a", none, 0, 1, 2⟩, 21.5, 1699999999000000⟩,
       ⟨"b", ⟨"b", "t/b", none, 0, 1, 5⟩, 99, zeroTS⟩]).2.1
  have hr : reported
      [⟨"a", ⟨"a", "t/a", none, 0, 1, 2⟩, 21.5, 1699999999000000⟩,
       ⟨"b", ⟨"b", "t/b", none, 0, 1, 5⟩, 99, zeroTS⟩]
      = [⟨"a", ⟨"a", "t/a", none, 0, 1, 2⟩, 21.5, 1699999999000000⟩] := by
    simp [reported, Time.After, zeroTS]
  rw [hr] at h
  have h2 := (h (by norm_num [weightSum])).1
  rw [h2]
  norm_num [weightSum, weightedValueSum]

/-! ### Sensor and setpoint update handlers -/

theorem ValueUpdateHandler_ok (d : Decoders) (s : SensorController) (message : Message) (r : ℚ)
    (h : extractF64PlainOrJson d message s.cfg.JSONEntry = .ok r) :
    s.ValueUpdateHandler d message =
      ({ s with value := r * s.cfg.Scale + s.cfg.Offset },
        Effect.upsertSensorValue s.name (r * s.cfg.Scale + s.cfg.Offset) ::
          (if r * s.cfg.Scale + s.cfg.Offset ≠ s.value then [Effect.controlChanSend] else [])) := by
  unfold SensorController.ValueUpdateHandler
  rw [h]
  by_cases hv : s.value = r * s.cfg.Scale + s.cfg.Offset
  · simp [hv]
  · have hv' : ¬ r * s.cfg.Scale + s.cfg.Offset = s.value := fun e => hv e.symm
    simp [hv, hv']

theorem ValueUpdateHandler_timestamp (d : Decoders) (s : SensorController) (message : Message) :
    (s.ValueUpdateHandler d message).1.timestamp = s.timestamp := by
  cases h : extractF64PlainOrJson d message s.cfg.JSONEntry with
  | error e => simp [SensorController.ValueUpdateHandler, h]
  | ok r => rw [ValueUpdateHandler_ok d s message r h]

/-- C3 (the code at the failing input): a sensor created without a stored value receives the
plain payload `21.5`.  The handler stores the value `21.5`, persists it and signals its owner,
but the timestamp is still `zeroTS`, so `sensorsMean` over this sensor still reports
`(0, zeroTS)`. -/
theorem ValueUpdateHandler_leaves_timestamp_never :
    ((NewSensorController 1700000000000000 none "zone-living-1" sampleSensorConfig
        ).ValueUpdateHandler sampleDecoders ⟨"home/living/temperature", "21.5"⟩).1.value = 21.5 ∧
    ((NewSensorController 1700000000000000 none "zone-living-1" sampleSensorConfig
        ).ValueUpdateHandler sampleDecoders ⟨"home/living/temperature", "21.5"⟩).1.timestamp
      = zeroTS ∧
    ((NewSensorController 1700000000000000 none "zone-living-1" sampleSensorConfig
        ).ValueUpdateHandler sampleDecoders ⟨"home/living/temperature", "21.5"⟩).2
      = [Effect.upsertSensorValue "zone-living-1" 21.5, Effect.controlChanSend] ∧
    sensorsMean 1700000001000000
      [((NewSensorController 1700000000000000 none "zone-living-1" sampleSensorConfig
        ).ValueUpdateHandler sampleDecoders ⟨"home/living/temperature", "21.5"⟩).1]
      = (0, zeroTS) := by
  have hx : extractF64PlainOrJson sampleDecoders ⟨"home/living/temperature", "21.5"⟩
      (NewSensorController 1700000000000000 none "zone-living-1" sampleSensorConfig).cfg.JSONEntry
      = .ok 21.5 := by
    simp [extractF64PlainOrJson, sampleDecoders, NewSensorController, sampleSensorConfig]
  rw [ValueUpdateHandler_ok _ _ _ _ hx]
  refine ⟨?_, ?_, ?_, ?_⟩
  · norm_num [NewSensorController, sampleSensorConfig]
  · simp [NewSensorController]
  · norm_num [NewSensorController, sampleSensorConfig]
  · rw [sensorsMean_eq]
    norm_num [reported, NewSensorController, Time.After, zeroTS, weightSum, epsilon]

theorem extractF64PlainOrJson_error_iff (d : Decoders) (message : Message)
    (entry : Option String) :
    (∃ e, extractF64PlainOrJson d message entry = .error e) ↔
      (entry = none ∧ d.parseFloat message.payload = none) ∨
      (∃ k, entry = some k ∧
        (d.jsonUnmarshal message.payload = none ∨
          ∃ m, d.jsonUnmarshal message.payload = some m ∧
            (m k = none ∨ ∃ v, m k = some v ∧ ∀ x, v ≠ JsonValue.number x))) := by
  cases entry with
  | none =>
    cases hp : d.parseFloat message.payload <;> simp [extractF64PlainOrJson, hp]
  | some k =>
    cases hu : d.jsonUnmarshal message.payload with
    | none => simp [extractF64PlainOrJson, hu]
    | some m =>
      cases hm : m k with
      | none => simp [extractF64PlainOrJson, hu, hm]
      | some v => cases v <;> simp [extractF64PlainOrJson, hu, hm]

theorem setpointUpdateHandler_ok (d : Decoders) (now : Time) (z : ZoneController)
    (message : Message) (r : ℚ)
    (h : extractF64PlainOrJson d message z.cfg.Setpoint.JSONEntry = .ok r) :
    z.setpointUpdateHandler d now message =
      ({ z with
          setpoint := r * z.cfg.Setpoint.Scale + z.cfg.Setpoint.Offset
          setpointTimestamp := now },
        Effect.upsertZoneSetpoint z.name (r * z.cfg.Setpoint.Scale + z.cfg.Setpoint.Offset) ::
          (if r ≠ z.setpoint then [Effect.childChanSend] else [])) := by
  unfold ZoneController.setpointUpdateHandler
  rw [h]
  by_cases hv : r = z.setpoint <;> simp [hv]

/-- C5: a payload that `extractF64PlainOrJson` rejects leaves the sensor (value, timestamp and
everything else) and the zone (setpoint, its timestamp and everything else) exactly as they
were, with no database write and no channel send; and the rejected payloads are exactly the
plain ones that do not parse as a number and, with a JSON field configured, the ones that do
not unmarshal, lack the field, or hold a non-number in it. -/
theorem rejected_payload_changes_nothing (d : Decoders) (now : Time) (s : SensorController)
    (z : ZoneController) (message : Message) :
    (∀ e, extractF64PlainOrJson d message s.cfg.JSONEntry = .error e →
      s.ValueUpdateHandler d message = (s, [])) ∧
    (∀ e, extractF64PlainOrJson d message z.cfg.Setpoint.JSONEntry = .error e →
      z.setpointUpdateHandler d now message = (z, [])) ∧
    (∀ entry : Option String,
      (∃ e, extractF64PlainOrJson d message entry = .error e) ↔
        (entry = none ∧ d.parseFloat message.payload = none) ∨
        (∃ k, entry = some k ∧
          (d.jsonUnmarshal message.payload = none ∨
            ∃ m, d.jsonUnmarshal message.payload = some m ∧
              (m k = none ∨ ∃ v, m k = some v ∧ ∀ x, v ≠ JsonValue.number x)))) := by
  refine ⟨?_, ?_, extractF64PlainOrJson_error_iff d message⟩
  · intro e h
    simp [SensorController.ValueUpdateHandler, h]
  · intro e h
    simp [ZoneController.setpointUpdateHandler, h]

/-- Witness for C5: the payload `warm` is not a number; the sample sensor and the sample zone
both ignore it. -/
theorem rejected_payload_changes_nothing_witness :
    (NewSensorController 1700000000000000 (some 19) "zone-living-1" sampleSensorConfig
      ).ValueUpdateHandler sampleDecoders ⟨"home/living/temperature", "warm"⟩
      = (NewSensorController 1700000000000000 (some 19) "zone-living-1" sampleSensorConfig, []) ∧
    (sampleScaledZone.setpointUpdateHandler sampleDecoders 1700000002000000
      ⟨"home/living/setpoint", "warm"⟩).2 = [] := by
  have h := rejected_payload_changes_nothing sampleDecoders 1700000002000000
    (NewSensorController 1700000000000000 (some 19) "zone-living-1" sampleSensorConfig)
    sampleScaledZone ⟨"home/living/temperature", "warm"⟩
  have h2 := rejected_payload_changes_nothing sampleDecoders 1700000002000000
    (NewSensorController 1700000000000000 (some 19) "zone-living-1" sampleSensorConfig)
    sampleScaledZone ⟨"home/living/setpoint", "warm"⟩
  constructor
  · exact h.1 ExtractError.parseFloat
      (by simp [extractF64PlainOrJson, sampleDecoders, NewSensorController, sampleSensorConfig])
  · rw [h2.2.1 ExtractError.parseFloat
      (by simp [extractF64PlainOrJson, sampleDecoders, sampleScaledZone])]

theorem setpointUpdateHandler_send_iff (d : Decoders) (now : Time) (z : ZoneController)
    (message : Message) (r : ℚ)
    (h : extractF64PlainOrJson d message z.cfg.Setpoint.JSONEntry = .ok r) :
    (z.setpointUpdateHandler d now message).1.setpoint
        = r * z.cfg.Setpoint.Scale + z.cfg.Setpoint.Offset ∧
    (z.setpointUpdateHandler d now message).1.setpointTimestamp = now ∧
    (Effect.childChanSend ∈ (z.setpointUpdateHandler d now message).2 ↔ r ≠ z.setpoint) := by
  rw [setpointUpdateHandler_ok d now z message r h]
  refine ⟨rfl, rfl, ?_⟩
  by_cases hv : r = z.setpoint <;> simp [hv]

/-- C6 (the code at the failing input): a zone whose setpoint topic is scaled by 2 holds the
setpoint 20 from an earlier delivery of the raw value 10.  Delivering the raw value 10 again
leaves the setpoint at 20 and still notifies the recompute queue; delivering the raw value 20
changes the setpoint to 40 and does not notify.  In both cases the setpoint and its timestamp
are stored as `raw*scale + offset` and `now`. -/
theorem setpointUpdateHandler_compares_raw_value :
    (sampleScaledZone.setpointUpdateHandler sampleDecoders 1700000002000000
      ⟨"home/living/setpoint", "10"⟩).1.setpoint = sampleScaledZone.setpoint ∧
    (sampleScaledZone.setpointUpdateHandler sampleDecoders 1700000002000000
      ⟨"home/living/setpoint", "10"⟩).1.setpointTimestamp = 1700000002000000 ∧
    Effect.childChanSend ∈ (sampleScaledZone.setpointUpdateHandler sampleDecoders
      1700000002000000 ⟨"home/living/setpoint", "10"⟩).2 ∧
    (sampleScaledZone.setpointUpdateHandler sampleDecoders 1700000002000000
      ⟨"home/living/setpoint", "20"⟩).1.setpoint = 40 ∧
    sampleScaledZone.setpoint = 20 ∧
    Effect.childChanSend ∉ (sampleScaledZone.setpointUpdateHandler sampleDecoders
      1700000002000000 ⟨"home/living/setpoint", "20"⟩).2 := by
  have h10 : extractF64PlainOrJson sampleDecoders ⟨"home/living/setpoint", "10"⟩
      sampleScaledZone.cfg.Setpoint.JSONEntry = .ok 10 := by
    simp [extractF64PlainOrJson, sampleDecoders, sampleScaledZone]
  have h20 : extractF64PlainOrJson sampleDecoders ⟨"home/living/setpoint", "20"⟩
      sampleScaledZone.cfg.Setpoint.JSONEntry = .ok 20 := by
    simp [extractF64PlainOrJson, sampleDecoders, sampleScaledZone]
  rw [setpointUpdateHandler_ok _ _ _ _ _ h10, setpointUpdateHandler_ok _ _ _ _ _ h20]
  refine ⟨?_, rfl, ?_, ?_, rfl, ?_⟩
  · norm_num [sampleScaledZone]
  · norm_num [sampleScaledZone]
  · norm_num [sampleScaledZone]
  · simp [sampleScaledZone]

/-! ### Thermal model -/

theorem termStep_eq (h0 h1 h2 h3 s0 s1 s2 s3 o0 o1 o2 o3 : ℚ) (tset : ℚ) (i : Nat)
    (hi : i < 14) :
    thermo_model.termStep [h0, h1, h2, h3] [s0, s1, s2, s3] [o0, o1, o2, o3] tset i =
      some (tset + thermo_model.mCoeff.getD i 0 *
        [h0, h1, h2, h3].getD (thermo_model.mTermsHP.getD i 0) 0 *
        [s0, s1, s2, s3].getD (thermo_model.mTermsSP.getD i 0) 0 *
        [o0, o1, o2, o3].getD (thermo_model.mTermsOT.getD i 0) 0) := by
  interval_cases i <;> rfl

theorem termFold_eq (h0 h1 h2 h3 s0 s1 s2 s3 o0 o1 o2 o3 : ℚ) (l : List Nat)
    (hl : ∀ i ∈ l, i < 14) (tset : ℚ) :
    l.foldlM (thermo_model.termStep [h0, h1, h2, h3] [s0, s1, s2, s3] [o0, o1, o2, o3]) tset =
      some (tset + (l.map (fun i => thermo_model.mCoeff.getD i 0 *
        [h0, h1, h2, h3].getD (thermo_model.mTermsHP.getD i 0) 0 *
        [s0, s1, s2, s3].getD (thermo_model.mTermsSP.getD i 0) 0 *
        [o0, o1, o2, o3].getD (thermo_model.mTermsOT.getD i 0) 0)).sum) := by
  induction l generalizing tset with
  | nil => simp
  | cons i rest ih =>
    have hi : i < 14 := hl i (List.mem_cons_self i rest)
    have hrest : ∀ k ∈ rest, k < 14 := fun k hk => hl k (List.mem_cons_of_mem i hk)
    rw [List.foldlM_cons, termStep_eq _ _ _ _ _ _ _ _ _ _ _ _ tset i hi]
    simp only [Option.bind_eq_bind, Option.some_bind]
    rw [ih hrest, List.map_cons, List.sum_cons, add_assoc]

theorem powerTable_getD (x : ℚ) (a : Nat) (ha : a ≤ 3) :
    [1.0, x, x * x, x * x * x].getD a 0 = x ^ a := by
  interval_cases a
  · norm_num
  · simp
  · simp [pow_two]
  · simp [pow_succ]

theorem sum_map_range (f : Nat → ℚ) (n : Nat) :
    ((List.range n).map f).sum = ∑ i in Finset.range n, f i := by
  induction n with
  | zero => simp
  | succ n ih => simp [List.range_succ, Finset.sum_range_succ, ih]

theorem CalculateSetpoint_unfold (hp sp ot rt : ℚ) :
    thermo_model.CalculateSetpoint hp sp ot rt =
      (List.range thermo_model.nelCoeff).foldlM
        (thermo_model.termStep [1.0, hp, hp * hp, hp * hp * hp]
          [1.0, sp, sp * sp, sp * sp * sp] [1.0, ot, ot * ot, ot * ot * ot]) 0.0 := by
  rfl

theorem mTerms_getD_le (i : Nat) (hi : i < 14) :
    thermo_model.mTermsHP.getD i 0 ≤ 2 ∧ thermo_model.mTermsSP.getD i 0 ≤ 3 ∧
    thermo_model.mTermsOT.getD i 0 ≤ 2 := by
  interval_cases i <;> decide

theorem CalculateSetpoint_eq (hp sp ot rt : ℚ) :
    thermo_model.CalculateSetpoint hp sp ot rt =
      some (∑ i in Finset.range 14,
        thermo_model.mCoeff.getD i 0 * hp ^ thermo_model.mTermsHP.getD i 0 *
          sp ^ thermo_model.mTermsSP.getD i 0 * ot ^ thermo_model.mTermsOT.getD i 0) := by
  rw [CalculateSetpoint_unfold,
    termFold_eq _ _ _ _ _ _ _ _ _ _ _ _ _
      (by intro i hi; simpa [thermo_model.nelCoeff] using hi),
    sum_map_range]
  have h0 : ((0.0 : ℚ)) = 0 := by norm_num
  rw [h0, zero_add]
  congr 1
  apply Finset.sum_congr rfl
  intro i hi
  have hi14 : i < 14 := by simpa [thermo_model.nelCoeff] using hi
  obtain ⟨ha, hb, hc⟩ := mTerms_getD_le i hi14
  rw [powerTable_getD hp _ (by omega), powerTable_getD sp _ hb, powerTable_getD ot _ (by omega)]

/-- C10: `CalculateSetpoint hp sp ot rt` returns (without an index panic) the unclamped sum over
the 14 table rows of `mCoeff[i] * hp^mTermsHP[i] * sp^mTermsSP[i] * ot^mTermsOT[i]`; the four
tables have 14 entries, every `hp` and `ot` exponent is at most 2 and every `sp` exponent at
most 3, so every power-table index is within `maxPower = 3`.  The result is not clamped: at
`hp = 30, sp = 20, ot = -10` it is above 113. -/
theorem CalculateSetpoint_spec (hp sp ot rt : ℚ) :
    thermo_model.CalculateSetpoint hp sp ot rt =
      some (∑ i in Finset.range 14,
        thermo_model.mCoeff.getD i 0 * hp ^ thermo_model.mTermsHP.getD i 0 *
          sp ^ thermo_model.mTermsSP.getD i 0 * ot ^ thermo_model.mTermsOT.getD i 0) ∧
    thermo_model.nelCoeff = 14 ∧ thermo_model.maxPower = 3 ∧
    thermo_model.mCoeff.length = 14 ∧ thermo_model.mTermsHP.length = 14 ∧
    thermo_model.mTermsSP.length = 14 ∧ thermo_model.mTermsOT.length = 14 ∧
    (∀ a ∈ thermo_model.mTermsHP, a ∈ [0, 1, 2]) ∧
    (∀ b ∈ thermo_model.mTermsSP, b ∈ [0, 1, 2, 3]) ∧
    (∀ c ∈ thermo_model.mTermsOT, c ∈ [0, 1, 2]) ∧
    thermo_model.CalculateSetpoint 30 20 (-10) 20 = some (11313899917 / 100000000) := by
  refine ⟨CalculateSetpoint_eq hp sp ot rt, rfl, rfl, rfl, rfl, rfl, rfl, ?_, ?_, ?_, ?_⟩
  · decide
  · decide
  · decide
  · rw [CalculateSetpoint_eq]
    norm_num [Finset.sum_range_succ, thermo_model.mCoeff, thermo_model.mTermsHP,
      thermo_model.mTermsSP, thermo_model.mTermsOT]

/-! ### Per-zone demand -/

theorem getPair_eq (zone : ZoneController) :
    zone.getPair.1 = zone.setpoint ∧ zone.getPair.2.1 = zone.averageTemperature ∧
    (zone.getPair.2.2 = true ↔
      zone.setpointTimestamp.After zeroTS = true ∧ zone.averageTimestamp.After zeroTS = true) := by
  simp [ZoneController.getPair]

theorem calculateSetpoint_invalid (c : ThermoController) (zone : ZoneController) (OT : ℚ)
    (h : ¬ (zone.getPair.2.2 = true ∧ OT > minValidTemp)) :
    c.calculateSetpoint zone OT = some (0, false) := by
  have hc : (zone.getPair.2.2 && decide (OT > minValidTemp)) = false := by
    cases hb : zone.getPair.2.2
    · simp
    · have : ¬ OT > minValidTemp := fun h2 => h ⟨hb, h2⟩
      simp [this]
  unfold ThermoController.calculateSetpoint
  simp only [hc]
  norm_num

theorem calculateSetpoint_valid (c : ThermoController) (zone : ZoneController) (OT : ℚ)
    (hok : zone.getPair.2.2 = true) (hOT : OT > minValidTemp) :
    ∃ m, thermo_model.CalculateSetpoint
        (c.getHeatingParameter zone - 1.5 * (zone.averageTemperature - zone.setpoint))
        zone.setpoint OT zone.averageTemperature = some m ∧
      c.calculateSetpoint zone OT =
        some (if OT > zone.setpoint - 3.0 ∨ zone.averageTemperature > zone.setpoint + 2.0
          then 10.0 else boundTset m, true) := by
  refine ⟨_, CalculateSetpoint_eq _ _ _ _, ?_⟩
  have hc : (zone.getPair.2.2 && decide (OT > minValidTemp)) = true := by
    simp [hok, hOT]
  have hmul : (zone.averageTemperature - zone.setpoint) * 1.5
      = 1.5 * (zone.averageTemperature - zone.setpoint) := mul_comm _ _
  unfold ThermoController.calculateSetpoint
  simp only [hc, (getPair_eq zone).1, (getPair_eq zone).2.1, hmul]
  rw [CalculateSetpoint_eq]
  simp only [fallbackTSet]
  rfl

/-- C7: `calculateSetpoint` always returns, and its `ok` is true exactly when the zone's
setpoint timestamp and average-temperature timestamp are both after `zeroTS` (the `bothValid`
of `getPair`) and `OT > -100.0`; when `ok` is false the demand is 0. -/
theorem calculateSetpoint_ok_iff (c : ThermoController) (zone : ZoneController) (OT : ℚ) :
    ∃ demand ok, c.calculateSetpoint zone OT = some (demand, ok) ∧
      (ok = true ↔
        (zone.setpointTimestamp.After zeroTS = true ∧
          zone.averageTimestamp.After zeroTS = true) ∧ OT > -100.0) ∧
      (ok = true ↔ zone.getPair.2.2 = true ∧ OT > -100.0) ∧
      (ok = false → demand = 0) := by
  have hmin : minValidTemp = -100.0 := rfl
  by_cases h : zone.getPair.2.2 = true ∧ OT > minValidTemp
  · obtain ⟨m, _, hm⟩ := calculateSetpoint_valid c zone OT h.1 h.2
    refine ⟨_, true, hm, ?_, ?_, ?_⟩
    · rw [← hmin, ← (getPair_eq zone).2.2]
      simp [h.1, h.2]
    · rw [← hmin]
      simp [h.1, h.2]
    · simp
  · refine ⟨0, false, calculateSetpoint_invalid c zone OT h, ?_, ?_, ?_⟩
    · rw [← hmin, ← (getPair_eq zone).2.2]
      simpa using h
    · rw [← hmin]
      simpa using h
    · simp

/-- C8: for a zone with valid setpoint `sp` and valid average temperature `rt` and `OT > -100`,
`calculateSetpoint` returns `(10.0, true)` when `OT > sp - 3.0` or `rt > sp + 2.0`, and otherwise
`(boundTset m, true)` where `m` is the result of
`CalculateSetpoint (hp - 1.5*(rt - sp)) sp OT rt` and `hp` is the zone's heating-parameter
override when set, the global default otherwise. -/
theorem calculateSetpoint_value (c : ThermoController) (zone : ZoneController) (OT : ℚ)
    (hsp : zone.setpointTimestamp.After zeroTS = true)
    (hrt : zone.averageTimestamp.After zeroTS = true) (hOT : OT > -100.0) :
    ∃ m, thermo_model.CalculateSetpoint
        (zone.cfg.HeatingParameter.getD c.cfg.DefaultHeatingParameter
          - 1.5 * (zone.averageTemperature - zone.setpoint))
        zone.setpoint OT zone.averageTemperature = some m ∧
      ((OT > zone.setpoint - 3.0 ∨ zone.averageTemperature > zone.setpoint + 2.0) →
        c.calculateSetpoint zone OT = some (10.0, true)) ∧
      (¬ (OT > zone.setpoint - 3.0 ∨ zone.averageTemperature > zone.setpoint + 2.0) →
        c.calculateSetpoint zone OT = some (boundTset m, true)) := by
  have hhp : c.getHeatingParameter zone
      = zone.cfg.HeatingParameter.getD c.cfg.DefaultHeatingParameter := by
    unfold ThermoController.getHeatingParameter
    cases zone.cfg.HeatingParameter <;> rfl
  obtain ⟨m, hm, hres⟩ := calculateSetpoint_valid c zone OT
    ((getPair_eq zone).2.2.mpr ⟨hsp, hrt⟩) hOT
  rw [hhp] at hm
  refine ⟨m, hm, ?_, ?_⟩
  · intro hcond
    rw [hres, if_pos hcond]
  · intro hcond
    rw [hres, if_neg hcond]

theorem sampleZone_valid :
    sampleZone.setpointTimestamp.After zeroTS = true ∧
    sampleZone.averageTimestamp.After zeroTS = true := by
  constructor <;> decide

theorem sampleModel_at_zero (rt : ℚ) :
    thermo_model.CalculateSetpoint 15 20 0 rt = some (20473199291 / 400000000) := by
  rw [CalculateSetpoint_eq]
  norm_num [Finset.sum_range_succ, thermo_model.mCoeff, thermo_model.mTermsHP,
    thermo_model.mTermsSP, thermo_model.mTermsOT]

theorem sampleModel_at_ambient (rt : ℚ) :
    thermo_model.CalculateSetpoint 15 20 (33 / 2) rt = some (198291757003 / 8000000000) := by
  rw [CalculateSetpoint_eq]
  norm_num [Finset.sum_range_succ, thermo_model.mCoeff, thermo_model.mTermsHP,
    thermo_model.mTermsSP, thermo_model.mTermsOT]

theorem sampleZone_heatingParameter (OT : ℚ) :
    thermo_model.CalculateSetpoint
        (sampleZone.cfg.HeatingParameter.getD sampleController.cfg.DefaultHeatingParameter
          - 1.5 * (sampleZone.averageTemperature - sampleZone.setpoint))
        sampleZone.setpoint OT sampleZone.averageTemperature
      = thermo_model.CalculateSetpoint 15 20 OT 20 := by
  have h : sampleZone.cfg.HeatingParameter.getD sampleController.cfg.DefaultHeatingParameter
      - 1.5 * (sampleZone.averageTemperature - sampleZone.setpoint) = 15 := by
    norm_num [sampleZone, sampleController]
  rw [h]
  rfl

/-- Witness for C8: the sample zone (setpoint 20, room 20, default heating parameter 15) at
outside temperature 0 gets the model output, about 51.18. -/
theorem calculateSetpoint_value_witness :
    sampleController.calculateSetpoint sampleZone 0 = some (20473199291 / 400000000, true) := by
  obtain ⟨m, hm, _, h2⟩ := calculateSetpoint_value sampleController sampleZone 0
    sampleZone_valid.1 sampleZone_valid.2 (by norm_num)
  rw [sampleZone_heatingParameter, sampleModel_at_zero] at hm
  have hm' : m = 20473199291 / 400000000 := (Option.some.inj hm).symm
  rw [h2 (by norm_num [sampleZone]), hm']
  norm_num [boundTset, maxTSet, minTSet, fallbackTSet]

/-- C9 (counterexample): the sample zone has valid setpoint 20 and valid room temperature 20;
with outside temperature `20 - 3.5` (above -100) its demand is the bounded model output, about
24.79, not the fallback 10.0. -/
theorem calculateSetpoint_ambient_counterexample :
    sampleZone.setpointTimestamp.After zeroTS = true ∧
    sampleZone.averageTimestamp.After zeroTS = true ∧
    sampleZone.setpoint - 3.5 > (-100.0 : ℚ) ∧
    sampleController.calculateSetpoint sampleZone (sampleZone.setpoint - 3.5)
      = some (198291757003 / 8000000000, true) ∧
    sampleController.calculateSetpoint sampleZone (sampleZone.setpoint - 3.5)
      ≠ some (10.0, true) := by
  have hOT : sampleZone.setpoint - 3.5 = (33 / 2 : ℚ) := by norm_num [sampleZone]
  have hval : sampleController.calculateSetpoint sampleZone (sampleZone.setpoint - 3.5)
      = some (198291757003 / 8000000000, true) := by
    obtain ⟨m, hm, hres⟩ := calculateSetpoint_valid sampleController sampleZone
      (sampleZone.setpoint - 3.5)
      ((getPair_eq sampleZone).2.2.mpr sampleZone_valid) (by norm_num [sampleZone, minValidTemp])
    have hhp : sampleController.getHeatingParameter sampleZone
        - 1.5 * (sampleZone.averageTemperature - sampleZone.setpoint) = 15 := by
      norm_num [ThermoController.getHeatingParameter, sampleZone, sampleController]
    rw [hhp, hOT] at hm
    have hm2 : thermo_model.CalculateSetpoint 15 sampleZone.setpoint (33 / 2)
        sampleZone.averageTemperature = thermo_model.CalculateSetpoint 15 20 (33 / 2) 20 := rfl
    rw [hm2, sampleModel_at_ambient] at hm
    have hm' : m = 198291757003 / 8000000000 := (Option.some.inj hm).symm
    rw [hres, hm']
    norm_num [boundTset, maxTSet, minTSet, fallbackTSet, sampleZone]
  refine ⟨sampleZone_valid.1, sampleZone_valid.2, ?_, hval, ?_⟩
  · norm_num [sampleZone]
  · rw [hval]
    norm_num

/-- C9 (amended): for a zone with valid inputs and `OT > -100`, the ambient override needs
`OT > sp - 3.0`: then the demand is forced to the fallback 10.0.  At `OT = sp - 3.5` it does
not fire: the demand is the bounded model output `boundTset m`, unless the room override
`rt > sp + 2.0` applies, which gives 10.0. -/
theorem calculateSetpoint_ambient (c : ThermoController) (zone : ZoneController) (OT : ℚ)
    (hsp : zone.setpointTimestamp.After zeroTS = true)
    (hrt : zone.averageTimestamp.After zeroTS = true) (hOT : OT > -100.0) :
    ∃ m, thermo_model.CalculateSetpoint
        (zone.cfg.HeatingParameter.getD c.cfg.DefaultHeatingParameter
          - 1.5 * (zone.averageTemperature - zone.setpoint))
        zone.setpoint OT zone.averageTemperature = some m ∧
      (OT > zone.setpoint - 3.0 → c.calculateSetpoint zone OT = some (10.0, true)) ∧
      (OT = zone.setpoint - 3.5 →
        c.calculateSetpoint zone OT =
          some (if zone.averageTemperature > zone.setpoint + 2.0 then 10.0 else boundTset m,
            true)) := by
  have hhp : c.getHeatingParameter zone
      = zone.cfg.HeatingParameter.getD c.cfg.DefaultHeatingParameter := by
    unfold ThermoController.getHeatingParameter
    cases zone.cfg.HeatingParameter <;> rfl
  obtain ⟨m, hm, hres⟩ := calculateSetpoint_valid c zone OT
    ((getPair_eq zone).2.2.mpr ⟨hsp, hrt⟩) hOT
  rw [hhp] at hm
  refine ⟨m, hm, ?_, ?_⟩
  · intro h
    rw [hres, if_pos (Or.inl h)]
  · intro h
    have hno : ¬ OT > zone.setpoint - 3.0 := by
      rw [h]
      norm_num
    rw [hres]
    by_cases hroom : zone.averageTemperature > zone.setpoint + 2.0
    · rw [if_pos (Or.inr hroom), if_pos hroom]
    · rw [if_neg (not_or.mpr ⟨hno, hroom⟩), if_neg hroom]

/-- Witness for C9 (amended): the sample zone at outside temperature `20 - 2.5`, which is
above `sp - 3.0`, is forced to the fallback 10.0. -/
theorem calculateSetpoint_ambient_witness :
    sampleController.calculateSetpoint sampleZone (35 / 2) = some (10.0, true) := by
  obtain ⟨_, _, h1, _⟩ := calculateSetpoint_ambient sampleController sampleZone (35 / 2)
    sampleZone_valid.1 sampleZone_valid.2 (by norm_num)
  exact h1 (by norm_num [sampleZone])

/-! ### Rounding of the cube root -/

theorem cube_strictMono : StrictMono (fun a : ℚ => a ^ 3) :=
  Odd.strictMono_pow (by decide : Odd 3)

theorem cube_lt_cube_iff (a b : ℚ) : a ^ 3 < b ^ 3 ↔ a < b :=
  cube_strictMono.lt_iff_lt

theorem cube_le_cube_iff (a b : ℚ) : a ^ 3 ≤ b ^ 3 ↔ a ≤ b :=
  cube_strictMono.le_iff_le

theorem roundTwiceCbrt_nonneg (x : ℚ) : 0 ≤ roundTwiceCbrt x := by
  unfold roundTwiceCbrt
  exact Int.natCast_nonneg _

theorem roundTwiceCbrt_spec (x : ℚ) (hx : 0 ≤ x) :
    (2 * (roundTwiceCbrt x : ℚ) - 1) ^ 3 ≤ 64 * x ∧
    64 * x < (2 * (roundTwiceCbrt x : ℚ) + 1) ^ 3 := by
  unfold roundTwiceCbrt
  set P : ℕ → Prop := fun n : ℕ => (2 * (n : ℚ) - 1) ^ 3 ≤ 64 * x with hP
  set b : ℕ := 2 * (⌈x⌉₊ + 1) with hb
  have h0 : P 0 := by
    show (2 * ((0 : ℕ) : ℚ) - 1) ^ 3 ≤ 64 * x
    norm_num
    linarith
  have hspec : P (Nat.findGreatest P b) := Nat.findGreatest_spec (Nat.zero_le b) h0
  have hle : Nat.findGreatest P b ≤ b := Nat.findGreatest_le b
  have hxm : x ≤ (⌈x⌉₊ : ℚ) := Nat.le_ceil x
  have hm0 : (0 : ℚ) ≤ (⌈x⌉₊ : ℚ) := Nat.cast_nonneg _
  have hnotb : ¬ P b := by
    show ¬ (2 * ((2 * (⌈x⌉₊ + 1) : ℕ) : ℚ) - 1) ^ 3 ≤ 64 * x
    push_cast
    intro hcon
    nlinarith [mul_nonneg hm0 hm0, mul_nonneg (mul_nonneg hm0 hm0) hm0]
  have hlt : Nat.findGreatest P b < b := by
    rcases Nat.lt_or_ge (Nat.findGreatest P b) b with h | h
    · exact h
    · have : Nat.findGreatest P b = b := le_antisymm hle h
      rw [this] at hspec
      exact absurd hspec hnotb
  have hnext : ¬ P (Nat.findGreatest P b + 1) :=
    Nat.findGreatest_is_greatest (Nat.lt_succ_self _) hlt
  refine ⟨?_, ?_⟩
  · simpa [hP] using hspec
  · have h1 : ¬ (2 * ((Nat.findGreatest P b + 1 : ℕ) : ℚ) - 1) ^ 3 ≤ 64 * x := hnext
    push_cast at h1
    have h2 : (2 * ((Nat.findGreatest P b : ℕ) : ℚ) + 1) = 2 * ((Nat.findGreatest P b : ℚ) + 1) - 1 := by
      ring
    simp only [Int.cast_natCast]
    rw [h2]
    exact not_le.mp h1

theorem roundTwiceCbrt_unique (x : ℚ) (hx : 0 ≤ x) (k : ℤ)
    (h1 : (2 * (k : ℚ) - 1) ^ 3 ≤ 64 * x) (h2 : 64 * x < (2 * (k : ℚ) + 1) ^ 3) :
    roundTwiceCbrt x = k := by
  obtain ⟨s1, s2⟩ := roundTwiceCbrt_spec x hx
  have a1 : (2 * (roundTwiceCbrt x : ℚ) - 1) < 2 * (k : ℚ) + 1 :=
    (cube_lt_cube_iff _ _).mp (lt_of_le_of_lt s1 h2)
  have a2 : (2 * (k : ℚ) - 1) < 2 * (roundTwiceCbrt x : ℚ) + 1 :=
    (cube_lt_cube_iff _ _).mp (lt_of_le_of_lt h1 s2)
  have b1 : (roundTwiceCbrt x : ℚ) < (k : ℚ) + 1 := by linarith
  have b2 : (k : ℚ) < (roundTwiceCbrt x : ℚ) + 1 := by linarith
  have c1 : roundTwiceCbrt x < k + 1 := by exact_mod_cast b1
  have c2 : k < roundTwiceCbrt x + 1 := by exact_mod_cast b2
  omega

theorem roundTwiceCbrt_cube (d : ℚ) (hd : 0 ≤ d) :
    roundTwiceCbrt (d ^ 3) = mathRound (2 * d) := by
  have h2d : (0 : ℚ) ≤ 2 * d := by linarith
  have hr : mathRound (2 * d) = ⌊2 * d + 1 / 2⌋ := by
    unfold mathRound
    rw [if_pos h2d]
  rw [hr]
  apply roundTwiceCbrt_unique (d ^ 3) (pow_nonneg hd 3)
  · have hfl : ((⌊2 * d + 1 / 2⌋ : ℤ) : ℚ) ≤ 2 * d + 1 / 2 := Int.floor_le _
    have : (2 * ((⌊2 * d + 1 / 2⌋ : ℤ) : ℚ) - 1) ≤ 4 * d := by linarith
    calc (2 * ((⌊2 * d + 1 / 2⌋ : ℤ) : ℚ) - 1) ^ 3 ≤ (4 * d) ^ 3 :=
          (cube_le_cube_iff _ _).mpr this
      _ = 64 * d ^ 3 := by ring
  · have hfl : 2 * d + 1 / 2 < ((⌊2 * d + 1 / 2⌋ : ℤ) : ℚ) + 1 := Int.lt_floor_add_one _
    have : 4 * d < (2 * ((⌊2 * d + 1 / 2⌋ : ℤ) : ℚ) + 1) := by linarith
    calc 64 * d ^ 3 = (4 * d) ^ 3 := by ring
      _ < (2 * ((⌊2 * d + 1 / 2⌋ : ℤ) : ℚ) + 1) ^ 3 := (cube_lt_cube_iff _ _).mpr this

/-! ### The two loops of `averageSetpoints` -/

theorem scanStep_maxT (s : DemandScan) (e : ZoneController × ℚ) :
    (scanStep s e).maxT = max s.maxT e.2 := by
  unfold scanStep
  by_cases h1 : e.2 > s.maxT
  · have hm : max s.maxT e.2 = e.2 := max_eq_right (le_of_lt h1)
    simp only [h1, if_true, hm]
    split_ifs <;> rfl
  · have hm : max s.maxT e.2 = s.maxT := max_eq_left (not_lt.mp h1)
    simp only [h1, if_false, hm]
    split_ifs <;> rfl

theorem scanStep_minT (s : DemandScan) (e : ZoneController × ℚ) :
    (scanStep s e).minT = if 10 < e.2 then min s.minT e.2 else s.minT := by
  have h10 : ((10.0 : ℚ)) = 10 := by norm_num
  unfold scanStep
  simp only [h10]
  by_cases h2 : 10 < e.2
  · by_cases h3 : e.2 < s.minT
    · have hm : min s.minT e.2 = e.2 := min_eq_right (le_of_lt h3)
      rw [if_pos h2, hm]
      split_ifs <;> first | rfl | (exfalso; simp_all)
    · have hm : min s.minT e.2 = s.minT := min_eq_left (not_lt.mp h3)
      rw [if_pos h2, hm]
      split_ifs <;> first | rfl | (exfalso; simp_all)
  · rw [if_neg h2]
    split_ifs <;> first | rfl | (exfalso; simp_all)

theorem scanStep_maxDiff (s : DemandScan) (e : ZoneController × ℚ) :
    (scanStep s e).maxDiff = max s.maxDiff (gapOf e) ∧
    (scanStep s e).maxDiffZone = if gapOf e > s.maxDiff then some e.1 else s.maxDiffZone := by
  unfold scanStep gapOf
  dsimp only
  by_cases h : e.1.setpoint - e.1.averageTemperature > s.maxDiff
  · have hm : max s.maxDiff (e.1.setpoint - e.1.averageTemperature)
        = e.1.setpoint - e.1.averageTemperature := max_eq_right (le_of_lt h)
    rw [hm, if_pos h]
    constructor <;> (split_ifs <;> rfl)
  · have hm : max s.maxDiff (e.1.setpoint - e.1.averageTemperature) = s.maxDiff :=
      max_eq_left (not_lt.mp h)
    rw [hm, if_neg h]
    constructor <;> (split_ifs <;> rfl)

theorem scan_maxT_bounds (trs : List (ZoneController × ℚ)) (s0 : DemandScan) :
    s0.maxT ≤ (trs.foldl scanStep s0).maxT ∧
    (∀ e ∈ trs, e.2 ≤ (trs.foldl scanStep s0).maxT) ∧
    ((trs.foldl scanStep s0).maxT = s0.maxT ∨ ∃ e ∈ trs, e.2 = (trs.foldl scanStep s0).maxT) := by
  induction trs generalizing s0 with
  | nil => simp
  | cons e rest ih =>
    obtain ⟨h1, h2, h3⟩ := ih (scanStep s0 e)
    rw [scanStep_maxT] at h1 h3
    rw [List.foldl_cons]
    refine ⟨le_trans (le_max_left _ _) h1, ?_, ?_⟩
    · intro x hx
      rcases List.mem_cons.mp hx with rfl | hx
      · exact le_trans (le_max_right _ _) h1
      · exact h2 x hx
    · rcases h3 with h3 | ⟨x, hx, hxe⟩
      · rcases max_choice s0.maxT e.2 with hc | hc
        · left
          rw [h3, hc]
        · right
          exact ⟨e, List.mem_cons_self _ _, by rw [h3, hc]⟩
      · right
        exact ⟨x, List.mem_cons_of_mem _ hx, hxe⟩

theorem scan_minT_bounds (trs : List (ZoneController × ℚ)) (s0 : DemandScan) :
    (trs.foldl scanStep s0).minT ≤ s0.minT ∧
    (∀ e ∈ trs, 10 < e.2 → (trs.foldl scanStep s0).minT ≤ e.2) ∧
    ((trs.foldl scanStep s0).minT = s0.minT ∨
      ∃ e ∈ trs, 10 < e.2 ∧ e.2 = (trs.foldl scanStep s0).minT) := by
  induction trs generalizing s0 with
  | nil => simp
  | cons e rest ih =>
    obtain ⟨h1, h2, h3⟩ := ih (scanStep s0 e)
    rw [scanStep_minT] at h1 h3
    rw [List.foldl_cons]
    by_cases h10 : 10 < e.2
    · rw [if_pos h10] at h1 h3
      refine ⟨le_trans h1 (min_le_left _ _), ?_, ?_⟩
      · intro x hx hx10
        rcases List.mem_cons.mp hx with rfl | hx
        · exact le_trans h1 (min_le_right _ _)
        · exact h2 x hx hx10
      · rcases h3 with h3 | ⟨x, hx, hx10, hxe⟩
        · rcases min_choice s0.minT e.2 with hc | hc
          · left
            rw [h3, hc]
          · right
            exact ⟨e, List.mem_cons_self _ _, h10, by rw [h3, hc]⟩
        · right
          exact ⟨x, List.mem_cons_of_mem _ hx, hx10, hxe⟩
    · rw [if_neg h10] at h1 h3
      refine ⟨h1, ?_, ?_⟩
      · intro x hx hx10
        rcases List.mem_cons.mp hx with rfl | hx
        · exact absurd hx10 h10
        · exact h2 x hx hx10
      · rcases h3 with h3 | ⟨x, hx, hx10, hxe⟩
        · left
          exact h3
        · right
          exact ⟨x, List.mem_cons_of_mem _ hx, hx10, hxe⟩

theorem scan_maxDiffZone_isSome (trs : List (ZoneController × ℚ)) (s0 : DemandScan) :
    (trs.foldl scanStep s0).maxDiffZone.isSome = true ↔
      s0.maxDiffZone.isSome = true ∨ ∃ e ∈ trs, s0.maxDiff < gapOf e := by
  induction trs generalizing s0 with
  | nil => simp
  | cons e rest ih =>
    rw [List.foldl_cons, ih (scanStep s0 e), (scanStep_maxDiff s0 e).1, (scanStep_maxDiff s0 e).2]
    by_cases hg : gapOf e > s0.maxDiff
    · rw [if_pos hg]
      constructor
      · intro _
        exact Or.inr ⟨e, List.mem_cons_self _ _, hg⟩
      · intro _
        exact Or.inl rfl
    · rw [if_neg hg, max_eq_left (not_lt.mp hg)]
      constructor
      · rintro (h | ⟨x, hx, hxg⟩)
        · exact Or.inl h
        · exact Or.inr ⟨x, List.mem_cons_of_mem _ hx, hxg⟩
      · rintro (h | ⟨x, hx, hxg⟩)
        · exact Or.inl h
        · rcases List.mem_cons.mp hx with rfl | hx
          · exact absurd hxg hg
          · exact Or.inr ⟨x, hx, hxg⟩

theorem accumulate_foldl (tCut : ℚ) (trs : List (ZoneController × ℚ)) (acc : ℚ × ℚ) :
    trs.foldl (accumulateStep tCut) acc =
      (acc.1 + weightedCubeSum (chosenAt tCut trs), acc.2 + zoneWeightSum (chosenAt tCut trs)) := by
  induction trs generalizing acc with
  | nil => simp [chosenAt, weightedCubeSum, zoneWeightSum]
  | cons e rest ih =>
    rw [List.foldl_cons, ih]
    by_cases h : e.2 ≥ tCut
    · simp [accumulateStep, chosenAt, weightedCubeSum, zoneWeightSum, h, add_assoc]
    · simp [accumulateStep, chosenAt, weightedCubeSum, zoneWeightSum, h]

/-! ### The aggregate and the diagnostics -/

theorem aggregateOf_eq (trs : List (ZoneController × ℚ)) :
    aggregateOf trs =
      (tSetOf (weightedCubeSum (chosenAt (tCutOf (trs.foldl scanStep scanInit)) trs))
          (zoneWeightSum (chosenAt (tCutOf (trs.foldl scanStep scanInit)) trs)),
        decide (tSetOf (weightedCubeSum (chosenAt (tCutOf (trs.foldl scanStep scanInit)) trs))
          (zoneWeightSum (chosenAt (tCutOf (trs.foldl scanStep scanInit)) trs)) ≥ 18)) := by
  have h0 : ((0.0 : ℚ), (0.0 : ℚ)) = (0, 0) := by norm_num
  have h18 : minEnableTemp = 18 := by norm_num [minEnableTemp]
  unfold aggregateOf
  simp only [accumulate_foldl, h0, h18, zero_add]

theorem diagnosticsOf_isSome (s : DemandScan) :
    (diagnosticsOf s).isSome = s.maxDiffZone.isSome := by
  unfold diagnosticsOf ThermoMarshalHelper
  cases s.maxDiffZone <;> cases s.maxZone <;> cases s.minZone <;> rfl

theorem isSome_map_eq {α β : Type} (f : α → β) (o : Option α) :
    (o.map f).isSome = o.isSome := by
  cases o <;> rfl

theorem scanInit_fields :
    scanInit.maxT = -1000 ∧ scanInit.minT = 1000 ∧ scanInit.maxDiff = -10000 ∧
    scanInit.maxZone = none ∧ scanInit.minZone = none ∧ scanInit.maxDiffZone = none := by
  refine ⟨?_, ?_, ?_, rfl, rfl, rfl⟩ <;> norm_num [scanInit]

theorem averageSetpointsOver_isSome (trs : List (ZoneController × ℚ)) :
    (averageSetpointsOver trs).isSome = true ↔ ∃ e ∈ trs, -10000 < gapOf e := by
  unfold averageSetpointsOver
  rw [isSome_map_eq, diagnosticsOf_isSome, scan_maxDiffZone_isSome,
    scanInit_fields.2.2.1, scanInit_fields.2.2.2.2.2]
  simp

theorem averageSetpointsOver_returns (trs : List (ZoneController × ℚ))
    (h : ∃ e ∈ trs, -10000 < gapOf e) :
    ∃ published, averageSetpointsOver trs = some (published, aggregateOf trs) := by
  have hs := (averageSetpointsOver_isSome trs).mpr h
  unfold averageSetpointsOver at hs ⊢
  rw [isSome_map_eq] at hs
  obtain ⟨p, hp⟩ := Option.isSome_iff_exists.mp hs
  exact ⟨p, by rw [hp]; rfl⟩

theorem averageSetpointsOver_result (trs : List (ZoneController × ℚ))
    (r : List EngineEffect × ℚ × Bool) (h : averageSetpointsOver trs = some r) :
    r.2 = aggregateOf trs := by
  unfold averageSetpointsOver at h
  cases hd : diagnosticsOf (trs.foldl scanStep scanInit) with
  | none => rw [hd] at h; simp at h
  | some p =>
    rw [hd] at h
    simp only [Option.map_some'] at h
    rw [← Option.some.inj h]

theorem averageSetpointsOver_panics (trs : List (ZoneController × ℚ))
    (h : ∀ e ∈ trs, gapOf e ≤ -10000) : averageSetpointsOver trs = none := by
  have hn : ¬ (averageSetpointsOver trs).isSome = true := by
    rw [averageSetpointsOver_isSome]
    rintro ⟨e, he, hg⟩
    exact absurd (h e he) (not_le.mpr hg)
  cases hr : averageSetpointsOver trs with
  | none => rfl
  | some r => rw [hr] at hn; simp at hn

/-! ### Cross-zone aggregation: the general statement -/

theorem roundTwiceCbrt_64000 : roundTwiceCbrt 64000 = 80 := by
  apply roundTwiceCbrt_unique <;> norm_num

theorem boundTset_40 : boundTset 40 = 40 := by
  norm_num [boundTset, maxTSet, minTSet]

/-! ### One zone and two zones -/

theorem scan_single (z : ZoneController) (d : ℚ) (hd : 10 < d) :
    ([(z, d)].foldl scanStep scanInit).maxT = d ∧
    ([(z, d)].foldl scanStep scanInit).minT = min 1000 d := by
  simp only [List.foldl_cons, List.foldl_nil, scanStep_maxT, scanStep_minT,
    scanInit_fields.1, scanInit_fields.2.1, if_pos hd]
  exact ⟨max_eq_right (by linarith), trivial⟩

theorem tCut_single_le (z : ZoneController) (d : ℚ) (hd : 10 < d) :
    tCutOf ([(z, d)].foldl scanStep scanInit) ≤ d := by
  obtain ⟨h1, h2⟩ := scan_single z d hd
  unfold tCutOf
  rw [h1, h2]
  rcases le_total (1000 : ℚ) d with h | h
  · rw [min_eq_left h]
    norm_num
    linarith
  · rw [min_eq_right h]
    norm_num

theorem aggregateOf_single (z : ZoneController) (d : ℚ) (hd : 10 < d)
    (hw : 0 < z.cfg.Weight) :
    aggregateOf [(z, d)] =
      (boundTset ((mathRound (2 * d) : ℚ) / 2),
        decide (boundTset ((mathRound (2 * d) : ℚ) / 2) ≥ 18)) := by
  have hch : chosenAt (tCutOf ([(z, d)].foldl scanStep scanInit)) [(z, d)] = [(z, d)] := by
    have h := tCut_single_le z d hd
    simp only [chosenAt, List.filter_cons, List.filter_nil, ge_iff_le, h, decide_True, if_true]
  have hdiv : z.cfg.Weight * d ^ 3 / z.cfg.Weight = d ^ 3 := by
    field_simp
  rw [aggregateOf_eq, hch]
  simp only [tSetOf, zoneWeightSum, weightedCubeSum, List.map_cons, List.map_nil,
    List.sum_cons, List.sum_nil, add_zero, gt_iff_lt, if_pos hw, hdiv,
    roundTwiceCbrt_cube d (by linarith)]

theorem mathRound_natCast (n : ℕ) : mathRound (n : ℚ) = n := by
  unfold mathRound
  rw [if_pos (Nat.cast_nonneg n)]
  rw [Int.floor_eq_iff]
  constructor <;> push_cast <;> linarith

/-- C12 (the code at the failing input): a single zone with stored demand 40 and weight 1
whose average temperature reads 10020 against the setpoint 20.  The aggregate computed by the
two loops is `(40, true)`, but no zone has a setpoint gap above the -10000 sentinel, so
`maxDiffZone` stays nil and `averageSetpoints` panics in `ThermoMarshalHelper` instead of
returning. -/
theorem averageSetpoints_single_zone_panics :
    (10 : ℚ) < 40 ∧ 0 < glitchZone.cfg.Weight ∧
    aggregateOf [(glitchZone, 40)] = (40, true) ∧
    averageSetpointsOver [(glitchZone, 40)] = none := by
  have hw : 0 < glitchZone.cfg.Weight := by norm_num [glitchZone, sampleZone]
  refine ⟨by norm_num, hw, ?_, ?_⟩
  · rw [aggregateOf_single glitchZone 40 (by norm_num) hw]
    have h80 : (2 * 40 : ℚ) = ((80 : ℕ) : ℚ) := by norm_num
    rw [h80, mathRound_natCast]
    norm_num [boundTset_40]
  · apply averageSetpointsOver_panics
    intro e he
    rw [List.mem_singleton.mp he]
    norm_num [gapOf, glitchZone, sampleZone]

theorem averageSetpointsOver_single (z : ZoneController) (d : ℚ) (hd : 10 < d)
    (hw : 0 < z.cfg.Weight) (hgap : -10000 < z.setpoint - z.averageTemperature) :
    ∃ published, averageSetpointsOver [(z, d)] =
      some (published, boundTset ((mathRound (2 * d) : ℚ) / 2),
        decide (boundTset ((mathRound (2 * d) : ℚ) / 2) ≥ 18)) := by
  obtain ⟨p, hp⟩ := averageSetpointsOver_returns [(z, d)]
    ⟨(z, d), List.mem_singleton.mpr rfl, hgap⟩
  exact ⟨p, by rw [hp, aggregateOf_single z d hd hw]⟩

theorem scan_pair (za zb : ZoneController) (a b : ℚ) (ha : 10 < a) (hab : a < b)
    (ha1000 : a < 1000) :
    ([(za, a), (zb, b)].foldl scanStep scanInit).maxT = b ∧
    ([(za, a), (zb, b)].foldl scanStep scanInit).minT = a ∧
    ([(zb, b), (za, a)].foldl scanStep scanInit).maxT = b ∧
    ([(zb, b), (za, a)].foldl scanStep scanInit).minT = a := by
  have hb : 10 < b := lt_trans ha hab
  simp only [List.foldl_cons, List.foldl_nil, scanStep_maxT, scanStep_minT,
    scanInit_fields.1, scanInit_fields.2.1, if_pos ha, if_pos hb]
  refine ⟨?_, ?_, ?_, ?_⟩
  · rw [max_eq_right (by linarith : (-1000 : ℚ) ≤ a), max_eq_right (le_of_lt hab)]
  · rw [min_eq_right (le_of_lt ha1000), min_eq_left (le_of_lt hab)]
  · rw [max_eq_right (by linarith : (-1000 : ℚ) ≤ b), max_eq_left (le_of_lt hab)]
  · exact min_eq_right (le_min (le_of_lt ha1000) (le_of_lt hab))

theorem aggregateOf_pair (za zb : ZoneController) (a b : ℚ) (ha : 10 < a) (hab : a < b)
    (ha1000 : a < 1000) :
    tCutOf ([(za, a), (zb, b)].foldl scanStep scanInit) = a + 0.7 * (b - a) ∧
    tCutOf ([(zb, b), (za, a)].foldl scanStep scanInit) = a + 0.7 * (b - a) ∧
    chosenAt (a + 0.7 * (b - a)) [(za, a), (zb, b)] = [(zb, b)] ∧
    chosenAt (a + 0.7 * (b - a)) [(zb, b), (za, a)] = [(zb, b)] ∧
    aggregateOf [(za, a), (zb, b)] = aggregateOf [(zb, b)] ∧
    aggregateOf [(zb, b), (za, a)] = aggregateOf [(zb, b)] := by
  obtain ⟨h1, h2, h3, h4⟩ := scan_pair za zb a b ha hab ha1000
  have hc1 : tCutOf ([(za, a), (zb, b)].foldl scanStep scanInit) = a + 0.7 * (b - a) := by
    unfold tCutOf
    rw [h1, h2]
  have hc2 : tCutOf ([(zb, b), (za, a)].foldl scanStep scanInit) = a + 0.7 * (b - a) := by
    unfold tCutOf
    rw [h3, h4]
  have hna : ¬ a + 0.7 * (b - a) ≤ a := by
    norm_num
    linarith
  have hb : a + 0.7 * (b - a) ≤ b := by
    norm_num
    linarith
  have hs1 : chosenAt (a + 0.7 * (b - a)) [(za, a), (zb, b)] = [(zb, b)] := by
    simp [chosenAt, hna, hb]
  have hs2 : chosenAt (a + 0.7 * (b - a)) [(zb, b), (za, a)] = [(zb, b)] := by
    simp [chosenAt, hna, hb]
  have hs0 : chosenAt (tCutOf ([(zb, b)].foldl scanStep scanInit)) [(zb, b)] = [(zb, b)] := by
    have h := tCut_single_le zb b (lt_trans ha hab)
    simp only [chosenAt, List.filter_cons, List.filter_nil, ge_iff_le, h, decide_True, if_true]
  refine ⟨hc1, hc2, hs1, hs2, ?_, ?_⟩
  · rw [aggregateOf_eq, aggregateOf_eq, hc1, hs1, hs0]
  · rw [aggregateOf_eq, aggregateOf_eq, hc2, hs2, hs0]

/-! ### Zones at or below 10.0 are absent from the aggregation -/

theorem scan_minT_gt (trs : List (ZoneController × ℚ)) :
    10 < (trs.foldl scanStep scanInit).minT := by
  obtain ⟨_, _, h3⟩ := scan_minT_bounds trs scanInit
  rcases h3 with h | ⟨e, _, h10, he⟩
  · rw [h, scanInit_fields.2.1]
    norm_num
  · rw [← he]
    exact h10

theorem chosen_gt_ten (trs : List (ZoneController × ℚ)) (e : ZoneController × ℚ)
    (he : e ∈ trs) (hc : e.2 ≥ tCutOf (trs.foldl scanStep scanInit)) : 10 < e.2 := by
  have hM := (scan_maxT_bounds trs scanInit).2.1 e he
  have hm := scan_minT_gt trs
  unfold tCutOf at hc
  norm_num at hc
  linarith

theorem scan_maxT_filter (trs : List (ZoneController × ℚ)) (keep : ZoneController × ℚ → Bool)
    (hkeep : ∀ e ∈ trs, 10 < e.2 → keep e = true) (hex : ∃ e ∈ trs, 10 < e.2) :
    ((trs.filter keep).foldl scanStep scanInit).maxT = (trs.foldl scanStep scanInit).maxT := by
  obtain ⟨x, hx, hx10⟩ := hex
  obtain ⟨a1, a2, a3⟩ := scan_maxT_bounds (trs.filter keep) scanInit
  obtain ⟨b1, b2, b3⟩ := scan_maxT_bounds trs scanInit
  rw [scanInit_fields.1] at a1 a3 b1 b3
  apply le_antisymm
  · rcases a3 with h | ⟨e, he, hE⟩
    · rw [h]
      exact b1
    · rw [← hE]
      exact b2 e (List.mem_of_mem_filter he)
  · rcases b3 with h | ⟨e, he, hE⟩
    · rw [h]
      exact a1
    · have hx2 := b2 x hx
      have he10 : 10 < e.2 := by rw [hE]; exact lt_of_lt_of_le hx10 hx2
      rw [← hE]
      exact a2 e (List.mem_filter.mpr ⟨he, hkeep e he he10⟩)

theorem scan_minT_filter (trs : List (ZoneController × ℚ)) (keep : ZoneController × ℚ → Bool)
    (hkeep : ∀ e ∈ trs, 10 < e.2 → keep e = true) :
    ((trs.filter keep).foldl scanStep scanInit).minT = (trs.foldl scanStep scanInit).minT := by
  obtain ⟨a1, a2, a3⟩ := scan_minT_bounds (trs.filter keep) scanInit
  obtain ⟨b1, b2, b3⟩ := scan_minT_bounds trs scanInit
  rw [scanInit_fields.2.1] at a1 a3 b1 b3
  apply le_antisymm
  · rcases b3 with h | ⟨e, he, h10, hE⟩
    · rw [h]
      exact a1
    · rw [← hE]
      exact a2 e (List.mem_filter.mpr ⟨he, hkeep e he h10⟩) h10
  · rcases a3 with h | ⟨e, he, h10, hE⟩
    · rw [h]
      exact b1
    · rw [← hE]
      exact b2 e (List.mem_of_mem_filter he) h10

theorem aggregateOf_filter (trs : List (ZoneController × ℚ)) (keep : ZoneController × ℚ → Bool)
    (hkeep : ∀ e ∈ trs, 10 < e.2 → keep e = true) :
    aggregateOf (trs.filter keep) = aggregateOf trs := by
  rw [aggregateOf_eq, aggregateOf_eq]
  by_cases hex : ∃ e ∈ trs, 10 < e.2
  · have hcut : tCutOf ((trs.filter keep).foldl scanStep scanInit)
        = tCutOf (trs.foldl scanStep scanInit) := by
      unfold tCutOf
      rw [scan_maxT_filter trs keep hkeep hex, scan_minT_filter trs keep hkeep]
    have hch : chosenAt (tCutOf (trs.foldl scanStep scanInit)) (trs.filter keep)
        = chosenAt (tCutOf (trs.foldl scanStep scanInit)) trs := by
      unfold chosenAt
      rw [List.filter_comm]
      apply List.filter_eq_self.mpr
      intro e he
      obtain ⟨he1, he2⟩ := List.mem_filter.mp he
      exact hkeep e he1 (chosen_gt_ten trs e he1 (by simpa using he2))
    rw [hcut, hch]
  · have h1 : chosenAt (tCutOf (trs.foldl scanStep scanInit)) trs = [] := by
      unfold chosenAt
      apply List.filter_eq_nil_iff.mpr
      intro e he hc
      exact hex ⟨e, he, chosen_gt_ten trs e he (by simpa using hc)⟩
    have h2 : chosenAt (tCutOf ((trs.filter keep).foldl scanStep scanInit)) (trs.filter keep)
        = [] := by
      unfold chosenAt
      apply List.filter_eq_nil_iff.mpr
      intro e he hc
      exact hex ⟨e, List.mem_of_mem_filter he,
        chosen_gt_ten (trs.filter keep) e he (by simpa using hc)⟩
    rw [h1, h2]

/-- C19: the `(tSet, chEnable)` that `averageSetpoints` computes and returns for a map of zone
demands is the one computed for the map without its never-computed zones (stored demand still
0.0); and no zone with a stored demand `≤ 10.0` passes the test `f >= tCut`, so its iteration of
the second loop leaves the weighted sum and the weight sum as they were. -/
theorem aggregate_ignores_low_demands (trs : List (ZoneController × ℚ)) :
    aggregateOf (trs.filter (fun e => decide (e.2 ≠ 0))) = aggregateOf trs ∧
    (∀ r, averageSetpointsOver trs = some r →
      r.2 = aggregateOf (trs.filter (fun e => decide (e.2 ≠ 0)))) ∧
    (∀ r r', averageSetpointsOver trs = some r →
      averageSetpointsOver (trs.filter (fun e => decide (e.2 ≠ 0))) = some r' → r'.2 = r.2) ∧
    (∀ e ∈ trs, e.2 ≤ 10.0 → ¬ e.2 ≥ tCutOf (trs.foldl scanStep scanInit)) ∧
    (∀ e ∈ trs, e.2 ≤ 10.0 → ∀ acc,
      accumulateStep (tCutOf (trs.foldl scanStep scanInit)) acc e = acc) := by
  have hf : aggregateOf (trs.filter (fun e => decide (e.2 ≠ 0))) = aggregateOf trs := by
    apply aggregateOf_filter
    intro e _ h10
    have : e.2 ≠ 0 := by
      intro h0
      rw [h0] at h10
      norm_num at h10
    simpa using this
  have hlow : ∀ e ∈ trs, e.2 ≤ 10.0 → ¬ e.2 ≥ tCutOf (trs.foldl scanStep scanInit) := by
    intro e he h10 hc
    have := chosen_gt_ten trs e he hc
    norm_num at h10
    linarith
  refine ⟨hf, ?_, ?_, hlow, ?_⟩
  · intro r hr
    rw [hf]
    exact averageSetpointsOver_result trs r hr
  · intro r r' hr hr'
    rw [averageSetpointsOver_result trs r hr, averageSetpointsOver_result _ r' hr', hf]
  · intro e he h10 acc
    unfold accumulateStep
    rw [if_neg (hlow e he h10)]

/-! ### Averaging strategy -/

/-- C17: for every strategy name, `LinkAverageFun` of a zone and of the outside controller
returns with the averaging function `sensorsMean` and the configured name `mean`, changing
nothing else; and the zone's control handler on the `sensors_average_type` topic ends in the same
state whatever the payload is. -/
theorem LinkAverageFun_falls_back_to_mean :
    (∀ z : ZoneController,
      z.LinkAverageFun.averageFunc = sensorsMean ∧
      z.LinkAverageFun.cfg.SensorsAverageType = "mean" ∧
      z.LinkAverageFun =
        { z with
          cfg := { z.cfg with SensorsAverageType := "mean" }
          averageFunc := sensorsMean }) ∧
    (∀ o : OutsideController,
      o.LinkAverageFun.averageTemperatureFunc = sensorsMean ∧
      o.LinkAverageFun.cfg.TemperatureAverageType = "mean" ∧
      o.LinkAverageFun =
        { o with
          cfg := { o.cfg with TemperatureAverageType := "mean" }
          averageTemperatureFunc := sensorsMean }) ∧
    (∀ (d : Decoders) (z : ZoneController) (message : Message),
      lastTopicSegment message.topic = "sensors_average_type" →
      (z.controlUpdateHandler d message).averageFunc = sensorsMean ∧
      (z.controlUpdateHandler d message).cfg.SensorsAverageType = "mean" ∧
      z.controlUpdateHandler d message =
        { z with
          cfg := { z.cfg with SensorsAverageType := "mean" }
          averageFunc := sensorsMean }) := by
  have hz : ∀ z : ZoneController, z.LinkAverageFun =
      { z with
        cfg := { z.cfg with SensorsAverageType := "mean" }
        averageFunc := sensorsMean } := by
    intro z
    unfold ZoneController.LinkAverageFun DefaultAverageType
    by_cases h : z.cfg.SensorsAverageType = "mean"
    · rw [if_pos h]
      have hc : z.cfg = { z.cfg with SensorsAverageType := "mean" } := by
        rw [← h]
      rw [← hc]
    · rw [if_neg h]
  have ho : ∀ o : OutsideController, o.LinkAverageFun =
      { o with
        cfg := { o.cfg with TemperatureAverageType := "mean" }
        averageTemperatureFunc := sensorsMean } := by
    intro o
    unfold OutsideController.LinkAverageFun DefaultAverageType
    by_cases h : o.cfg.TemperatureAverageType = "mean"
    · rw [if_pos h]
      have hc : o.cfg = { o.cfg with TemperatureAverageType := "mean" } := by
        rw [← h]
      rw [← hc]
    · rw [if_neg h]
  refine ⟨fun z => ?_, fun o => ?_, fun d z message htopic => ?_⟩
  · rw [hz z]
    exact ⟨rfl, rfl, rfl⟩
  · rw [ho o]
    exact ⟨rfl, rfl, rfl⟩
  · have hh : z.controlUpdateHandler d message =
        { z with
          cfg := { z.cfg with SensorsAverageType := "mean" }
          averageFunc := sensorsMean } := by
      unfold ZoneController.controlUpdateHandler
      simp only [htopic]
      rw [if_neg (by decide), if_pos trivial, hz]
    rw [hh]
    exact ⟨rfl, rfl, rfl⟩

/-- Witness for C17: the payload `median` on the sample zone's `sensors_average_type` topic
leaves the zone averaging with `sensorsMean` under the name `mean`. -/
theorem LinkAverageFun_falls_back_to_mean_witness :
    (sampleZone.controlUpdateHandler sampleDecoders
      ⟨"mzotbc/control/zone/living/sensors_average_type", "median"⟩).cfg.SensorsAverageType
      = "mean" := by
  exact (LinkAverageFun_falls_back_to_mean.2.2 sampleDecoders sampleZone
    ⟨"mzotbc/control/zone/living/sensors_average_type", "median"⟩ (by decide)).2.1

/-! ### The decision loop -/

theorem calculateSetpoint_total (c : ThermoController) (zone : ZoneController) (OT : ℚ) :
    ∃ r, c.calculateSetpoint zone OT = some r := by
  by_cases h : zone.getPair.2.2 = true ∧ OT > minValidTemp
  · obtain ⟨_, _, hm⟩ := calculateSetpoint_valid c zone OT h.1 h.2
    exact ⟨_, hm⟩
  · exact ⟨_, calculateSetpoint_invalid c zone OT h⟩

theorem handleUpdateZone_clean (c : ThermoController) (OT : ℚ) (e : ZoneEntry)
    (h : e.needsUpdate = false) : c.handleUpdateZone OT e = some (e, false) := by
  unfold ThermoController.handleUpdateZone
  simp [h]

theorem handleUpdateZone_dirty (c : ThermoController) (OT : ℚ) (e : ZoneEntry)
    (h : e.needsUpdate = true) (r : ℚ × Bool) (hr : c.calculateSetpoint e.zone OT = some r) :
    c.handleUpdateZone OT e =
      some (if r.2 = true ∧ r.1 ≠ e.TR then
          ({ e with needsUpdate := false, TR := r.1 }, true)
        else ({ e with needsUpdate := false }, false)) := by
  unfold ThermoController.handleUpdateZone
  simp only [h, hr, Bool.not_true, Bool.false_eq_true, if_false, Option.bind_eq_bind,
    Option.some_bind, Bool.and_eq_true, decide_eq_true_eq]
  split_ifs <;> rfl

theorem handleUpdateZone_spec (c : ThermoController) (OT : ℚ) (e : ZoneEntry) :
    ∃ r, c.handleUpdateZone OT e = some r ∧ r.1.zone = e.zone ∧
      (e.needsUpdate = false → r = (e, false)) ∧
      (e.needsUpdate = true → r.1.needsUpdate = false) ∧
      (r.2 = true ↔ r.1.TR ≠ e.TR) ∧
      (∀ d, c.calculateSetpoint e.zone OT = some (d, false) → r.1.TR = e.TR) ∧
      (e.needsUpdate = true → ∀ d, c.calculateSetpoint e.zone OT = some (d, true) →
        r.1.TR = d) := by
  cases hn : e.needsUpdate with
  | false =>
    refine ⟨(e, false), handleUpdateZone_clean c OT e hn, rfl, fun _ => rfl, ?_, ?_, fun _ _ => rfl,
      ?_⟩
    · intro h
      exact absurd h (by simp)
    · simp
    · intro h
      exact absurd h (by simp)
  | true =>
    obtain ⟨r, hr⟩ := calculateSetpoint_total c e.zone OT
    rw [handleUpdateZone_dirty c OT e hn r hr]
    by_cases hcond : r.2 = true ∧ r.1 ≠ e.TR
    · rw [if_pos hcond]
      refine ⟨_, rfl, rfl, ?_, fun _ => rfl, ?_, ?_, ?_⟩
      · intro h
        exact absurd h (by simp)
      · simp [hcond.2]
      · intro d hd
        rw [hr] at hd
        have := congrArg Prod.snd (Option.some.inj hd)
        simp [hcond.1] at this
      · intro _ d hd
        rw [hr] at hd
        have := congrArg Prod.fst (Option.some.inj hd)
        simpa using this
    · rw [if_neg hcond]
      refine ⟨_, rfl, rfl, ?_, fun _ => rfl, ?_, ?_, ?_⟩
      · intro h
        exact absurd h (by simp)
      · simp
      · intro d _
        rfl
      · intro _ d hd
        rw [hr] at hd
        have h1 := congrArg Prod.fst (Option.some.inj hd)
        have h2 := congrArg Prod.snd (Option.some.inj hd)
        simp only at h1 h2
        have : ¬ r.1 ≠ e.TR := fun hne => hcond ⟨h2, hne⟩
        rw [← h1]
        exact (not_not.mp this).symm

theorem handleUpdateLoop_spec (c : ThermoController) (OT : ℚ) (l : List ZoneEntry)
    (need : Bool) :
    ∃ rs, c.handleUpdateLoop OT l need = some rs ∧
      List.Forall₂ (fun e e' => ∃ b, c.handleUpdateZone OT e = some (e', b)) l rs.1 ∧
      (rs.2 = true ↔
        need = true ∨ ∃ e ∈ l, ∃ e', c.handleUpdateZone OT e = some (e', true)) := by
  induction l generalizing need with
  | nil =>
    exact ⟨([], need), rfl, List.Forall₂.nil, by simp⟩
  | cons e rest ih =>
    obtain ⟨r, hr, _⟩ := handleUpdateZone_spec c OT e
    obtain ⟨rs, hrs, hall, hneed⟩ := ih (need || r.2)
    refine ⟨(r.1 :: rs.1, rs.2), ?_, ?_, ?_⟩
    · show (c.handleUpdateZone OT e).bind (fun r =>
          (c.handleUpdateLoop OT rest (need || r.2)).bind (fun rs => some (r.1 :: rs.1, rs.2)))
        = some (r.1 :: rs.1, rs.2)
      rw [hr, Option.some_bind, hrs, Option.some_bind]
    · exact List.Forall₂.cons ⟨r.2, hr⟩ hall
    · show rs.2 = true ↔ _
      rw [hneed]
      constructor
      · rintro (h | ⟨x, hx, x', hx'⟩)
        · rcases Bool.or_eq_true _ _ |>.mp h with h1 | h2
          · exact Or.inl h1
          · refine Or.inr ⟨e, List.mem_cons_self _ _, r.1, ?_⟩
            rw [hr, ← h2]
        · exact Or.inr ⟨x, List.mem_cons_of_mem _ hx, x', hx'⟩
      · rintro (h | ⟨x, hx, x', hx'⟩)
        · exact Or.inl (by simp [h])
        · rcases List.mem_cons.mp hx with rfl | hx
          · left
            rw [hr] at hx'
            have := congrArg Prod.snd (Option.some.inj hx')
            simp only at this
            simp [this]
          · exact Or.inr ⟨x, hx, x', hx'⟩

theorem handleUpdate_unfold (c : ThermoController) (state : thermoState)
    (rs : List ZoneEntry × Bool)
    (hloop : c.handleUpdateLoop state.OT (c.markedZones state.forceUpdate) false = some rs) :
    c.handleUpdate state =
      if (rs.2 || state.forceUpdate) = true then
        (averageSetpointsOver (ThermoController.zoneTRs { c with zones := rs.1 })).bind
          (fun a =>
            if a.2.1 ≠ state.tSet ∨ a.2.2 ≠ state.chEnable ∨ state.forceUpdate = true then
              some ({ c with zones := rs.1 },
                { state with tSet := a.2.1, chEnable := a.2.2, forceUpdate := false },
                a.1 ++ ThermoController.update { c with zones := rs.1 } a.2.1 a.2.2)
            else some ({ c with zones := rs.1 }, { state with forceUpdate := false }, a.1))
      else some ({ c with zones := rs.1 }, { state with forceUpdate := false }, []) := by
  unfold ThermoController.handleUpdate
  rw [hloop]
  rfl

theorem boilerCommands_append (a b : List EngineEffect) :
    boilerCommands (a ++ b) = boilerCommands a ++ boilerCommands b := by
  induction a with
  | nil => rfl
  | cons x rest ih =>
    cases x <;> simp [boilerCommands, ih]

theorem diagnosticsOf_boilerCommands (s : DemandScan) (p : List EngineEffect)
    (h : diagnosticsOf s = some p) : boilerCommands p = [] := by
  unfold diagnosticsOf ThermoMarshalHelper at h
  cases hz : s.maxDiffZone with
  | none => rw [hz] at h; simp at h
  | some z =>
    rw [hz] at h
    cases h1 : s.maxZone <;> cases h2 : s.minZone <;> rw [h1, h2] at h <;>
      simp at h <;> rw [← h] <;> rfl

theorem averageSetpointsOver_boilerCommands (trs : List (ZoneController × ℚ))
    (a : List EngineEffect × ℚ × Bool) (h : averageSetpointsOver trs = some a) :
    boilerCommands a.1 = [] := by
  unfold averageSetpointsOver at h
  cases hd : diagnosticsOf (trs.foldl scanStep scanInit) with
  | none => rw [hd] at h; simp at h
  | some p =>
    rw [hd] at h
    simp only [Option.map_some'] at h
    rw [← Option.some.inj h]
    exact diagnosticsOf_boilerCommands _ p hd

theorem update_boilerCommands (c : ThermoController) (t : ℚ) (ch : Bool) :
    boilerCommands (c.update t ch) =
      [if c.enabled = true then (t, ch) else (defaultTSet, false)] := by
  unfold ThermoController.update
  cases c.enabled <;> rfl

theorem handleUpdateZone_enabled (c : ThermoController) (b : Bool) (OT : ℚ) (e : ZoneEntry) :
    ThermoController.handleUpdateZone { c with enabled := b } OT e = c.handleUpdateZone OT e :=
  rfl

theorem handleUpdateLoop_enabled (c : ThermoController) (b : Bool) (OT : ℚ)
    (l : List ZoneEntry) (need : Bool) :
    ThermoController.handleUpdateLoop { c with enabled := b } OT l need
      = c.handleUpdateLoop OT l need := by
  induction l generalizing need with
  | nil => rfl
  | cons e rest ih =>
    show (ThermoController.handleUpdateZone { c with enabled := b } OT e).bind (fun r =>
        (ThermoController.handleUpdateLoop { c with enabled := b } OT rest (need || r.2)).bind
          (fun rs => some (r.1 :: rs.1, rs.2)))
      = (c.handleUpdateZone OT e).bind (fun r =>
        (c.handleUpdateLoop OT rest (need || r.2)).bind (fun rs => some (r.1 :: rs.1, rs.2)))
    rw [handleUpdateZone_enabled]
    congr 1
    funext r
    rw [ih]

theorem forall2_zone_map (l l' : List ZoneEntry)
    (h : List.Forall₂ (fun e e' => e'.zone = e.zone) l l') :
    l'.map (fun e => e.zone) = l.map (fun e => e.zone) := by
  induction h with
  | nil => rfl
  | cons hab _ ih => simp [hab, ih]

theorem markedZones_forall2 (c : ThermoController) (force : Bool) :
    List.Forall₂ (fun e m => m.zone = e.zone ∧ m.TR = e.TR ∧
        (force = false → m.needsUpdate = e.needsUpdate) ∧
        (force = true → m.needsUpdate = true)) c.zones (c.markedZones force) := by
  unfold ThermoController.markedZones
  cases force with
  | false =>
    simp only [Bool.false_eq_true, if_false]
    exact List.forall₂_same.mpr (fun e _ => ⟨rfl, rfl, fun _ => rfl, fun h => absurd h (by simp)⟩)
  | true =>
    simp only [if_true]
    rw [List.forall₂_map_right_iff]
    exact List.forall₂_same.mpr (fun e _ => ⟨rfl, rfl, fun h => absurd h (by simp), fun _ => rfl⟩)

theorem markedZones_TR (c : ThermoController) (force : Bool) :
    (c.markedZones force).map (fun e => e.TR) = c.zones.map (fun e => e.TR) := by
  unfold ThermoController.markedZones
  cases force with
  | false => rfl
  | true => simp [List.map_map, Function.comp]

theorem forall2_comp {α β γ : Type} {R : α → β → Prop} {S : β → γ → Prop} {T : α → γ → Prop}
    (hT : ∀ a b c, R a b → S b c → T a c) :
    ∀ (l1 : List α) (l2 : List β) (l3 : List γ),
      List.Forall₂ R l1 l2 → List.Forall₂ S l2 l3 → List.Forall₂ T l1 l3 := by
  intro l1 l2 l3 h12
  induction h12 generalizing l3 with
  | nil =>
    intro h23
    cases h23
    exact List.Forall₂.nil
  | cons hab _ ih =>
    intro h23
    cases h23 with
    | cons hbc htail => exact List.Forall₂.cons (hT _ _ _ hab hbc) (ih _ htail)

theorem loop_TR_unchanged (c : ThermoController) (OT : ℚ) (l l' : List ZoneEntry)
    (h : List.Forall₂ (fun m e' => ∃ b, c.handleUpdateZone OT m = some (e', b)) l l')
    (hno : ¬ ∃ m ∈ l, ∃ e', c.handleUpdateZone OT m = some (e', true)) :
    l'.map (fun e => e.TR) = l.map (fun e => e.TR) := by
  induction h with
  | nil => rfl
  | @cons m e' l l' hab _ ih =>
    obtain ⟨b, hb⟩ := hab
    obtain ⟨r, hr, _, _, _, hchg, _, _⟩ := handleUpdateZone_spec c OT m
    have hre : r = (e', b) := Option.some.inj (hr.symm.trans hb)
    have hbf : b = false := by
      cases b with
      | false => rfl
      | true => exact absurd ⟨m, List.mem_cons_self _ _, e', hb⟩ hno
    have hTR : e'.TR = m.TR := by
      rw [hre, hbf] at hchg
      have : ¬ e'.TR ≠ m.TR := fun hne => absurd (hchg.mpr hne) (by simp)
      exact not_not.mp this
    have htail := ih (fun ⟨x, hx, x', hx'⟩ => hno ⟨x, List.mem_cons_of_mem _ hx, x', hx'⟩)
    simp [hTR, htail]

theorem loop_TR_changed (c : ThermoController) (OT : ℚ) (l l' : List ZoneEntry)
    (h : List.Forall₂ (fun m e' => ∃ b, c.handleUpdateZone OT m = some (e', b)) l l')
    (hyes : ∃ m ∈ l, ∃ e', c.handleUpdateZone OT m = some (e', true)) :
    l'.map (fun e => e.TR) ≠ l.map (fun e => e.TR) := by
  induction h with
  | nil =>
    obtain ⟨m, hm, _⟩ := hyes
    exact absurd hm (List.not_mem_nil m)
  | @cons m e' l l' hab _ ih =>
    obtain ⟨x, hx, x', hx'⟩ := hyes
    intro heq
    simp only [List.map_cons, List.cons.injEq] at heq
    rcases List.mem_cons.mp hx with rfl | hx
    · obtain ⟨b, hb⟩ := hab
      obtain ⟨r, hr, _, _, _, hchg, _, _⟩ := handleUpdateZone_spec c OT x
      have h1 : r = (x', true) := Option.some.inj (hr.symm.trans hx')
      have h2 : r = (e', b) := Option.some.inj (hr.symm.trans hb)
      have h3 : e' = x' := by
        have := h2.symm.trans h1
        exact congrArg Prod.fst this
      rw [h1] at hchg
      have hne : x'.TR ≠ x.TR := hchg.mp rfl
      rw [h3] at heq
      exact hne heq.1
    · exact ih ⟨x, hx, x', hx'⟩ heq.2

theorem handleUpdate_rows (c : ThermoController) (state : thermoState) :
    ∃ rs, c.handleUpdateLoop state.OT (c.markedZones state.forceUpdate) false = some rs ∧
      List.Forall₂ (fun e e' =>
        e'.zone = e.zone ∧ e'.needsUpdate = false ∧
        ((∃ d, c.calculateSetpoint e.zone state.OT = some (d, false)) → e'.TR = e.TR) ∧
        (state.forceUpdate = false → e.needsUpdate = false → e'.TR = e.TR) ∧
        ((state.forceUpdate = true ∨ e.needsUpdate = true) →
          ∀ d, c.calculateSetpoint e.zone state.OT = some (d, true) → e'.TR = d))
        c.zones rs.1 ∧
      (rs.2 = false → rs.1.map (fun e => e.TR) = c.zones.map (fun e => e.TR)) ∧
      (rs.2 = true → rs.1.map (fun e => e.TR) ≠ c.zones.map (fun e => e.TR)) := by
  obtain ⟨rs, hrs, hall, hneed⟩ :=
    handleUpdateLoop_spec c state.OT (c.markedZones state.forceUpdate) false
  refine ⟨rs, hrs, ?_, ?_, ?_⟩
  · refine forall2_comp ?_ _ _ _ (markedZones_forall2 c state.forceUpdate) hall
    rintro e m e' ⟨hz, hTR, hkeep, hforce⟩ ⟨b, hb⟩
    obtain ⟨r, hr, p1, p2, p3, _, p5, p6⟩ := handleUpdateZone_spec c state.OT m
    have hre : r = (e', b) := Option.some.inj (hr.symm.trans hb)
    have hr1 : r.1 = e' := by rw [hre]
    rw [hr1, hz] at p1
    rw [hr1] at p3 p5 p6
    rw [hz, hTR] at p5
    rw [hz] at p6
    refine ⟨p1, ?_, fun ⟨d, hd⟩ => p5 d hd, ?_, ?_⟩
    · cases hm : m.needsUpdate with
      | true => exact p3 hm
      | false =>
        have := p2 hm
        rw [hre] at this
        have h1 : e' = m := congrArg Prod.fst this
        rw [h1, hm]
    · intro hf hn
      have hm : m.needsUpdate = false := by rw [hkeep hf, hn]
      have := p2 hm
      rw [hre] at this
      have h1 : e' = m := congrArg Prod.fst this
      rw [h1, hTR]
    · intro hor d hd
      have hm : m.needsUpdate = true := by
        rcases hor with h | h
        · exact hforce h
        · cases hf : state.forceUpdate with
          | true => exact hforce hf
          | false => rw [hkeep hf, h]
      exact p6 hm d hd
  · intro h2
    rw [← markedZones_TR c state.forceUpdate]
    apply loop_TR_unchanged c state.OT _ _ hall
    intro hex
    have := hneed.mpr (Or.inr hex)
    rw [h2] at this
    exact absurd this (by simp)
  · intro h2
    rw [← markedZones_TR c state.forceUpdate]
    apply loop_TR_changed c state.OT _ _ hall
    rcases hneed.mp h2 with h | h
    · exact absurd h (by simp)
    · exact h

theorem handleUpdate_result (c : ThermoController) (state : thermoState)
    (r : ThermoController × thermoState × List EngineEffect)
    (h : c.handleUpdate state = some r) :
    ∃ rs, c.handleUpdateLoop state.OT (c.markedZones state.forceUpdate) false = some rs ∧
      r.1 = { c with zones := rs.1 } ∧ r.2.1.OT = state.OT ∧ r.2.1.forceUpdate = false ∧
      (((rs.2 || state.forceUpdate) = false ∧ r.2.1.tSet = state.tSet ∧
          r.2.1.chEnable = state.chEnable ∧ r.2.2 = []) ∨
        ((rs.2 || state.forceUpdate) = true ∧
          ∃ a, averageSetpointsOver (ThermoController.zoneTRs { c with zones := rs.1 }) = some a ∧
            (r.2.1.tSet, r.2.1.chEnable) = a.2 ∧
            (((a.2.1 ≠ state.tSet ∨ a.2.2 ≠ state.chEnable ∨ state.forceUpdate = true) ∧
                r.2.2 = a.1 ++ ThermoController.update { c with zones := rs.1 } a.2.1 a.2.2) ∨
              (¬ (a.2.1 ≠ state.tSet ∨ a.2.2 ≠ state.chEnable ∨ state.forceUpdate = true) ∧
                r.2.2 = a.1)))) := by
  obtain ⟨rs, hrs, _⟩ := handleUpdate_rows c state
  refine ⟨rs, hrs, ?_⟩
  rw [handleUpdate_unfold c state rs hrs] at h
  by_cases hrun : (rs.2 || state.forceUpdate) = true
  · rw [if_pos hrun] at h
    cases ha : averageSetpointsOver (ThermoController.zoneTRs { c with zones := rs.1 }) with
    | none => rw [ha] at h; simp at h
    | some a =>
      rw [ha, Option.some_bind] at h
      by_cases hchg : a.2.1 ≠ state.tSet ∨ a.2.2 ≠ state.chEnable ∨ state.forceUpdate = true
      · rw [if_pos hchg] at h
        have hr := (Option.some.inj h).symm
        subst hr
        exact ⟨rfl, rfl, rfl, Or.inr ⟨hrun, a, rfl, rfl, Or.inl ⟨hchg, rfl⟩⟩⟩
      · rw [if_neg hchg] at h
        have hr := (Option.some.inj h).symm
        subst hr
        have h1 : a.2.1 = state.tSet := by
          by_contra hne
          exact hchg (Or.inl hne)
        have h2 : a.2.2 = state.chEnable := by
          by_contra hne
          exact hchg (Or.inr (Or.inl hne))
        refine ⟨rfl, rfl, rfl, Or.inr ⟨hrun, a, rfl, ?_, Or.inr ⟨hchg, rfl⟩⟩⟩
        show (state.tSet, state.chEnable) = a.2
        rw [← h1, ← h2]
  · rw [if_neg hrun] at h
    have hr := (Option.some.inj h).symm
    subst hr
    exact ⟨rfl, rfl, rfl, Or.inl ⟨by simpa using hrun, rfl, rfl, rfl⟩⟩

theorem handleUpdate_returns (c : ThermoController) (state : thermoState)
    (hgap : ∃ e ∈ c.zones, -10000 < e.zone.setpoint - e.zone.averageTemperature) :
    ∃ r, c.handleUpdate state = some r := by
  obtain ⟨rs, hrs, hall, _⟩ := handleUpdate_rows c state
  rw [handleUpdate_unfold c state rs hrs]
  by_cases hrun : (rs.2 || state.forceUpdate) = true
  · rw [if_pos hrun]
    have hzones : rs.1.map (fun e => e.zone) = c.zones.map (fun e => e.zone) :=
      forall2_zone_map _ _ (hall.imp (fun _ _ h => h.1))
    have hg : ∃ e ∈ ThermoController.zoneTRs { c with zones := rs.1 }, -10000 < gapOf e := by
      obtain ⟨e, he, hge⟩ := hgap
      have hmem : e.zone ∈ rs.1.map (fun e => e.zone) := by
        rw [hzones]
        exact List.mem_map.mpr ⟨e, he, rfl⟩
      obtain ⟨e', he', hz⟩ := List.mem_map.mp hmem
      refine ⟨(e'.zone, e'.TR), List.mem_map.mpr ⟨e', he', rfl⟩, ?_⟩
      show -10000 < e'.zone.setpoint - e'.zone.averageTemperature
      rw [hz]
      exact hge
    obtain ⟨p, hp⟩ := averageSetpointsOver_returns _ hg
    rw [hp, Option.some_bind]
    split_ifs <;> exact ⟨_, rfl⟩
  · rw [if_neg hrun]
    exact ⟨_, rfl⟩

/-- C18: after `handleUpdate` every zone is the same zone as before, and its stored demand is
unchanged when its demand computation returns `ok = false`, and also when no force update is
pending and the zone is not dirty.  The call returns whenever some zone has a setpoint gap above
the -10000 sentinel. -/
theorem handleUpdate_frame (c : ThermoController) (state : thermoState) :
    (∀ r, c.handleUpdate state = some r →
      List.Forall₂ (fun e e' =>
        e'.zone = e.zone ∧
        ((∃ d, c.calculateSetpoint e.zone state.OT = some (d, false)) → e'.TR = e.TR) ∧
        (state.forceUpdate = false → e.needsUpdate = false → e'.TR = e.TR))
        c.zones r.1.zones) ∧
    ((∃ e ∈ c.zones, -10000 < e.zone.setpoint - e.zone.averageTemperature) →
      ∃ r, c.handleUpdate state = some r) := by
  refine ⟨?_, handleUpdate_returns c state⟩
  intro r hr
  obtain ⟨rs, hrs, hc, _⟩ := handleUpdate_result c state r hr
  obtain ⟨rs', hrs', hall, _⟩ := handleUpdate_rows c state
  have hrs_eq : rs' = rs := Option.some.inj (hrs'.symm.trans hrs)
  rw [hc]
  rw [hrs_eq] at hall
  exact hall.imp (fun _ _ h => ⟨h.1, h.2.2.1, h.2.2.2.1⟩)

theorem handleUpdate_commands (c : ThermoController) (state : thermoState)
    (r : ThermoController × thermoState × List EngineEffect)
    (h : c.handleUpdate state = some r) :
    r.1.enabled = c.enabled ∧
    ((boilerCommands r.2.2 = [] ∧ r.2.1.tSet = state.tSet ∧ r.2.1.chEnable = state.chEnable ∧
        state.forceUpdate = false) ∨
      boilerCommands r.2.2 =
        [if r.1.enabled = true then (r.2.1.tSet, r.2.1.chEnable) else (defaultTSet, false)]) := by
  obtain ⟨rs, _, hc, _, _, hcase⟩ := handleUpdate_result c state r h
  have hen : r.1.enabled = c.enabled := by rw [hc]
  refine ⟨hen, ?_⟩
  rcases hcase with ⟨hrun, h1, h2, h3⟩ | ⟨_, a, ha, hst, hpub | hnot⟩
  · left
    refine ⟨by rw [h3]; rfl, h1, h2, ?_⟩
    cases hf : state.forceUpdate with
    | false => rfl
    | true => rw [hf] at hrun; simp at hrun
  · right
    have hd := averageSetpointsOver_boilerCommands _ a ha
    rw [hpub.2, boilerCommands_append, hd, List.nil_append, update_boilerCommands]
    have h1 : r.2.1.tSet = a.2.1 := congrArg Prod.fst hst
    have h2 : r.2.1.chEnable = a.2.2 := congrArg Prod.snd hst
    rw [h1, h2, hc]
  · left
    have hd := averageSetpointsOver_boilerCommands _ a ha
    have hnf : ¬ state.forceUpdate = true := fun hf => hnot.1 (Or.inr (Or.inr hf))
    have h1 : a.2.1 = state.tSet := by
      by_contra hne
      exact hnot.1 (Or.inl hne)
    have h2 : a.2.2 = state.chEnable := by
      by_contra hne
      exact hnot.1 (Or.inr (Or.inl hne))
    refine ⟨by rw [hnot.2, hd], ?_, ?_, by simpa using hnf⟩
    · rw [← h1]
      exact congrArg Prod.fst hst
    · rw [← h2]
      exact congrArg Prod.snd hst

theorem runStep_commands (c : ThermoController) (state : thermoState) (ev : EngineEvent)
    (r : ThermoController × thermoState × List EngineEffect)
    (h : c.runStep state ev = some r) :
    r.1.enabled = c.enabled ∧
    ((boilerCommands r.2.2 = [] ∧ r.2.1.tSet = state.tSet ∧ r.2.1.chEnable = state.chEnable) ∨
      boilerCommands r.2.2 =
        [if r.1.enabled = true then (r.2.1.tSet, r.2.1.chEnable) else (defaultTSet, false)]) := by
  cases ev with
  | force =>
    have hr := (Option.some.inj h).symm
    subst hr
    exact ⟨rfl, Or.inl ⟨rfl, rfl, rfl⟩⟩
  | outside newOT =>
    simp only [ThermoController.runStep] at h
    by_cases hne : newOT ≠ state.OT
    · rw [if_pos hne] at h
      have hr := (Option.some.inj h).symm
      subst hr
      exact ⟨rfl, Or.inl ⟨rfl, rfl, rfl⟩⟩
    · rw [if_neg hne] at h
      have hr := (Option.some.inj h).symm
      subst hr
      exact ⟨rfl, Or.inl ⟨rfl, rfl, rfl⟩⟩
  | zone name =>
    have hr := (Option.some.inj h).symm
    subst hr
    exact ⟨rfl, Or.inl ⟨rfl, rfl, rfl⟩⟩
  | timer =>
    obtain ⟨h1, h2⟩ := handleUpdate_commands c state r h
    refine ⟨h1, ?_⟩
    rcases h2 with ⟨a, b, d, _⟩ | h2
    · exact Or.inl ⟨a, b, d⟩
    · exact Or.inr h2
  | ticker =>
    have hr := (Option.some.inj h).symm
    subst hr
    exact ⟨rfl, Or.inr (update_boilerCommands c state.tSet state.chEnable)⟩

/-- C14: while the controller is disabled, `update` hands `(10.0, false)` to the boiler
whatever it is given, a heartbeat tick publishes exactly that, every boiler command published
by `handleUpdate` (and by any turn of the event loop) is `(10.0, false)`, and a forced
`handleUpdate` that returns publishes exactly one such command. -/
theorem disabled_publishes_fallback (c : ThermoController) (state : thermoState)
    (hdis : c.enabled = false) :
    (∀ tSet chEnable, c.update tSet chEnable = [EngineEffect.boilerUpdate 10.0 false]) ∧
    c.runStep state EngineEvent.ticker
      = some (c, state, [EngineEffect.boilerUpdate 10.0 false]) ∧
    (∀ r, c.handleUpdate state = some r → ∀ cmd ∈ boilerCommands r.2.2, cmd = (10.0, false)) ∧
    (∀ ev r, c.runStep state ev = some r →
      ∀ cmd ∈ boilerCommands r.2.2, cmd = (10.0, false)) ∧
    (state.forceUpdate = true → ∀ r, c.handleUpdate state = some r →
      boilerCommands r.2.2 = [(10.0, false)]) := by
  have hupd : ∀ tSet chEnable, c.update tSet chEnable = [EngineEffect.boilerUpdate 10.0 false] := by
    intro t ch
    unfold ThermoController.update
    rw [hdis]
    rfl
  have hstep : ∀ ev r, c.runStep state ev = some r →
      ∀ cmd ∈ boilerCommands r.2.2, cmd = (10.0, false) := by
    intro ev r hr cmd hcmd
    obtain ⟨hen, hcase⟩ := runStep_commands c state ev r hr
    rcases hcase with ⟨h0, _⟩ | h1
    · rw [h0] at hcmd
      exact absurd hcmd (List.not_mem_nil cmd)
    · rw [h1, hen, hdis] at hcmd
      simpa [defaultTSet] using hcmd
  refine ⟨hupd, ?_, fun r hr => hstep EngineEvent.timer r hr, hstep, ?_⟩
  · show some (c, state, c.update state.tSet state.chEnable) = _
    rw [hupd]
  · intro hf r hr
    obtain ⟨hen, hcase⟩ := handleUpdate_commands c state r hr
    rcases hcase with ⟨_, _, _, hnf⟩ | h1
    · rw [hf] at hnf
      exact absurd hnf (by simp)
    · rw [h1, hen, hdis]
      simp [defaultTSet]

/-- Witness for C14: the sample engine, disabled, publishes `(10.0, false)` on a heartbeat
tick from a state that stores `(40, true)`. -/
theorem disabled_publishes_fallback_witness :
    ThermoController.runStep { sampleController with enabled := false }
        { OT := 0, tSet := 40, chEnable := true, forceUpdate := false } EngineEvent.ticker
      = some ({ sampleController with enabled := false },
          { OT := 0, tSet := 40, chEnable := true, forceUpdate := false },
          [EngineEffect.boilerUpdate 10.0 false]) :=
  (disabled_publishes_fallback { sampleController with enabled := false }
    { OT := 0, tSet := 40, chEnable := true, forceUpdate := false } rfl).2.1

theorem zoneTRs_eq_of_maps (l l' : List ZoneEntry)
    (hz : l'.map (fun e => e.zone) = l.map (fun e => e.zone))
    (hT : l'.map (fun e => e.TR) = l.map (fun e => e.TR)) :
    l'.map (fun e => (e.zone, e.TR)) = l.map (fun e => (e.zone, e.TR)) := by
  rw [← List.zip_map' (fun e : ZoneEntry => e.zone) (fun e => e.TR) l',
    ← List.zip_map' (fun e : ZoneEntry => e.zone) (fun e => e.TR) l, hz, hT]

theorem handleUpdate_stored_aggregate (c : ThermoController) (state : thermoState)
    (r : ThermoController × thermoState × List EngineEffect)
    (h : c.handleUpdate state = some r)
    (hrun : state.forceUpdate = true ∨ r.1.zoneTRs ≠ c.zoneTRs) :
    (r.2.1.tSet, r.2.1.chEnable) = aggregateOf r.1.zoneTRs := by
  obtain ⟨rs, hrs, hc, _, _, hcase⟩ := handleUpdate_result c state r h
  obtain ⟨rs', hrs', hall, hsame, _⟩ := handleUpdate_rows c state
  have hrs_eq : rs' = rs := Option.some.inj (hrs'.symm.trans hrs)
  rw [hrs_eq] at hall hsame
  rcases hcase with ⟨hno, _⟩ | ⟨_, a, ha, hst, _⟩
  · exfalso
    have h2 : rs.2 = false := by
      cases h2 : rs.2 with
      | false => rfl
      | true => rw [h2] at hno; simp at hno
    have hf : state.forceUpdate = false := by
      cases hf : state.forceUpdate with
      | false => rfl
      | true => rw [hf] at hno; simp at hno
    rcases hrun with h1 | h1
    · rw [hf] at h1
      exact absurd h1 (by simp)
    · apply h1
      rw [hc]
      exact zoneTRs_eq_of_maps _ _ (forall2_zone_map _ _ (hall.imp (fun _ _ h => h.1)))
        (hsame h2)
  · rw [hst, hc]
    exact averageSetpointsOver_result _ a ha

theorem handleUpdate_keeps_aggregate (c : ThermoController) (state : thermoState)
    (r : ThermoController × thermoState × List EngineEffect)
    (h : c.handleUpdate state = some r)
    (hinv : (state.tSet, state.chEnable) = aggregateOf c.zoneTRs) :
    (r.2.1.tSet, r.2.1.chEnable) = aggregateOf r.1.zoneTRs := by
  by_cases hrun : state.forceUpdate = true ∨ r.1.zoneTRs ≠ c.zoneTRs
  · exact handleUpdate_stored_aggregate c state r h hrun
  · have hsame : r.1.zoneTRs = c.zoneTRs := by
      by_contra hne
      exact hrun (Or.inr hne)
    obtain ⟨rs, _, hc, _, _, hcase⟩ := handleUpdate_result c state r h
    rcases hcase with ⟨_, h1, h2, _⟩ | ⟨_, a, ha, hst, _⟩
    · rw [h1, h2, hsame]
      exact hinv
    · rw [hst, hc]
      exact averageSetpointsOver_result _ a ha

/-- C20: running `handleUpdate` with the enabled flag set to any value `b` gives the same rows
(zones, dirty flags, demands) and the same stored state (`tSet`, `chEnable`, `forceUpdate`, `OT`)
as running it on the engine as it is; only what is published can differ.  Whenever a force
update was pending or some stored demand changed, the stored `(tSet, chEnable)` is the aggregate
of the demands after the call, whatever the enabled flag is; and if the stored pair was the
aggregate of the demands before the call it is the aggregate of the demands after it. -/
theorem handleUpdate_enabled_independent (c : ThermoController) (state : thermoState)
    (b : Bool) :
    (∀ r, c.handleUpdate state = some r →
      ∃ published, ThermoController.handleUpdate { c with enabled := b } state =
        some ({ r.1 with enabled := b }, r.2.1, published)) ∧
    (c.handleUpdate state = none →
      ThermoController.handleUpdate { c with enabled := b } state = none) ∧
    (∀ r, ThermoController.handleUpdate { c with enabled := b } state = some r →
      (state.forceUpdate = true ∨
        r.1.zoneTRs ≠ ThermoController.zoneTRs { c with enabled := b }) →
      (r.2.1.tSet, r.2.1.chEnable) = aggregateOf r.1.zoneTRs) ∧
    (∀ r, ThermoController.handleUpdate { c with enabled := b } state = some r →
      (state.tSet, state.chEnable) = aggregateOf c.zoneTRs →
      (r.2.1.tSet, r.2.1.chEnable) = aggregateOf r.1.zoneTRs) := by
  obtain ⟨rs, hrs, _⟩ := handleUpdate_rows c state
  have hrsb : ThermoController.handleUpdateLoop { c with enabled := b } state.OT
      (ThermoController.markedZones { c with enabled := b } state.forceUpdate) false
      = some rs := by
    rw [handleUpdateLoop_enabled]
    exact hrs
  have hub := handleUpdate_unfold { c with enabled := b } state rs hrsb
  have hu := handleUpdate_unfold c state rs hrs
  have hz : ThermoController.zoneTRs
      { ({ c with enabled := b } : ThermoController) with zones := rs.1 }
      = ThermoController.zoneTRs { c with zones := rs.1 } := rfl
  rw [hz] at hub
  refine ⟨?_, ?_, fun r hr hrun => handleUpdate_stored_aggregate _ state r hr hrun,
    fun r hr hinv => handleUpdate_keeps_aggregate _ state r hr hinv⟩
  · intro r hr
    rw [hu] at hr
    rw [hub]
    by_cases hrun : (rs.2 || state.forceUpdate) = true
    · rw [if_pos hrun] at hr ⊢
      cases ha : averageSetpointsOver (ThermoController.zoneTRs { c with zones := rs.1 }) with
      | none => rw [ha] at hr; simp at hr
      | some a =>
        rw [ha, Option.some_bind] at hr
        rw [Option.some_bind]
        by_cases hchg : a.2.1 ≠ state.tSet ∨ a.2.2 ≠ state.chEnable ∨ state.forceUpdate = true
        · rw [if_pos hchg] at hr ⊢
          rw [← Option.some.inj hr]
          exact ⟨_, rfl⟩
        · rw [if_neg hchg] at hr ⊢
          rw [← Option.some.inj hr]
          exact ⟨_, rfl⟩
    · rw [if_neg hrun] at hr ⊢
      rw [← Option.some.inj hr]
      exact ⟨_, rfl⟩
  · intro hn
    rw [hu] at hn
    rw [hub]
    by_cases hrun : (rs.2 || state.forceUpdate) = true
    · rw [if_pos hrun] at hn ⊢
      cases ha : averageSetpointsOver (ThermoController.zoneTRs { c with zones := rs.1 }) with
      | none => rfl
      | some a =>
        rw [ha, Option.some_bind] at hn
        split_ifs at hn
    · rw [if_neg hrun] at hn
      exact absurd hn (by simp)

theorem runEvents_cons (c : ThermoController) (state : thermoState) (ev : EngineEvent)
    (rest : List EngineEvent) (R : ThermoController × thermoState × List EngineEffect)
    (h : c.runEvents state (ev :: rest) = some R) :
    ∃ r rs, c.runStep state ev = some r ∧ r.1.runEvents r.2.1 rest = some rs ∧
      R = (rs.1, rs.2.1, r.2.2 ++ rs.2.2) := by
  have hdef : c.runEvents state (ev :: rest) =
      (c.runStep state ev).bind (fun r =>
        (r.1.runEvents r.2.1 rest).bind (fun rs => some (rs.1, rs.2.1, r.2.2 ++ rs.2.2))) := rfl
  rw [hdef] at h
  cases hr : c.runStep state ev with
  | none => rw [hr] at h; simp at h
  | some r =>
    rw [hr, Option.some_bind] at h
    cases hrs : r.1.runEvents r.2.1 rest with
    | none => rw [hrs] at h; simp at h
    | some rs =>
      rw [hrs, Option.some_bind] at h
      exact ⟨r, rs, rfl, hrs, (Option.some.inj h).symm⟩

theorem runEvents_commands (evs : List EngineEvent) :
    ∀ (c : ThermoController) (state : thermoState)
      (R : ThermoController × thermoState × List EngineEffect),
      c.runEvents state evs = some R →
      R.1.enabled = c.enabled ∧
      ((boilerCommands R.2.2 = [] ∧ R.2.1.tSet = state.tSet ∧
          R.2.1.chEnable = state.chEnable) ∨
        (boilerCommands R.2.2).getLast? =
          some (if R.1.enabled = true then (R.2.1.tSet, R.2.1.chEnable)
            else (defaultTSet, false))) := by
  induction evs with
  | nil =>
    intro c state R h
    have hR := (Option.some.inj h).symm
    subst hR
    exact ⟨rfl, Or.inl ⟨rfl, rfl, rfl⟩⟩
  | cons ev rest ih =>
    intro c state R h
    obtain ⟨r, rs, hr, hrs, hR⟩ := runEvents_cons c state ev rest R h
    obtain ⟨hen1, hstep⟩ := runStep_commands c state ev r hr
    obtain ⟨hen2, hrest⟩ := ih r.1 r.2.1 rs hrs
    subst hR
    refine ⟨hen2.trans hen1, ?_⟩
    show (boilerCommands (r.2.2 ++ rs.2.2) = [] ∧ rs.2.1.tSet = state.tSet ∧
        rs.2.1.chEnable = state.chEnable) ∨
      (boilerCommands (r.2.2 ++ rs.2.2)).getLast? =
        some (if rs.1.enabled = true then (rs.2.1.tSet, rs.2.1.chEnable)
          else (defaultTSet, false))
    rw [boilerCommands_append]
    rcases hrest with ⟨h0, ht, hch⟩ | hlast
    · rw [h0, List.append_nil]
      rcases hstep with ⟨s0, st, sch⟩ | s1
      · exact Or.inl ⟨s0, ht.trans st, hch.trans sch⟩
      · right
        rw [s1, hen2, ht, hch]
        rfl
    · right
      rw [List.getLast?_append, hlast]
      rfl

/-- C15 (amended): a heartbeat tick publishes the stored `(tSet, chEnable)` through `update`
(so `(10.0, false)` while disabled) and changes neither the engine nor the state; two
consecutive ticks publish the same command twice; and after any sequence of events of the
event loop, which never changes the enabled flag, a tick publishes exactly the boiler command
that was published last, when there is one. -/
theorem tick_republishes_stored_command (c : ThermoController) (state : thermoState) :
    c.runStep state EngineEvent.ticker
      = some (c, state, c.update state.tSet state.chEnable) ∧
    c.update state.tSet state.chEnable =
      [if c.enabled = true then EngineEffect.boilerUpdate state.tSet state.chEnable
        else EngineEffect.boilerUpdate 10.0 false] ∧
    c.runEvents state [EngineEvent.ticker, EngineEvent.ticker]
      = some (c, state,
          c.update state.tSet state.chEnable ++ c.update state.tSet state.chEnable) ∧
    (∀ evs R cmd, c.runEvents state evs = some R →
      (boilerCommands R.2.2).getLast? = some cmd →
      R.1.enabled = c.enabled ∧
      R.1.runStep R.2.1 EngineEvent.ticker
        = some (R.1, R.2.1, [EngineEffect.boilerUpdate cmd.1 cmd.2])) := by
  refine ⟨rfl, ?_, ?_, ?_⟩
  · unfold ThermoController.update
    cases c.enabled <;> rfl
  · show (some (c, state, c.update state.tSet state.chEnable ++
        (c.update state.tSet state.chEnable ++ [])) : Option _) = _
    rw [List.append_nil]
  · intro evs R cmd hR hlast
    obtain ⟨hen, hcase⟩ := runEvents_commands evs c state R hR
    refine ⟨hen, ?_⟩
    rcases hcase with ⟨h0, _⟩ | h1
    · rw [h0] at hlast
      simp at hlast
    · rw [hlast] at h1
      have hcmd := Option.some.inj h1
      show some (R.1, R.2.1, R.1.update R.2.1.tSet R.2.1.chEnable) = _
      unfold ThermoController.update
      rw [hcmd]
      cases R.1.enabled <;> rfl

/-- Witness for C15 (amended): the sample engine stores `(40, true)`; after a tick and a force
request the next tick publishes `(40, true)` again. -/
theorem tick_republishes_stored_command_witness :
    sampleController.runStep
        { OT := 0, tSet := 40, chEnable := true, forceUpdate := true } EngineEvent.ticker
      = some (sampleController, { OT := 0, tSet := 40, chEnable := true, forceUpdate := true },
          [EngineEffect.boilerUpdate 40 true]) :=
  ((tick_republishes_stored_command sampleController
      { OT := 0, tSet := 40, chEnable := true, forceUpdate := false }).2.2.2
    [EngineEvent.ticker, EngineEvent.force]
    (sampleController, { OT := 0, tSet := 40, chEnable := true, forceUpdate := true },
      [EngineEffect.boilerUpdate 40 true, EngineEffect.resetTimer])
    (40, true) rfl rfl).2

/-- C15 (counterexample): the enabled sample engine stores `(40, true)` and a tick publishes
`(40, true)`.  The control message `enable = false` then disables the engine without publishing
a boiler command, and the next tick publishes `(10.0, false)`, which is not the command
published last. -/
theorem tick_after_disable_counterexample :
    sampleController.runStep
        { OT := 0, tSet := 40, chEnable := true, forceUpdate := false } EngineEvent.ticker
      = some (sampleController, { OT := 0, tSet := 40, chEnable := true, forceUpdate := false },
          [EngineEffect.boilerUpdate 40 true]) ∧
    sampleController.setEnabled "false"
      = ({ sampleController with enabled := false },
          [EngineEffect.publishActive "OFF", EngineEffect.writeEnabled "false",
            EngineEffect.forceChanSend]) ∧
    boilerCommands (sampleController.setEnabled "false").2 = [] ∧
    ThermoController.runStep (sampleController.setEnabled "false").1
        { OT := 0, tSet := 40, chEnable := true, forceUpdate := false } EngineEvent.ticker
      = some ({ sampleController with enabled := false },
          { OT := 0, tSet := 40, chEnable := true, forceUpdate := false },
          [EngineEffect.boilerUpdate 10.0 false]) ∧
    EngineEffect.boilerUpdate 10.0 false ≠ EngineEffect.boilerUpdate 40 true := by
  have hset : sampleController.setEnabled "false"
      = ({ sampleController with enabled := false },
          [EngineEffect.publishActive "OFF", EngineEffect.writeEnabled "false",
            EngineEffect.forceChanSend]) := by
    unfold ThermoController.setEnabled
    rw [if_neg (by decide), if_pos (by decide)]
  refine ⟨rfl, hset, ?_, ?_, ?_⟩
  · rw [hset]
    rfl
  · rw [hset]
    rfl
  · intro h
    have := (EngineEffect.boilerUpdate.inj h).1
    norm_num at this

/-! ### The legacy demand computation -/

theorem legacy_estimateTset_unfold (hp sp ot rt : ℚ) :
    legacy.estimateTset hp sp ot rt =
      (List.range 14).foldlM
        (thermo_model.termStep [1.0, hp ^ 1, hp ^ 2, hp ^ 3]
          [1.0, sp ^ 1, sp ^ 2, sp ^ 3] [1.0, ot ^ 1, ot ^ 2, ot ^ 3]) 0.0 := by
  rfl

theorem powerTable_pow (x : ℚ) :
    [1.0, x ^ 1, x ^ 2, x ^ 3] = [1.0, x, x * x, x * x * x] := by
  simp [pow_succ]

theorem legacy_estimateTset_eq (hp sp ot rt : ℚ) :
    legacy.estimateTset hp sp ot rt = thermo_model.CalculateSetpoint hp sp ot rt := by
  rw [legacy_estimateTset_unfold, CalculateSetpoint_unfold, powerTable_pow, powerTable_pow,
    powerTable_pow]
  rfl

theorem legacy_boundTset_eq (tset : ℚ) : legacy.boundTset tset = boundTset tset := by
  unfold legacy.boundTset boundTset maxTSet minTSet fallbackTSet
  dsimp only
  by_cases h1 : tset > 75.0
  · rw [if_pos h1, if_pos h1, if_neg (by norm_num)]
    norm_num
  · rw [if_neg h1, if_neg h1]
    by_cases h2 : tset < 20
    · rw [if_pos h2, if_pos (by norm_num at h2 ⊢; exact h2)]
      norm_num
    · rw [if_neg h2, if_neg (by norm_num at h2 ⊢; exact h2)]

theorem legacy_calculateSetpoint_eq (c : ThermoController) (zone : ZoneController) (OT : ℚ) :
    legacy.calculateSetpoint c zone OT = c.calculateSetpoint zone OT := by
  have hhp : (match zone.cfg.HeatingParameter with
      | some v => v
      | none => c.cfg.DefaultHeatingParameter) = c.getHeatingParameter zone := by
    unfold ThermoController.getHeatingParameter
    cases zone.cfg.HeatingParameter <;> rfl
  unfold legacy.calculateSetpoint ThermoController.calculateSetpoint
  simp only [hhp, legacy_estimateTset_eq, legacy_boundTset_eq, minValidTemp, fallbackTSet]
/-- C30: in exact arithmetic the legacy `estimateTset` returns what the current
`thermo_model.CalculateSetpoint` returns, the legacy `boundTset` what the current `boundTset`
returns, and the legacy `calculateSetpoint` the same `(demand, ok)` as the current one for the
same engine configuration, zone state and outside temperature; and it always returns. -/
theorem legacy_demand_refines :
    (∀ hp sp ot rt : ℚ,
      legacy.estimateTset hp sp ot rt = thermo_model.CalculateSetpoint hp sp ot rt) ∧
    (∀ tset : ℚ, legacy.boundTset tset = boundTset tset) ∧
    (∀ (c : ThermoController) (zone : ZoneController) (OT : ℚ),
      legacy.calculateSetpoint c zone OT = c.calculateSetpoint zone OT ∧
      ∃ r, legacy.calculateSetpoint c zone OT = some r) := by
  refine ⟨legacy_estimateTset_eq, legacy_boundTset_eq, fun c zone OT => ?_⟩
  refine ⟨legacy_calculateSetpoint_eq c zone OT, ?_⟩
  rw [legacy_calculateSetpoint_eq]
  exact calculateSetpoint_total c zone OT

/-! ### The room temperature in the demand -/

theorem calculateSetpoint_bias (c c' : ThermoController) (z z' : ZoneController) (OT : ℚ)
    (hsp : z'.setpoint = z.setpoint) (hok : z'.getPair.2.2 = z.getPair.2.2)
    (hbias : c'.getHeatingParameter z' - 1.5 * (z'.averageTemperature - z'.setpoint) =
      c.getHeatingParameter z - 1.5 * (z.averageTemperature - z.setpoint))
    (hover : z'.averageTemperature > z'.setpoint + 2.0 ↔
      z.averageTemperature > z.setpoint + 2.0) :
    c'.calculateSetpoint z' OT = c.calculateSetpoint z OT := by
  by_cases h : z.getPair.2.2 = true ∧ OT > minValidTemp
  · obtain ⟨m, hm, hr⟩ := calculateSetpoint_valid c z OT h.1 h.2
    obtain ⟨m', hm', hr'⟩ := calculateSetpoint_valid c' z' OT (hok.trans h.1) h.2
    rw [hbias, hsp, CalculateSetpoint_eq] at hm'
    rw [CalculateSetpoint_eq] at hm
    have hmm : m' = m := Option.some.inj (hm'.symm.trans hm)
    rw [hr, hr', hmm, hsp]
    rw [hsp] at hover
    by_cases ho : z.averageTemperature > z.setpoint + 2.0
    · rw [if_pos (Or.inr (hover.mpr ho)), if_pos (Or.inr ho)]
    · by_cases h3 : OT > z.setpoint - 3.0
      · rw [if_pos (Or.inl h3), if_pos (Or.inl h3)]
      · rw [if_neg (by rintro (h1 | h1); exact h3 h1; exact ho (hover.mp h1)),
          if_neg (by rintro (h1 | h1); exact h3 h1; exact ho h1)]
  · rw [calculateSetpoint_invalid c z OT h,
      calculateSetpoint_invalid c' z' OT (by rw [hok]; exact h)]

/-- C29: `thermo_model.CalculateSetpoint` returns the same value whatever its fourth argument
is; and two zones with the same setpoint and validity whose biased heating parameters
`hp - 1.5*(rt - sp)` agree and whose room temperatures fall on the same side of `sp + 2.0` get
the same `(demand, ok)` from `calculateSetpoint` at every outside temperature, however their
room temperatures differ otherwise. -/
theorem CalculateSetpoint_ignores_room_temperature :
    (∀ hp sp ot rt1 rt2 : ℚ,
      thermo_model.CalculateSetpoint hp sp ot rt1 = thermo_model.CalculateSetpoint hp sp ot rt2) ∧
    (∀ (c c' : ThermoController) (z z' : ZoneController) (OT : ℚ),
      z'.setpoint = z.setpoint → z'.getPair.2.2 = z.getPair.2.2 →
      c'.getHeatingParameter z' - 1.5 * (z'.averageTemperature - z'.setpoint) =
        c.getHeatingParameter z - 1.5 * (z.averageTemperature - z.setpoint) →
      (z'.averageTemperature > z'.setpoint + 2.0 ↔ z.averageTemperature > z.setpoint + 2.0) →
      c'.calculateSetpoint z' OT = c.calculateSetpoint z OT) := by
  refine ⟨fun hp sp ot rt1 rt2 => ?_, calculateSetpoint_bias⟩
  rw [CalculateSetpoint_eq, CalculateSetpoint_eq]

/-- Witness for C29: at outside temperature 0 the sample zone (room 20, heating parameter 15)
and the compensated zone (room 19, heating parameter 13.5) get the same demand. -/
theorem CalculateSetpoint_ignores_room_temperature_witness :
    sampleController.calculateSetpoint compensatedZone 0 =
      sampleController.calculateSetpoint sampleZone 0 :=
  CalculateSetpoint_ignores_room_temperature.2 sampleController sampleController sampleZone
    compensatedZone 0 rfl rfl
    (by norm_num [ThermoController.getHeatingParameter, compensatedZone, sampleZone,
      sampleController])
    (by norm_num [compensatedZone, sampleZone])

/-! ### What a call of `handleUpdate` leaves behind -/

theorem forall2_right_mem {α β : Type} (R : α → β → Prop) (l : List α) (l' : List β)
    (h : List.Forall₂ R l l') : ∀ b ∈ l', ∃ a ∈ l, R a b := by
  induction h with
  | nil => intro b hb; simp at hb
  | cons hab _ ih =>
    intro b hb
    rcases List.mem_cons.mp hb with hb | hb
    · exact ⟨_, List.mem_cons_self _ _, hb ▸ hab⟩
    · obtain ⟨a, ha, hr⟩ := ih b hb
      exact ⟨a, List.mem_cons_of_mem _ ha, hr⟩

theorem handleUpdate_rows_of_result (c : ThermoController) (state : thermoState)
    (r : ThermoController × thermoState × List EngineEffect)
    (h : c.handleUpdate state = some r) :
    r.1.cfg = c.cfg ∧ r.1.enabled = c.enabled ∧
    List.Forall₂ (fun e e' =>
      e'.zone = e.zone ∧ e'.needsUpdate = false ∧
      ((∃ d, c.calculateSetpoint e.zone state.OT = some (d, false)) → e'.TR = e.TR) ∧
      (state.forceUpdate = false → e.needsUpdate = false → e'.TR = e.TR) ∧
      ((state.forceUpdate = true ∨ e.needsUpdate = true) →
        ∀ d, c.calculateSetpoint e.zone state.OT = some (d, true) → e'.TR = d))
      c.zones r.1.zones := by
  obtain ⟨rs, hrs, hc, _⟩ := handleUpdate_result c state r h
  obtain ⟨rs', hrs', hall, _⟩ := handleUpdate_rows c state
  have hrs_eq : rs' = rs := Option.some.inj (hrs'.symm.trans hrs)
  rw [hrs_eq] at hall
  rw [hc]
  exact ⟨rfl, rfl, hall⟩

/-- C21: whenever a call of `handleUpdate` returns, `forceUpdate` is false and no row is marked
dirty, the zones are the same, and every zone that was dirty at the call (every zone when
`forceUpdate` was set) and whose `calculateSetpoint` is ok has exactly that demand stored; the
call returns whenever some zone has setpoint minus average temperature above -10000. -/
theorem handleUpdate_clears_flags (c : ThermoController) (state : thermoState) :
    (∀ r, c.handleUpdate state = some r →
      r.2.1.forceUpdate = false ∧
      (∀ e' ∈ r.1.zones, e'.needsUpdate = false) ∧
      List.Forall₂ (fun e e' =>
        e'.zone = e.zone ∧
        ((state.forceUpdate = true ∨ e.needsUpdate = true) →
          ∀ d, c.calculateSetpoint e.zone state.OT = some (d, true) → e'.TR = d))
        c.zones r.1.zones) ∧
    ((∃ e ∈ c.zones, -10000 < e.zone.setpoint - e.zone.averageTemperature) →
      ∃ r, c.handleUpdate state = some r) := by
  refine ⟨fun r h => ?_, handleUpdate_returns c state⟩
  obtain ⟨_, _, _, _, hf, _⟩ := handleUpdate_result c state r h
  obtain ⟨_, _, hall⟩ := handleUpdate_rows_of_result c state r h
  refine ⟨hf, ?_, hall.imp (fun _ _ hr => ⟨hr.1, hr.2.2.2.2⟩)⟩
  intro e' he'
  obtain ⟨e, _, hr⟩ := forall2_right_mem _ _ _ hall e' he'
  exact hr.2.1

theorem handleUpdate_changed_iff (c : ThermoController) (state : thermoState)
    (r : ThermoController × thermoState × List EngineEffect)
    (h : c.handleUpdate state = some r) :
    ∃ rs, c.handleUpdateLoop state.OT (c.markedZones state.forceUpdate) false = some rs ∧
      (rs.2 = true ↔ r.1.zoneTRs ≠ c.zoneTRs) := by
  obtain ⟨rs, hrs, hc, _⟩ := handleUpdate_result c state r h
  obtain ⟨rs', hrs', hall, hsame, hdiff⟩ := handleUpdate_rows c state
  have hrs_eq : rs' = rs := Option.some.inj (hrs'.symm.trans hrs)
  rw [hrs_eq] at hall hsame hdiff
  refine ⟨rs, hrs, ?_, ?_⟩
  · intro h2 heq
    apply hdiff h2
    rw [hc] at heq
    have := congrArg (List.map Prod.snd) heq
    simpa [ThermoController.zoneTRs, List.map_map, Function.comp_def] using this
  · intro hne
    by_contra h2
    have h2f : rs.2 = false := by
      cases hb : rs.2 with
      | false => rfl
      | true => exact absurd hb h2
    apply hne
    rw [hc]
    exact zoneTRs_eq_of_maps _ _ (forall2_zone_map _ _ (hall.imp (fun _ _ h => h.1)))
      (hsame h2f)

theorem handleUpdate_publish_cases (c : ThermoController) (state : thermoState)
    (r : ThermoController × thermoState × List EngineEffect)
    (h : c.handleUpdate state = some r) :
    ((state.forceUpdate = true ∨
        (r.1.zoneTRs ≠ c.zoneTRs ∧ aggregateOf r.1.zoneTRs ≠ (state.tSet, state.chEnable))) →
      boilerCommands r.2.2 =
        [if c.enabled = true then aggregateOf r.1.zoneTRs else (defaultTSet, false)] ∧
      (r.2.1.tSet, r.2.1.chEnable) = aggregateOf r.1.zoneTRs) ∧
    (¬ (state.forceUpdate = true ∨
        (r.1.zoneTRs ≠ c.zoneTRs ∧ aggregateOf r.1.zoneTRs ≠ (state.tSet, state.chEnable))) →
      boilerCommands r.2.2 = [] ∧ r.2.1.tSet = state.tSet ∧
      r.2.1.chEnable = state.chEnable) := by
  obtain ⟨rs, hrs, hchg⟩ := handleUpdate_changed_iff c state r h
  obtain ⟨rs', hrs', hc, _, _, hcase⟩ := handleUpdate_result c state r h
  have hrs_eq : rs' = rs := Option.some.inj (hrs'.symm.trans hrs)
  rw [hrs_eq] at hc hcase
  obtain ⟨hen, _⟩ := handleUpdate_commands c state r h
  rcases hcase with ⟨hno, h1, h2, h3⟩ | ⟨hrun, a, ha, hst, hpub | hnot⟩
  · have h2f : rs.2 = false := by
      cases hb : rs.2 with
      | false => rfl
      | true => rw [hb] at hno; simp at hno
    have hf : state.forceUpdate = false := by
      cases hb : state.forceUpdate with
      | false => rfl
      | true => rw [hb] at hno; simp at hno
    have hsame : ¬ r.1.zoneTRs ≠ c.zoneTRs := fun hne => by
      have := hchg.mpr hne
      rw [h2f] at this
      exact absurd this (by simp)
    constructor
    · rintro (hforce | ⟨hne, _⟩)
      · rw [hf] at hforce
        exact absurd hforce (by simp)
      · exact absurd hne hsame
    · intro _
      exact ⟨by rw [h3]; rfl, h1, h2⟩
  · have hagg : a.2 = aggregateOf r.1.zoneTRs := by
      rw [hc]
      exact averageSetpointsOver_result _ a ha
    have hstored : (r.2.1.tSet, r.2.1.chEnable) = aggregateOf r.1.zoneTRs := by
      rw [hst, hagg]
    constructor
    · intro _
      refine ⟨?_, hstored⟩
      have hd := averageSetpointsOver_boilerCommands _ a ha
      rw [hpub.2, boilerCommands_append, hd, List.nil_append, update_boilerCommands]
      have e1 : (a.2.1, a.2.2) = aggregateOf r.1.zoneTRs := hagg
      rw [← e1]
    · intro hcond
      exfalso
      apply hcond
      rcases hpub.1 with hne | hne | hforce
      · right
        refine ⟨hchg.mp ?_, ?_⟩
        · by_contra h2
          have hf : state.forceUpdate = true := by
            cases hb : rs.2 with
            | false => rw [hb] at hrun; simpa using hrun
            | true => exact absurd hb h2
          exact hcond (Or.inl hf)
        · rw [← hagg]
          intro heq
          exact hne (congrArg Prod.fst heq)
      · right
        refine ⟨hchg.mp ?_, ?_⟩
        · by_contra h2
          have hf : state.forceUpdate = true := by
            cases hb : rs.2 with
            | false => rw [hb] at hrun; simpa using hrun
            | true => exact absurd hb h2
          exact hcond (Or.inl hf)
        · rw [← hagg]
          intro heq
          exact hne (congrArg Prod.snd heq)
      · exact Or.inl hforce
  · have hagg : a.2 = aggregateOf r.1.zoneTRs := by
      rw [hc]
      exact averageSetpointsOver_result _ a ha
    have e1 : a.2.1 = state.tSet := by
      by_contra hne
      exact hnot.1 (Or.inl hne)
    have e2 : a.2.2 = state.chEnable := by
      by_contra hne
      exact hnot.1 (Or.inr (Or.inl hne))
    have hf : ¬ state.forceUpdate = true := fun hf => hnot.1 (Or.inr (Or.inr hf))
    constructor
    · rintro (hforce | ⟨_, hne⟩)
      · exact absurd hforce hf
      · exfalso
        apply hne
        rw [← hagg, ← e1, ← e2]
    · intro _
      refine ⟨?_, ?_, ?_⟩
      · rw [hnot.2]
        exact averageSetpointsOver_boilerCommands _ a ha
      · rw [← e1]
        exact congrArg Prod.fst hst
      · rw [← e2]
        exact congrArg Prod.snd hst

/-- C22: with no zone configured and a force update pending, `handleUpdate` panics inside
`averageSetpoints` (the `maxdiff` publish dereferences the nil `maxDiffZone`) and publishes no
boiler command, where one is claimed; a run of `Run` that receives an outside temperature and
then the quiet timer ends this way.  Every call that returns does what is claimed: it publishes
exactly one boiler command and stores the new aggregate if `forceUpdate` was set or some stored
demand changed and the new aggregate differs from the stored pair, and otherwise publishes no
boiler command and keeps the stored pair. -/
theorem handleUpdate_forced_without_zones_panics :
    emptyController.handleUpdate { initialState with forceUpdate := true } = none ∧
    emptyController.runEvents initialState [EngineEvent.outside 5, EngineEvent.timer] = none ∧
    (∀ (c : ThermoController) (state : thermoState)
      (r : ThermoController × thermoState × List EngineEffect),
      c.handleUpdate state = some r →
      ((state.forceUpdate = true ∨
          (r.1.zoneTRs ≠ c.zoneTRs ∧
            aggregateOf r.1.zoneTRs ≠ (state.tSet, state.chEnable))) →
        boilerCommands r.2.2 =
          [if c.enabled = true then aggregateOf r.1.zoneTRs else (defaultTSet, false)] ∧
        (r.2.1.tSet, r.2.1.chEnable) = aggregateOf r.1.zoneTRs) ∧
      (¬ (state.forceUpdate = true ∨
          (r.1.zoneTRs ≠ c.zoneTRs ∧
            aggregateOf r.1.zoneTRs ≠ (state.tSet, state.chEnable))) →
        boilerCommands r.2.2 = [] ∧ r.2.1.tSet = state.tSet ∧
        r.2.1.chEnable = state.chEnable)) := by
  have h1 : emptyController.handleUpdate { initialState with forceUpdate := true } = none := by
    rw [handleUpdate_unfold emptyController { initialState with forceUpdate := true }
      ([], false) rfl]
    rfl
  refine ⟨h1, ?_, handleUpdate_publish_cases⟩
  have hne : (5 : ℚ) ≠ initialState.OT := by norm_num [initialState, minValidTemp]
  have hstep : emptyController.runStep initialState (EngineEvent.outside 5) =
      some (emptyController, { initialState with OT := 5, forceUpdate := true },
        [EngineEffect.resetTimer]) := by
    simp only [ThermoController.runStep]
    rw [if_pos hne]
  have h2 : emptyController.handleUpdate { initialState with OT := 5, forceUpdate := true }
      = none := by
    rw [handleUpdate_unfold emptyController { initialState with OT := 5, forceUpdate := true }
      ([], false) rfl]
    rfl
  have hdef : emptyController.runEvents initialState
      [EngineEvent.outside 5, EngineEvent.timer] =
      (emptyController.runStep initialState (EngineEvent.outside 5)).bind (fun r =>
        (r.1.runEvents r.2.1 [EngineEvent.timer]).bind
          (fun rs => some (rs.1, rs.2.1, r.2.2 ++ rs.2.2))) := rfl
  have hdef2 : emptyController.runEvents { initialState with OT := 5, forceUpdate := true }
      [EngineEvent.timer] =
      (emptyController.handleUpdate { initialState with OT := 5, forceUpdate := true }).bind
        (fun r => (r.1.runEvents r.2.1 []).bind
          (fun rs => some (rs.1, rs.2.1, r.2.2 ++ rs.2.2))) := rfl
  rw [hdef, hstep, Option.some_bind, hdef2, h2]
  rfl

/-! ### Control requests and the force update -/

theorem controlUpdateHandler_enable (d : Decoders) (c : ThermoController) (message : Message)
    (htopic : lastTopicSegment message.topic = "enable") :
    c.controlUpdateHandler d message = c.setEnabled message.payload := by
  unfold ThermoController.controlUpdateHandler
  simp only [htopic]
  rw [if_neg (by decide), if_neg (by decide), if_pos trivial]

theorem controlUpdateHandler_default_heating_parameter (d : Decoders) (c : ThermoController)
    (message : Message) (hp : ℚ)
    (htopic : lastTopicSegment message.topic = "default_heating_parameter")
    (hparse : d.parseFloat message.payload = some hp) :
    c.controlUpdateHandler d message =
      ({ c with cfg := { c.cfg with DefaultHeatingParameter := hp } }, []) := by
  unfold ThermoController.controlUpdateHandler
  simp only [htopic, hparse]
  rw [if_pos trivial]

theorem zone_controlUpdateHandler_parameter (d : Decoders) (z : ZoneController)
    (message : Message) (value : ℚ) (hparse : d.parseFloat message.payload = some value) :
    (lastTopicSegment message.topic = "weight" →
      z.controlUpdateHandler d message = { z with cfg := { z.cfg with Weight := value } }) ∧
    (lastTopicSegment message.topic = "heating_parameter" →
      z.controlUpdateHandler d message =
        { z with cfg := { z.cfg with HeatingParameter := some value } }) := by
  constructor
  · intro htopic
    unfold ZoneController.controlUpdateHandler
    simp only [htopic, hparse]
    rw [if_pos (Or.inl trivial), if_pos trivial]
  · intro htopic
    unfold ZoneController.controlUpdateHandler
    simp only [htopic, hparse]
    rw [if_pos (Or.inr trivial), if_neg (by decide)]

/-- C23 as written fails: the accepted payload `20` on the `default_heating_parameter` topic
changes the default heating parameter of the sample engine from 15 to 20 and sends nothing on
the force channel (nothing at all is published or sent). -/
theorem parameter_change_raises_no_force_counterexample :
    sampleController.cfg.DefaultHeatingParameter = 15 ∧
    sampleController.controlUpdateHandler sampleDecoders
        ⟨"mzotbc/control/default_heating_parameter", "20"⟩ =
      ({ sampleController with
          cfg := { sampleController.cfg with DefaultHeatingParameter := 20 } }, []) ∧
    EngineEffect.forceChanSend ∉
      (sampleController.controlUpdateHandler sampleDecoders
        ⟨"mzotbc/control/default_heating_parameter", "20"⟩).2 := by
  have h := controlUpdateHandler_default_heating_parameter sampleDecoders sampleController
    ⟨"mzotbc/control/default_heating_parameter", "20"⟩ 20 (by decide) rfl
  refine ⟨by norm_num [sampleController], h, ?_⟩
  rw [h]
  simp

/-- C23 (amended): on the `enable` topic every accepted value (`true`, `on`, `false`, `off` in
any letter case, also when it repeats the current setting) sets the flag, publishes the
`active` state, writes it to the database and sends on the force channel, and any other value
does nothing and leaves the flag as it is.  `Run` turns the force request into
`forceUpdate = true`, and a call of `handleUpdate` that starts with `forceUpdate` set and
returns has recomputed every zone (no row dirty, every ok demand stored) and published exactly
one boiler command.  An accepted change of the default heating parameter is stored and sends
nothing on the force channel; an accepted change of a zone's weight or heating parameter is
stored in the zone's configuration, and the zone's control handler sends on no channel. -/
theorem force_update_raised_by_enable_only (d : Decoders) (c : ThermoController) :
    (∀ message : Message, lastTopicSegment message.topic = "enable" →
      ((stringsToLower message.payload = "true" ∨ stringsToLower message.payload = "on") →
        c.controlUpdateHandler d message =
          ({ c with enabled := true },
            [EngineEffect.publishActive "ON", EngineEffect.writeEnabled "true",
              EngineEffect.forceChanSend])) ∧
      ((stringsToLower message.payload = "false" ∨ stringsToLower message.payload = "off") →
        c.controlUpdateHandler d message =
          ({ c with enabled := false },
            [EngineEffect.publishActive "OFF", EngineEffect.writeEnabled "false",
              EngineEffect.forceChanSend])) ∧
      (¬ (stringsToLower message.payload = "true" ∨ stringsToLower message.payload = "on" ∨
          stringsToLower message.payload = "false" ∨ stringsToLower message.payload = "off") →
        c.controlUpdateHandler d message = (c, []))) ∧
    (∀ state : thermoState,
      c.runStep state EngineEvent.force =
        some (c, { state with forceUpdate := true }, [EngineEffect.resetTimer])) ∧
    (∀ (state : thermoState) (r : ThermoController × thermoState × List EngineEffect),
      state.forceUpdate = true → c.handleUpdate state = some r →
      r.2.1.forceUpdate = false ∧
      (∀ e' ∈ r.1.zones, e'.needsUpdate = false) ∧
      List.Forall₂ (fun e e' =>
        e'.zone = e.zone ∧
        ∀ t, c.calculateSetpoint e.zone state.OT = some (t, true) → e'.TR = t)
        c.zones r.1.zones ∧
      boilerCommands r.2.2 =
        [if c.enabled = true then aggregateOf r.1.zoneTRs else (defaultTSet, false)]) ∧
    (∀ (message : Message) (hp : ℚ),
      lastTopicSegment message.topic = "default_heating_parameter" →
      d.parseFloat message.payload = some hp →
      c.controlUpdateHandler d message =
        ({ c with cfg := { c.cfg with DefaultHeatingParameter := hp } }, [])) ∧
    (∀ (z : ZoneController) (message : Message) (value : ℚ),
      d.parseFloat message.payload = some value →
      (lastTopicSegment message.topic = "weight" →
        z.controlUpdateHandler d message = { z with cfg := { z.cfg with Weight := value } }) ∧
      (lastTopicSegment message.topic = "heating_parameter" →
        z.controlUpdateHandler d message =
          { z with cfg := { z.cfg with HeatingParameter := some value } })) := by
  refine ⟨fun message htopic => ?_, fun state => rfl, fun state r hforce h => ?_,
    fun message hp htopic hparse =>
      controlUpdateHandler_default_heating_parameter d c message hp htopic hparse,
    fun z message value hparse => zone_controlUpdateHandler_parameter d z message value hparse⟩
  · rw [controlUpdateHandler_enable d c message htopic]
    unfold ThermoController.setEnabled
    refine ⟨fun hon => ?_, fun hoff => ?_, fun hbad => ?_⟩
    · rw [if_pos hon]
    · have hnot : ¬ (stringsToLower message.payload = "true" ∨
          stringsToLower message.payload = "on") := by
        rintro (h1 | h1) <;> rcases hoff with h2 | h2 <;> rw [h1] at h2 <;>
          exact absurd h2 (by decide)
      rw [if_neg hnot, if_pos hoff]
    · rw [if_neg (fun h1 => hbad (h1.elim Or.inl (fun h2 => Or.inr (Or.inl h2)))),
        if_neg (fun h1 => hbad (h1.elim (fun h2 => Or.inr (Or.inr (Or.inl h2)))
          (fun h2 => Or.inr (Or.inr (Or.inr h2)))))]
  · obtain ⟨_, _, _, _, hf, _⟩ := handleUpdate_result c state r h
    obtain ⟨_, _, hall⟩ := handleUpdate_rows_of_result c state r h
    refine ⟨hf, ?_, hall.imp (fun _ _ hr => ⟨hr.1, hr.2.2.2.2 (Or.inl hforce)⟩),
      ((handleUpdate_publish_cases c state r h).1 (Or.inl hforce)).1⟩
    intro e' he'
    obtain ⟨e, _, hr⟩ := forall2_right_mem _ _ _ hall e' he'
    exact hr.2.1

/-- Witness for C23: `OFF` on the sample engine's `enable` topic disables it and sends on the
force channel. -/
theorem force_update_raised_by_enable_only_witness :
    sampleController.controlUpdateHandler sampleDecoders ⟨"mzotbc/control/enable", "OFF"⟩ =
      ({ sampleController with enabled := false },
        [EngineEffect.publishActive "OFF", EngineEffect.writeEnabled "false",
          EngineEffect.forceChanSend]) :=
  ((force_update_raised_by_enable_only sampleDecoders sampleController).1
    ⟨"mzotbc/control/enable", "OFF"⟩ (by decide)).2.1 (Or.inr (by decide))

/-! ### The zones named by the diagnostic records -/

theorem scanStep_maxZone (s : DemandScan) (e : ZoneController × ℚ) :
    (scanStep s e).maxZone = if e.2 > s.maxT then some e.1 else s.maxZone := by
  unfold scanStep
  by_cases h1 : e.2 > s.maxT
  · simp only [h1, if_true]
    split_ifs <;> rfl
  · simp only [h1, if_false]
    split_ifs <;> rfl

theorem scanStep_minZone (s : DemandScan) (e : ZoneController × ℚ) :
    (scanStep s e).minZone = if e.2 < s.minT ∧ 10 < e.2 then some e.1 else s.minZone := by
  have h10 : ((10.0 : ℚ)) = 10 := by norm_num
  unfold scanStep
  simp only [h10, gt_iff_lt]
  by_cases h1 : s.maxT < e.2 <;> by_cases h2 : e.2 < s.minT ∧ 10 < e.2
  all_goals simp only [h1, h2, if_true, if_false]
  all_goals split_ifs <;> rfl

theorem scan_maxZone_inv (trs : List (ZoneController × ℚ)) (s0 : DemandScan) :
    ((trs.foldl scanStep s0).maxZone = s0.maxZone ∧ (trs.foldl scanStep s0).maxT = s0.maxT) ∨
    ∃ e ∈ trs, (trs.foldl scanStep s0).maxZone = some e.1 ∧
      (trs.foldl scanStep s0).maxT = e.2 ∧ s0.maxT < e.2 := by
  induction trs generalizing s0 with
  | nil => left; exact ⟨rfl, rfl⟩
  | cons e rest ih =>
    rw [List.foldl_cons]
    have hT := scanStep_maxT s0 e
    have hZ := scanStep_maxZone s0 e
    rcases ih (scanStep s0 e) with ⟨h1, h2⟩ | ⟨e', he', h1, h2, h3⟩
    · by_cases hgt : e.2 > s0.maxT
      · right
        rw [if_pos hgt] at hZ
        rw [max_eq_right (le_of_lt hgt)] at hT
        exact ⟨e, List.mem_cons_self _ _, h1.trans hZ, h2.trans hT, hgt⟩
      · left
        rw [if_neg hgt] at hZ
        rw [max_eq_left (not_lt.mp hgt)] at hT
        exact ⟨h1.trans hZ, h2.trans hT⟩
    · right
      refine ⟨e', List.mem_cons_of_mem _ he', h1, h2, lt_of_le_of_lt ?_ h3⟩
      rw [hT]
      exact le_max_left _ _

theorem scan_minZone_inv (trs : List (ZoneController × ℚ)) (s0 : DemandScan) :
    ((trs.foldl scanStep s0).minZone = s0.minZone ∧ (trs.foldl scanStep s0).minT = s0.minT) ∨
    ∃ e ∈ trs, (trs.foldl scanStep s0).minZone = some e.1 ∧
      (trs.foldl scanStep s0).minT = e.2 ∧ e.2 < s0.minT ∧ 10 < e.2 := by
  induction trs generalizing s0 with
  | nil => left; exact ⟨rfl, rfl⟩
  | cons e rest ih =>
    rw [List.foldl_cons]
    have hT := scanStep_minT s0 e
    have hZ := scanStep_minZone s0 e
    have hle : (scanStep s0 e).minT ≤ s0.minT := by
      rw [hT]
      split_ifs
      · exact min_le_left _ _
      · exact le_refl _
    rcases ih (scanStep s0 e) with ⟨h1, h2⟩ | ⟨e', he', h1, h2, h3, h4⟩
    · by_cases hlt : e.2 < s0.minT ∧ 10 < e.2
      · right
        rw [if_pos hlt] at hZ
        rw [if_pos hlt.2, min_eq_right (le_of_lt hlt.1)] at hT
        exact ⟨e, List.mem_cons_self _ _, h1.trans hZ, h2.trans hT, hlt.1, hlt.2⟩
      · left
        rw [if_neg hlt] at hZ
        have hT2 : (scanStep s0 e).minT = s0.minT := by
          rw [hT]
          by_cases h10 : 10 < e.2
          · rw [if_pos h10]
            exact min_eq_left (not_lt.mp (fun h => hlt ⟨h, h10⟩))
          · rw [if_neg h10]
        exact ⟨h1.trans hZ, h2.trans hT2⟩
    · right
      exact ⟨e', List.mem_cons_of_mem _ he', h1, h2, lt_of_lt_of_le h3 hle, h4⟩

theorem scan_maxDiffZone_inv (trs : List (ZoneController × ℚ)) (s0 : DemandScan) :
    ((trs.foldl scanStep s0).maxDiffZone = s0.maxDiffZone ∧
      (trs.foldl scanStep s0).maxDiff = s0.maxDiff) ∨
    ∃ e ∈ trs, (trs.foldl scanStep s0).maxDiffZone = some e.1 ∧
      (trs.foldl scanStep s0).maxDiff = gapOf e ∧ s0.maxDiff < gapOf e := by
  induction trs generalizing s0 with
  | nil => left; exact ⟨rfl, rfl⟩
  | cons e rest ih =>
    rw [List.foldl_cons]
    obtain ⟨hT, hZ⟩ := scanStep_maxDiff s0 e
    rcases ih (scanStep s0 e) with ⟨h1, h2⟩ | ⟨e', he', h1, h2, h3⟩
    · by_cases hgt : gapOf e > s0.maxDiff
      · right
        rw [if_pos hgt] at hZ
        rw [max_eq_right (le_of_lt hgt)] at hT
        exact ⟨e, List.mem_cons_self _ _, h1.trans hZ, h2.trans hT, hgt⟩
      · left
        rw [if_neg hgt] at hZ
        rw [max_eq_left (not_lt.mp hgt)] at hT
        exact ⟨h1.trans hZ, h2.trans hT⟩
    · right
      refine ⟨e', List.mem_cons_of_mem _ he', h1, h2, lt_of_le_of_lt ?_ h3⟩
      rw [hT]
      exact le_max_left _ _

theorem scan_maxDiff_bounds (trs : List (ZoneController × ℚ)) (s0 : DemandScan) :
    s0.maxDiff ≤ (trs.foldl scanStep s0).maxDiff ∧
    ∀ e ∈ trs, gapOf e ≤ (trs.foldl scanStep s0).maxDiff := by
  induction trs generalizing s0 with
  | nil => simp
  | cons e rest ih =>
    rw [List.foldl_cons]
    obtain ⟨h1, h2⟩ := ih (scanStep s0 e)
    rw [(scanStep_maxDiff s0 e).1] at h1
    refine ⟨le_trans (le_max_left _ _) h1, ?_⟩
    intro e' he'
    rcases List.mem_cons.mp he' with h | h
    · rw [h]
      exact le_trans (le_max_right _ _) h1
    · exact h2 e' h

theorem diagnosticsOf_eq (s : DemandScan) (zd : ZoneController)
    (h : s.maxDiffZone = some zd) :
    diagnosticsOf s =
      some (EngineEffect.publishMaxdiff
          { Zone := zd.name, Setpoint := zd.setpoint, Temperature := zd.averageTemperature,
            CS := s.maxDiff } ::
        ((match s.maxZone with
          | some z => [EngineEffect.publishMaxcs
              { Zone := z.name, Setpoint := z.setpoint, Temperature := z.averageTemperature,
                CS := s.maxT }]
          | none => []) ++
         (match s.minZone with
          | some z => [EngineEffect.publishMincs
              { Zone := z.name, Setpoint := z.setpoint, Temperature := z.averageTemperature,
                CS := s.minT }]
          | none => []))) := by
  unfold diagnosticsOf ThermoMarshalHelper
  rw [h]
  cases s.maxZone <;> cases s.minZone <;> rfl

theorem diagnostics_spec (trs : List (ZoneController × ℚ))
    (hgap : ∃ e ∈ trs, -10000 < gapOf e) :
    ∃ zd ∈ trs, ∃ maxcs mincs : List EngineEffect,
      averageSetpointsOver trs =
        some (EngineEffect.publishMaxdiff
            { Zone := zd.1.name, Setpoint := zd.1.setpoint,
              Temperature := zd.1.averageTemperature, CS := gapOf zd } :: (maxcs ++ mincs),
          aggregateOf trs) ∧
      (∀ e ∈ trs, gapOf e ≤ gapOf zd) ∧
      ((∀ e ∈ trs, e.2 ≤ -1000) → maxcs = []) ∧
      ((∃ e ∈ trs, -1000 < e.2) → ∃ zm ∈ trs,
        maxcs = [EngineEffect.publishMaxcs
          { Zone := zm.1.name, Setpoint := zm.1.setpoint,
            Temperature := zm.1.averageTemperature, CS := zm.2 }] ∧
        ∀ e ∈ trs, e.2 ≤ zm.2) ∧
      ((∀ e ∈ trs, ¬ (10 < e.2 ∧ e.2 < 1000)) → mincs = []) ∧
      ((∃ e ∈ trs, 10 < e.2 ∧ e.2 < 1000) → ∃ zn ∈ trs,
        mincs = [EngineEffect.publishMincs
          { Zone := zn.1.name, Setpoint := zn.1.setpoint,
            Temperature := zn.1.averageTemperature, CS := zn.2 }] ∧
        10 < zn.2 ∧ ∀ e ∈ trs, 10 < e.2 → zn.2 ≤ e.2) := by
  obtain ⟨i1, i2, i3, i4, i5, i6⟩ := scanInit_fields
  have hDb := scan_maxDiff_bounds trs scanInit
  have hMb := scan_maxT_bounds trs scanInit
  have hmb := scan_minT_bounds trs scanInit
  rw [i1] at hMb
  rw [i2] at hmb
  rw [i3] at hDb
  -- the zone of the largest gap
  have hD : ∃ zd ∈ trs, (trs.foldl scanStep scanInit).maxDiffZone = some zd.1 ∧
      (trs.foldl scanStep scanInit).maxDiff = gapOf zd := by
    rcases scan_maxDiffZone_inv trs scanInit with ⟨_, h2⟩ | ⟨zd, hzd, h1, h2, _⟩
    · exfalso
      obtain ⟨e, he, hg⟩ := hgap
      have := hDb.2 e he
      rw [h2, i3] at this
      linarith
    · exact ⟨zd, hzd, h1, h2⟩
  obtain ⟨zd, hzd, hdz, hdv⟩ := hD
  refine ⟨zd, hzd,
    (match (trs.foldl scanStep scanInit).maxZone with
      | some z => [EngineEffect.publishMaxcs
          { Zone := z.name, Setpoint := z.setpoint, Temperature := z.averageTemperature,
            CS := (trs.foldl scanStep scanInit).maxT }]
      | none => []),
    (match (trs.foldl scanStep scanInit).minZone with
      | some z => [EngineEffect.publishMincs
          { Zone := z.name, Setpoint := z.setpoint, Temperature := z.averageTemperature,
            CS := (trs.foldl scanStep scanInit).minT }]
      | none => []), ?_, ?_, ?_, ?_, ?_, ?_⟩
  · unfold averageSetpointsOver
    rw [diagnosticsOf_eq _ zd.1 hdz, hdv]
    rfl
  · intro e he
    rw [← hdv]
    exact hDb.2 e he
  · intro hall
    rcases scan_maxZone_inv trs scanInit with ⟨h1, _⟩ | ⟨e, he, _, _, h3⟩
    · rw [h1, i4]
    · rw [i1] at h3
      exact absurd (hall e he) (not_le.mpr h3)
  · rintro ⟨e0, he0, hgt⟩
    rcases scan_maxZone_inv trs scanInit with ⟨_, h2⟩ | ⟨e, he, h1, h2, _⟩
    · exfalso
      have := hMb.2.1 e0 he0
      rw [h2, i1] at this
      linarith
    · refine ⟨e, he, ?_, ?_⟩
      · rw [h1, h2]
      · intro e' he'
        rw [← h2]
        exact hMb.2.1 e' he'
  · intro hall
    rcases scan_minZone_inv trs scanInit with ⟨h1, _⟩ | ⟨e, he, _, _, h3, h4⟩
    · rw [h1, i5]
    · rw [i2] at h3
      exact absurd ⟨h4, h3⟩ (hall e he)
  · rintro ⟨e0, he0, h10, hlt⟩
    rcases scan_minZone_inv trs scanInit with ⟨_, h2⟩ | ⟨e, he, h1, h2, _, h4⟩
    · exfalso
      have := hmb.2.1 e0 he0 h10
      rw [h2, i2] at this
      linarith
    · refine ⟨e, he, ?_, h4, ?_⟩
      · rw [h1, h2]
      · intro e' he' h10'
        rw [← h2]
        exact hmb.2.1 e' he' h10'

/-! ### The range of the commands -/

theorem boundTset_cases (x : ℚ) :
    (75 < x ∧ boundTset x = 75) ∨ (x < 20 ∧ boundTset x = 10) ∨
    (20 ≤ x ∧ x ≤ 75 ∧ boundTset x = x) := by
  unfold boundTset maxTSet minTSet fallbackTSet
  by_cases h1 : x > 75.0
  · left
    rw [if_pos h1]
    norm_num at h1 ⊢
    exact h1
  · right
    rw [if_neg h1]
    by_cases h2 : x < 20.0
    · left
      rw [if_pos h2]
      norm_num at h2 ⊢
      exact h2
    · right
      rw [if_neg h2]
      norm_num at h1 h2
      exact ⟨h2, h1, rfl⟩

theorem boundTset_range (x : ℚ) :
    boundTset x = 10 ∨ (20 ≤ boundTset x ∧ boundTset x ≤ 75) := by
  rcases boundTset_cases x with ⟨_, h⟩ | ⟨_, h⟩ | ⟨h1, h2, h⟩
  · right; rw [h]; norm_num
  · left; exact h
  · right; rw [h]; exact ⟨h1, h2⟩

theorem boundTset_half (k : ℤ) : ∃ k' : ℤ, boundTset ((k : ℚ) / 2) = (k' : ℚ) / 2 := by
  rcases boundTset_cases ((k : ℚ) / 2) with ⟨_, h⟩ | ⟨_, h⟩ | ⟨_, _, h⟩
  · exact ⟨150, by rw [h]; norm_num⟩
  · exact ⟨20, by rw [h]; norm_num⟩
  · exact ⟨k, h⟩

theorem tSetOf_range (tAvg weight : ℚ) :
    (tSetOf tAvg weight = 10 ∨ (20 ≤ tSetOf tAvg weight ∧ tSetOf tAvg weight ≤ 75)) ∧
    ∃ k : ℤ, tSetOf tAvg weight = (k : ℚ) / 2 := by
  unfold tSetOf
  by_cases hw : weight > 0
  · rw [if_pos hw]
    exact ⟨boundTset_range _, boundTset_half _⟩
  · rw [if_neg hw]
    exact ⟨Or.inl (by norm_num [defaultTSet]), 20, by norm_num [defaultTSet]⟩

theorem chosen_cubes_nonneg (trs : List (ZoneController × ℚ))
    (hw : ∀ e ∈ trs, 0 ≤ e.1.cfg.Weight) :
    0 ≤ weightedCubeSum (chosenAt (tCutOf (trs.foldl scanStep scanInit)) trs) := by
  unfold weightedCubeSum
  apply List.sum_nonneg
  intro x hx
  obtain ⟨e, he, rfl⟩ := List.mem_map.mp hx
  unfold chosenAt at he
  obtain ⟨hmem, hc⟩ := List.mem_filter.mp he
  have h10 := chosen_gt_ten trs e hmem (of_decide_eq_true hc)
  have hpos : (0 : ℚ) ≤ e.2 ^ 3 := pow_nonneg (by linarith) 3
  exact mul_nonneg (hw e hmem) hpos

/-! ### The range of the stored demands -/

theorem calculateSetpoint_ok_range (c : ThermoController) (zone : ZoneController) (OT d : ℚ)
    (h : c.calculateSetpoint zone OT = some (d, true)) :
    d = 10 ∨ (20 ≤ d ∧ d ≤ 75) := by
  by_cases hv : zone.getPair.2.2 = true ∧ OT > minValidTemp
  · obtain ⟨m, _, hr⟩ := calculateSetpoint_valid c zone OT hv.1 hv.2
    rw [hr] at h
    have hd := congrArg Prod.fst (Option.some.inj h)
    simp only at hd
    rw [← hd]
    split_ifs
    · left; norm_num
    · exact boundTset_range m
  · rw [calculateSetpoint_invalid c zone OT hv] at h
    have := congrArg Prod.snd (Option.some.inj h)
    simp at this

theorem handleUpdate_demand_range (c : ThermoController) (state : thermoState)
    (r : ThermoController × thermoState × List EngineEffect)
    (h : c.handleUpdate state = some r)
    (hinv : ∀ e ∈ c.zones, e.TR = 0 ∨ e.TR = 10 ∨ (20 ≤ e.TR ∧ e.TR ≤ 75)) :
    ∀ e ∈ r.1.zones, e.TR = 0 ∨ e.TR = 10 ∨ (20 ≤ e.TR ∧ e.TR ≤ 75) := by
  obtain ⟨_, _, hall⟩ := handleUpdate_rows_of_result c state r h
  intro e' he'
  obtain ⟨e, he, _, _, hbad, hclean, hdirty⟩ := forall2_right_mem _ _ _ hall e' he'
  obtain ⟨res, hres⟩ := calculateSetpoint_total c e.zone state.OT
  obtain ⟨d, b⟩ := res
  cases b with
  | false =>
    rw [hbad ⟨d, hres⟩]
    exact hinv e he
  | true =>
    by_cases hrun : state.forceUpdate = true ∨ e.needsUpdate = true
    · rw [hdirty hrun d hres]
      exact Or.inr (calculateSetpoint_ok_range c e.zone state.OT d hres)
    · have h1 : state.forceUpdate = false := by
        cases hb : state.forceUpdate with
        | false => rfl
        | true => exact absurd (Or.inl hb) hrun
      have h2 : e.needsUpdate = false := by
        cases hb : e.needsUpdate with
        | false => rfl
        | true => exact absurd (Or.inr hb) hrun
      rw [hclean h1 h2]
      exact hinv e he

theorem runStep_demand_range (c : ThermoController) (state : thermoState) (ev : EngineEvent)
    (r : ThermoController × thermoState × List EngineEffect)
    (h : c.runStep state ev = some r)
    (hinv : ∀ e ∈ c.zones, e.TR = 0 ∨ e.TR = 10 ∨ (20 ≤ e.TR ∧ e.TR ≤ 75)) :
    ∀ e ∈ r.1.zones, e.TR = 0 ∨ e.TR = 10 ∨ (20 ≤ e.TR ∧ e.TR ≤ 75) := by
  cases ev with
  | force =>
    simp only [ThermoController.runStep] at h
    rw [← Option.some.inj h]
    exact hinv
  | outside newOT =>
    simp only [ThermoController.runStep] at h
    split_ifs at h <;> (rw [← Option.some.inj h]; exact hinv)
  | zone name =>
    simp only [ThermoController.runStep] at h
    rw [← Option.some.inj h]
    intro e' he'
    obtain ⟨e, he, hee⟩ := List.mem_map.mp he'
    have hTR : e'.TR = e.TR := by
      rw [← hee]
      split_ifs <;> rfl
    rw [hTR]
    exact hinv e he
  | timer =>
    simp only [ThermoController.runStep] at h
    exact handleUpdate_demand_range c state r h hinv
  | ticker =>
    simp only [ThermoController.runStep] at h
    rw [← Option.some.inj h]
    exact hinv

theorem runEvents_demand_range (evs : List EngineEvent) (c : ThermoController)
    (state : thermoState) (R : ThermoController × thermoState × List EngineEffect)
    (h : c.runEvents state evs = some R)
    (hinv : ∀ e ∈ c.zones, e.TR = 0 ∨ e.TR = 10 ∨ (20 ≤ e.TR ∧ e.TR ≤ 75)) :
    ∀ e ∈ R.1.zones, e.TR = 0 ∨ e.TR = 10 ∨ (20 ≤ e.TR ∧ e.TR ≤ 75) := by
  induction evs generalizing c state R with
  | nil =>
    have hR : R = (c, state, []) := (Option.some.inj h).symm
    rw [hR]
    exact hinv
  | cons ev rest ih =>
    obtain ⟨r, rs, hr, hrs, hR⟩ := runEvents_cons c state ev rest R h
    rw [hR]
    exact ih r.1 r.2.1 rs hrs (runStep_demand_range c state ev r hr hinv)

/-! ### The iteration order of the zone map -/

theorem scan_maxT_perm (l1 l2 : List (ZoneController × ℚ)) (h : ∀ e, e ∈ l1 ↔ e ∈ l2) :
    (l1.foldl scanStep scanInit).maxT = (l2.foldl scanStep scanInit).maxT := by
  have key : ∀ a b : List (ZoneController × ℚ), (∀ e, e ∈ a → e ∈ b) →
      (a.foldl scanStep scanInit).maxT ≤ (b.foldl scanStep scanInit).maxT := by
    intro a b hab
    obtain ⟨_, _, ha3⟩ := scan_maxT_bounds a scanInit
    obtain ⟨hb1, hb2, _⟩ := scan_maxT_bounds b scanInit
    rcases ha3 with h0 | ⟨e, he, hv⟩
    · rw [h0]
      exact hb1
    · rw [← hv]
      exact hb2 e (hab e he)
  exact le_antisymm (key l1 l2 (fun e => (h e).mp)) (key l2 l1 (fun e => (h e).mpr))

theorem scan_minT_perm (l1 l2 : List (ZoneController × ℚ)) (h : ∀ e, e ∈ l1 ↔ e ∈ l2) :
    (l1.foldl scanStep scanInit).minT = (l2.foldl scanStep scanInit).minT := by
  have key : ∀ a b : List (ZoneController × ℚ), (∀ e, e ∈ a → e ∈ b) →
      (b.foldl scanStep scanInit).minT ≤ (a.foldl scanStep scanInit).minT := by
    intro a b hab
    obtain ⟨_, _, ha3⟩ := scan_minT_bounds a scanInit
    obtain ⟨hb1, hb2, _⟩ := scan_minT_bounds b scanInit
    rcases ha3 with h0 | ⟨e, he, h10, hv⟩
    · rw [h0]
      exact hb1
    · rw [← hv]
      exact hb2 e (hab e he) h10
  exact le_antisymm (key l2 l1 (fun e => (h e).mpr)) (key l1 l2 (fun e => (h e).mp))

theorem scan_maxDiff_perm (l1 l2 : List (ZoneController × ℚ)) (h : ∀ e, e ∈ l1 ↔ e ∈ l2) :
    (l1.foldl scanStep scanInit).maxDiff = (l2.foldl scanStep scanInit).maxDiff := by
  have key : ∀ a b : List (ZoneController × ℚ), (∀ e, e ∈ a → e ∈ b) →
      (a.foldl scanStep scanInit).maxDiff ≤ (b.foldl scanStep scanInit).maxDiff := by
    intro a b hab
    obtain ⟨hb1, hb2⟩ := scan_maxDiff_bounds b scanInit
    rcases scan_maxDiffZone_inv a scanInit with ⟨_, h0⟩ | ⟨e, he, _, hv, _⟩
    · rw [h0]
      exact hb1
    · rw [hv]
      exact hb2 e (hab e he)
  exact le_antisymm (key l1 l2 (fun e => (h e).mp)) (key l2 l1 (fun e => (h e).mpr))

theorem tCut_perm (l1 l2 : List (ZoneController × ℚ)) (h : List.Perm l1 l2) :
    tCutOf (l1.foldl scanStep scanInit) = tCutOf (l2.foldl scanStep scanInit) := by
  unfold tCutOf
  rw [scan_maxT_perm l1 l2 (fun e => h.mem_iff), scan_minT_perm l1 l2 (fun e => h.mem_iff)]

theorem chosen_sums_perm (tCut : ℚ) (l1 l2 : List (ZoneController × ℚ))
    (h : List.Perm l1 l2) :
    weightedCubeSum (chosenAt tCut l1) = weightedCubeSum (chosenAt tCut l2) ∧
    zoneWeightSum (chosenAt tCut l1) = zoneWeightSum (chosenAt tCut l2) := by
  unfold weightedCubeSum zoneWeightSum chosenAt
  exact ⟨((h.filter _).map _).sum_eq, ((h.filter _).map _).sum_eq⟩

theorem aggregateOf_perm (l1 l2 : List (ZoneController × ℚ)) (h : List.Perm l1 l2) :
    aggregateOf l1 = aggregateOf l2 := by
  rw [aggregateOf_eq, aggregateOf_eq, tCut_perm l1 l2 h,
    (chosen_sums_perm _ l1 l2 h).1, (chosen_sums_perm _ l1 l2 h).2]

theorem two_orders_aggregate (l l1 l2 : List (ZoneController × ℚ))
    (h1 : List.Perm l1 l) (h2 : List.Perm l2 l) :
    tSetOf (l2.foldl (accumulateStep (tCutOf (l1.foldl scanStep scanInit))) (0.0, 0.0)).1
      (l2.foldl (accumulateStep (tCutOf (l1.foldl scanStep scanInit))) (0.0, 0.0)).2 =
      (aggregateOf l).1 := by
  have h0 : ((0.0 : ℚ), (0.0 : ℚ)) = (0, 0) := by norm_num
  rw [aggregateOf_eq, accumulate_foldl, h0, tCut_perm l1 l h1,
    (chosen_sums_perm _ l2 l h2).1, (chosen_sums_perm _ l2 l h2).2]
  simp only [zero_add]

theorem averageSetpointsOver_perm (l1 l2 : List (ZoneController × ℚ)) (h : List.Perm l1 l2) :
    (averageSetpointsOver l1).map Prod.snd = (averageSetpointsOver l2).map Prod.snd := by
  by_cases hg : ∃ e ∈ l1, -10000 < gapOf e
  · have hg2 : ∃ e ∈ l2, -10000 < gapOf e := by
      obtain ⟨e, he, hv⟩ := hg
      exact ⟨e, h.mem_iff.mp he, hv⟩
    obtain ⟨p1, hp1⟩ := averageSetpointsOver_returns l1 hg
    obtain ⟨p2, hp2⟩ := averageSetpointsOver_returns l2 hg2
    rw [hp1, hp2, aggregateOf_perm l1 l2 h]
    rfl
  · have hn1 : ∀ e ∈ l1, gapOf e ≤ -10000 := fun e he => not_lt.mp (fun hv => hg ⟨e, he, hv⟩)
    have hn2 : ∀ e ∈ l2, gapOf e ≤ -10000 := fun e he => hn1 e (h.mem_iff.mpr he)
    rw [averageSetpointsOver_panics l1 hn1, averageSetpointsOver_panics l2 hn2]

theorem tie_scan (a b : ZoneController) (ha : a.setpoint = 20 ∧ a.averageTemperature = 20)
    (hb : b.setpoint = 20 ∧ b.averageTemperature = 20) :
    [(a, (40 : ℚ)), (b, 40)].foldl scanStep scanInit =
      { maxT := 40, minT := 40, maxDiff := 0, maxZone := some a, minZone := some a,
        maxDiffZone := some a } := by
  simp only [List.foldl_cons, List.foldl_nil]
  unfold scanStep scanInit
  norm_num [ha.1, ha.2, hb.1, hb.2]

theorem tie_aggregate (a b : ZoneController) (ha : a.setpoint = 20 ∧ a.averageTemperature = 20)
    (hb : b.setpoint = 20 ∧ b.averageTemperature = 20)
    (wa : a.cfg.Weight = 1) (wb : b.cfg.Weight = 1) :
    aggregateOf [(a, (40 : ℚ)), (b, 40)] = (40, true) := by
  have ht : tCutOf ([(a, (40 : ℚ)), (b, 40)].foldl scanStep scanInit) = 40 := by
    rw [tie_scan a b ha hb]
    norm_num [tCutOf]
  rw [aggregateOf_eq, ht]
  have hc : chosenAt 40 [(a, (40 : ℚ)), (b, 40)] = [(a, (40 : ℚ)), (b, 40)] := by
    norm_num [chosenAt]
  rw [hc]
  have hw : zoneWeightSum [(a, (40 : ℚ)), (b, 40)] = 2 := by
    norm_num [zoneWeightSum, wa, wb]
  have hs : weightedCubeSum [(a, (40 : ℚ)), (b, 40)] = 128000 := by
    norm_num [weightedCubeSum, wa, wb]
  rw [hw, hs]
  unfold tSetOf
  rw [if_pos (by norm_num)]
  have h64 : (128000 : ℚ) / 2 = 64000 := by norm_num
  rw [h64, roundTwiceCbrt_64000]
  have h40 : (((80 : ℤ) : ℚ)) / 2 = 40 := by norm_num
  rw [h40, boundTset_40]
  norm_num

theorem tie_run (a b : ZoneController) (ha : a.setpoint = 20 ∧ a.averageTemperature = 20)
    (hb : b.setpoint = 20 ∧ b.averageTemperature = 20)
    (wa : a.cfg.Weight = 1) (wb : b.cfg.Weight = 1) :
    averageSetpointsOver [(a, (40 : ℚ)), (b, 40)] =
      some ([EngineEffect.publishMaxdiff
              { Zone := a.name, Setpoint := 20, Temperature := 20, CS := 0 },
            EngineEffect.publishMaxcs
              { Zone := a.name, Setpoint := 20, Temperature := 20, CS := 40 },
            EngineEffect.publishMincs
              { Zone := a.name, Setpoint := 20, Temperature := 20, CS := 40 }],
        (40, true)) := by
  unfold averageSetpointsOver
  rw [tie_aggregate a b ha hb wa wb, tie_scan a b ha hb, diagnosticsOf_eq _ a rfl]
  simp [ha.1, ha.2]

/-- C28: in exact arithmetic the `(tSet, chEnable)` of `averageSetpoints` does not depend on the
order in which the map is iterated: for every list of entries, every reordering gives the same
pair, also when the first and the second loop visit the zones in two different orders, and the
run returns for one order exactly when it returns for the other; the values `maxT`, `minT` and
`maxDiff` of the records are the same too.  Only the zone named in a record depends on the
order: with the zones `living` and `bedroom` tied at demand 40, each order names the zone it
visits first and both return (40.0, true). -/
theorem averageSetpoints_order_independent :
    (∀ l l1 l2 : List (ZoneController × ℚ), List.Perm l1 l → List.Perm l2 l →
      aggregateOf l1 = aggregateOf l ∧
      tSetOf (l2.foldl (accumulateStep (tCutOf (l1.foldl scanStep scanInit))) (0.0, 0.0)).1
        (l2.foldl (accumulateStep (tCutOf (l1.foldl scanStep scanInit))) (0.0, 0.0)).2 =
        (aggregateOf l).1 ∧
      (averageSetpointsOver l1).map Prod.snd = (averageSetpointsOver l).map Prod.snd ∧
      (l1.foldl scanStep scanInit).maxT = (l.foldl scanStep scanInit).maxT ∧
      (l1.foldl scanStep scanInit).minT = (l.foldl scanStep scanInit).minT ∧
      (l1.foldl scanStep scanInit).maxDiff = (l.foldl scanStep scanInit).maxDiff) ∧
    averageSetpointsOver [(sampleZone, 40), (bedroomZone, 40)] =
      some ([EngineEffect.publishMaxdiff
              { Zone := "living", Setpoint := 20, Temperature := 20, CS := 0 },
            EngineEffect.publishMaxcs
              { Zone := "living", Setpoint := 20, Temperature := 20, CS := 40 },
            EngineEffect.publishMincs
              { Zone := "living", Setpoint := 20, Temperature := 20, CS := 40 }],
        (40, true)) ∧
    averageSetpointsOver [(bedroomZone, 40), (sampleZone, 40)] =
      some ([EngineEffect.publishMaxdiff
              { Zone := "bedroom", Setpoint := 20, Temperature := 20, CS := 0 },
            EngineEffect.publishMaxcs
              { Zone := "bedroom", Setpoint := 20, Temperature := 20, CS := 40 },
            EngineEffect.publishMincs
              { Zone := "bedroom", Setpoint := 20, Temperature := 20, CS := 40 }],
        (40, true)) := by
  have hs : sampleZone.setpoint = 20 ∧ sampleZone.averageTemperature = 20 := ⟨rfl, rfl⟩
  have hb : bedroomZone.setpoint = 20 ∧ bedroomZone.averageTemperature = 20 := ⟨rfl, rfl⟩
  have ws : sampleZone.cfg.Weight = 1 := by norm_num [sampleZone]
  have wb : bedroomZone.cfg.Weight = 1 := by norm_num [bedroomZone, sampleZone]
  refine ⟨fun l l1 l2 h1 h2 => ⟨aggregateOf_perm l1 l h1, two_orders_aggregate l l1 l2 h1 h2,
    averageSetpointsOver_perm l1 l h1, scan_maxT_perm l1 l (fun e => h1.mem_iff),
    scan_minT_perm l1 l (fun e => h1.mem_iff), scan_maxDiff_perm l1 l (fun e => h1.mem_iff)⟩,
    tie_run sampleZone bedroomZone hs hb ws wb, tie_run bedroomZone sampleZone hb hs wb ws⟩

/-- Witness for C28: the two orders of the map with `living` at 20 and `bedroom` at 40. -/
theorem averageSetpoints_order_independent_witness :
    aggregateOf [(bedroomZone, 40), (sampleZone, 20)] =
      aggregateOf [(sampleZone, 20), (bedroomZone, 40)] :=
  (averageSetpoints_order_independent.1 [(sampleZone, 20), (bedroomZone, 40)]
    [(bedroomZone, 40), (sampleZone, 20)] [(sampleZone, 20), (bedroomZone, 40)]
    (List.Perm.swap _ _ _) (List.Perm.refl _)).1

/-! ### The hottest zone in the power mean -/

namespace ieee

theorem f64_lt_def (a b : Float64) : (a < b) = (Float64.lt a b = true) := rfl

theorem f64_le_def (a b : Float64) : (a ≤ b) = (Float64.le a b = true) := rfl

theorem f64_lt_irrefl (a : Float64) : ¬ a < a := by
  rw [f64_lt_def]
  cases a <;> simp [Float64.lt]

theorem f64_lt_trans (a b c : Float64) (h1 : a < b) (h2 : b < c) : a < c := by
  rw [f64_lt_def] at h1 h2 ⊢
  cases a <;> cases b <;> cases c <;> simp [Float64.lt] at h1 h2 ⊢
  exact lt_trans h1 h2

theorem f64_lt_finite (a b : ℚ) : (Float64.finite a < Float64.finite b) ↔ a < b := by
  rw [f64_lt_def]
  simp [Float64.lt]

theorem f64_le_finite (a b : ℚ) : (Float64.finite a ≤ Float64.finite b) ↔ a ≤ b := by
  rw [f64_le_def]
  simp [Float64.le]

theorem f64_ne_self (a : Float64) : Float64.ne a a = true ↔ a = Float64.nan := by
  cases a <;> simp [Float64.ne]

theorem f64_not_le_nan (a : Float64) : ¬ a ≤ Float64.nan ∧ ¬ Float64.nan ≤ a := by
  rw [f64_le_def, f64_le_def]
  cases a <;> simp [Float64.le]

theorem f64_le_of_lt (a b : Float64) (h : a < b) : a ≤ b := by
  rw [f64_lt_def] at h
  rw [f64_le_def]
  cases a <;> cases b <;> simp [Float64.lt, Float64.le] at h ⊢
  exact le_of_lt h

theorem f64_lt_of_lt_of_le (a b c : Float64) (h1 : a < b) (h2 : b ≤ c) : a < c := by
  rw [f64_lt_def] at h1 ⊢
  rw [f64_le_def] at h2
  cases a <;> cases b <;> cases c <;> simp [Float64.lt, Float64.le] at h1 h2 ⊢
  exact lt_of_lt_of_le h1 h2

theorem f64_lt_of_le_of_lt (a b c : Float64) (h1 : a ≤ b) (h2 : b < c) : a < c := by
  rw [f64_lt_def] at h2 ⊢
  rw [f64_le_def] at h1
  cases a <;> cases b <;> cases c <;> simp [Float64.lt, Float64.le] at h1 h2 ⊢
  exact lt_of_le_of_lt h1 h2

theorem f64_not_lt_of_le (a b : Float64) (h : a ≤ b) : ¬ b < a := by
  rw [f64_le_def] at h
  rw [f64_lt_def]
  cases a <;> cases b <;> simp [Float64.lt, Float64.le] at h ⊢
  exact h


/-! ### Sensor values that are not numbers -/

theorem f64_ValueUpdateHandler_ok (d : Decoders) (s : SensorController) (message : Message)
    (t0 : Float64) (h : extractF64PlainOrJson d message s.cfg.JSONEntry = .ok t0) :
    s.ValueUpdateHandler d message =
      ({ s with value := t0 * s.cfg.Scale + s.cfg.Offset },
        if Float64.ne s.value (t0 * s.cfg.Scale + s.cfg.Offset) = true then
          [Effect.upsertSensorValue s.name (t0 * s.cfg.Scale + s.cfg.Offset),
            Effect.controlChanSend]
        else [Effect.upsertSensorValue s.name (t0 * s.cfg.Scale + s.cfg.Offset)]) := by
  unfold SensorController.ValueUpdateHandler
  rw [h]
  by_cases hne : Float64.ne s.value (t0 * s.cfg.Scale + s.cfg.Offset) = true
  · simp [hne]
  · simp [hne]

theorem f64_second_delivery (d : Decoders) (s : SensorController) (message : Message)
    (t0 : Float64) (h : extractF64PlainOrJson d message s.cfg.JSONEntry = .ok t0) :
    (Effect.controlChanSend ∈
        ((s.ValueUpdateHandler d message).1.ValueUpdateHandler d message).2 ↔
      t0 * s.cfg.Scale + s.cfg.Offset = Float64.nan) ∧
    ((s.ValueUpdateHandler d message).1.ValueUpdateHandler d message).1 =
      (s.ValueUpdateHandler d message).1 := by
  have h1 := f64_ValueUpdateHandler_ok d s message t0 h
  have hcfg : (s.ValueUpdateHandler d message).1.cfg = s.cfg := by rw [h1]
  have hval : (s.ValueUpdateHandler d message).1.value = t0 * s.cfg.Scale + s.cfg.Offset := by
    rw [h1]
  have h2 := f64_ValueUpdateHandler_ok d (s.ValueUpdateHandler d message).1 message t0
    (by rw [hcfg]; exact h)
  rw [hcfg, hval] at h2
  constructor
  · rw [h2, ← f64_ne_self]
    by_cases hne : Float64.ne (t0 * s.cfg.Scale + s.cfg.Offset)
        (t0 * s.cfg.Scale + s.cfg.Offset) = true
    · simp [hne]
    · simp [hne]
  · rw [h2, h1]

/-- C4 (the code at the failing input): the plain payload `NaN`, which `strconv.ParseFloat`
accepts, delivered twice in a row to a sensor with the default configuration.  The first
delivery stores NaN and signals the owner; the second delivery stores NaN again and signals
the owner again, since `oldValue != s.value` is true for NaN against NaN.  For every sensor and
every accepted payload the second of two deliveries signals exactly when the transformed value
is NaN, and it leaves the sensor as the first delivery left it. -/
theorem ValueUpdateHandler_nan_resignals :
    sampleSensor.ValueUpdateHandler sampleDecoders ⟨"home/living/temperature", "NaN"⟩ =
      ({ sampleSensor with value := Float64.nan },
        [Effect.upsertSensorValue "zone-living-1" Float64.nan, Effect.controlChanSend]) ∧
    SensorController.ValueUpdateHandler sampleDecoders
        { sampleSensor with value := Float64.nan } ⟨"home/living/temperature", "NaN"⟩ =
      ({ sampleSensor with value := Float64.nan },
        [Effect.upsertSensorValue "zone-living-1" Float64.nan, Effect.controlChanSend]) ∧
    (∀ (d : Decoders) (s : SensorController) (message : Message) (t0 : Float64),
      extractF64PlainOrJson d message s.cfg.JSONEntry = .ok t0 →
      (Effect.controlChanSend ∈
          ((s.ValueUpdateHandler d message).1.ValueUpdateHandler d message).2 ↔
        t0 * s.cfg.Scale + s.cfg.Offset = Float64.nan) ∧
      ((s.ValueUpdateHandler d message).1.ValueUpdateHandler d message).1 =
        (s.ValueUpdateHandler d message).1) := by
  refine ⟨?_, ?_, f64_second_delivery⟩
  · rw [f64_ValueUpdateHandler_ok sampleDecoders sampleSensor
      ⟨"home/living/temperature", "NaN"⟩ Float64.nan rfl]
    rfl
  · rw [f64_ValueUpdateHandler_ok sampleDecoders { sampleSensor with value := Float64.nan }
      ⟨"home/living/temperature", "NaN"⟩ Float64.nan rfl]
    rfl


/-! ### Demands that are not numbers -/

theorem f64_add_nan (a : Float64) : a + Float64.nan = Float64.nan := by
  cases a <;> rfl

theorem f64_nan_add (a : Float64) : Float64.nan + a = Float64.nan := rfl

theorem f64_mul_nan (a : Float64) : a * Float64.nan = Float64.nan := by
  cases a <;> rfl

theorem f64_nan_mul (a : Float64) : Float64.nan * a = Float64.nan := rfl

theorem f64_sub_nan (a : Float64) : a - Float64.nan = Float64.nan := by
  cases a <;> rfl

theorem f64_nan_sub (a : Float64) : Float64.nan - a = Float64.nan := rfl

theorem f64_boundTset_cases (x : Float64) :
    (x = Float64.nan ∧ boundTset x = Float64.nan) ∨ boundTset x = Float64.finite 10 ∨
    boundTset x = Float64.finite 75 ∨
    ∃ q : ℚ, x = Float64.finite q ∧ boundTset x = Float64.finite q ∧ 20 ≤ q ∧ q ≤ 75 := by
  unfold boundTset maxTSet minTSet fallbackTSet
  cases x with
  | nan => left; exact ⟨rfl, rfl⟩
  | posInf =>
    right; right; left
    rw [if_pos (by rw [gt_iff_lt, f64_lt_def]; rfl)]
    norm_num
  | negInf =>
    right; left
    rw [if_neg (by rw [gt_iff_lt, f64_lt_def]; simp [Float64.lt]),
      if_pos (by rw [f64_lt_def]; rfl)]
    norm_num
  | finite q =>
    by_cases h1 : 75 < q
    · right; right; left
      rw [if_pos (by rw [gt_iff_lt, f64_lt_finite]; norm_num; exact h1)]
      norm_num
    · rw [if_neg (by rw [gt_iff_lt, f64_lt_finite]; norm_num; exact not_lt.mp h1)]
      by_cases h2 : q < 20
      · right; left
        rw [if_pos (by rw [f64_lt_finite]; norm_num; exact h2)]
        norm_num
      · right; right; right
        rw [if_neg (by rw [f64_lt_finite]; norm_num; exact not_lt.mp h2)]
        exact ⟨q, rfl, rfl, not_lt.mp h2, not_lt.mp h1⟩


theorem f64_termStep_eq (h0 h1 h2 h3 s0 s1 s2 s3 o0 o1 o2 o3 : Float64) (tset : Float64)
    (i : Nat) (hi : i < 14) :
    thermo_model.termStep [h0, h1, h2, h3] [s0, s1, s2, s3] [o0, o1, o2, o3] tset i =
      some (tset + thermo_model.mCoeff.getD i (Float64.finite 0) *
        [h0, h1, h2, h3].getD (Mzotbc.thermo_model.mTermsHP.getD i 0) (Float64.finite 0) *
        [s0, s1, s2, s3].getD (Mzotbc.thermo_model.mTermsSP.getD i 0) (Float64.finite 0) *
        [o0, o1, o2, o3].getD (Mzotbc.thermo_model.mTermsOT.getD i 0) (Float64.finite 0)) := by
  interval_cases i <;> rfl

theorem f64_termFold_eq (h0 h1 h2 h3 s0 s1 s2 s3 o0 o1 o2 o3 : Float64) (l : List Nat)
    (hl : ∀ i ∈ l, i < 14) (tset : Float64) :
    l.foldlM (thermo_model.termStep [h0, h1, h2, h3] [s0, s1, s2, s3] [o0, o1, o2, o3]) tset =
      some (l.foldl (fun t i => t + thermo_model.mCoeff.getD i (Float64.finite 0) *
        [h0, h1, h2, h3].getD (Mzotbc.thermo_model.mTermsHP.getD i 0) (Float64.finite 0) *
        [s0, s1, s2, s3].getD (Mzotbc.thermo_model.mTermsSP.getD i 0) (Float64.finite 0) *
        [o0, o1, o2, o3].getD (Mzotbc.thermo_model.mTermsOT.getD i 0) (Float64.finite 0))
        tset) := by
  induction l generalizing tset with
  | nil => rfl
  | cons i rest ih =>
    have hi : i < 14 := hl i (List.mem_cons_self i rest)
    have hrest : ∀ k ∈ rest, k < 14 := fun k hk => hl k (List.mem_cons_of_mem i hk)
    rw [List.foldlM_cons, f64_termStep_eq _ _ _ _ _ _ _ _ _ _ _ _ tset i hi]
    simp only [Option.bind_eq_bind, Option.some_bind]
    rw [ih hrest, List.foldl_cons]

theorem f64_CalculateSetpoint_unfold (hp sp ot rt : Float64) :
    thermo_model.CalculateSetpoint hp sp ot rt =
      (List.range 14).foldlM
        (thermo_model.termStep [Float64.finite 1.0, hp, hp * hp, hp * hp * hp]
          [Float64.finite 1.0, sp, sp * sp, sp * sp * sp]
          [Float64.finite 1.0, ot, ot * ot, ot * ot * ot]) (Float64.finite 0.0) := by
  rfl

theorem f64_CalculateSetpoint_total (hp sp ot rt : Float64) :
    ∃ m, thermo_model.CalculateSetpoint hp sp ot rt = some m := by
  rw [f64_CalculateSetpoint_unfold,
    f64_termFold_eq _ _ _ _ _ _ _ _ _ _ _ _ _ (by intro i hi; simpa using hi)]
  exact ⟨_, rfl⟩

theorem f64_foldl_nan (g : Nat → Float64) (l : List Nat) :
    l.foldl (fun t i => t + g i) Float64.nan = Float64.nan := by
  induction l with
  | nil => rfl
  | cons i rest ih => rw [List.foldl_cons, f64_nan_add, ih]

theorem f64_CalculateSetpoint_nan_setpoint (hp ot rt : Float64) :
    thermo_model.CalculateSetpoint hp Float64.nan ot rt = some Float64.nan := by
  rw [f64_CalculateSetpoint_unfold,
    f64_termFold_eq _ _ _ _ _ _ _ _ _ _ _ _ _ (by intro i hi; simpa using hi)]
  have hr : List.range 14 = 0 :: 1 :: [2, 3, 4, 5, 6, 7, 8, 9, 10, 11, 12, 13] := by decide
  rw [hr, List.foldl_cons, List.foldl_cons]
  have h1 : ([Float64.finite 1.0, Float64.nan, Float64.nan * Float64.nan,
      Float64.nan * Float64.nan * Float64.nan].getD
        (Mzotbc.thermo_model.mTermsSP.getD 1 0) (Float64.finite 0)) = Float64.nan := rfl
  rw [h1]
  simp only [f64_mul_nan, f64_nan_mul, f64_add_nan]
  rw [f64_foldl_nan]

theorem f64_calculateSetpoint_valid (c : ThermoController) (zone : ZoneController)
    (OT : Float64) (hok : zone.getPair.2.2 = true) (hOT : OT > minValidTemp) :
    ∃ m, thermo_model.CalculateSetpoint
        (c.getHeatingParameter zone -
          (zone.averageTemperature - zone.setpoint) * Float64.finite 1.5)
        zone.setpoint OT zone.averageTemperature = some m ∧
      c.calculateSetpoint zone OT =
        some (if OT > zone.setpoint - Float64.finite 3.0 ∨
            zone.averageTemperature > zone.setpoint + Float64.finite 2.0
          then fallbackTSet else boundTset m, true) := by
  obtain ⟨m, hm⟩ := f64_CalculateSetpoint_total
    (c.getHeatingParameter zone -
      (zone.averageTemperature - zone.setpoint) * Float64.finite 1.5)
    zone.setpoint OT zone.averageTemperature
  refine ⟨m, hm, ?_⟩
  have hc : (zone.getPair.2.2 && decide (OT > minValidTemp)) = true := by
    simp [hok, hOT]
  have hsp : zone.getPair.1 = zone.setpoint := rfl
  have hrt : zone.getPair.2.1 = zone.averageTemperature := rfl
  unfold ThermoController.calculateSetpoint
  simp only [hc, hsp, hrt, if_true, hm]
  rfl

theorem f64_calculateSetpoint_invalid (c : ThermoController) (zone : ZoneController)
    (OT : Float64) (h : ¬ (zone.getPair.2.2 = true ∧ OT > minValidTemp)) :
    c.calculateSetpoint zone OT = some (Float64.finite 0.0, false) := by
  have hc : (zone.getPair.2.2 && decide (OT > minValidTemp)) = false := by
    cases hb : zone.getPair.2.2
    · simp
    · have : ¬ OT > minValidTemp := fun h2 => h ⟨hb, h2⟩
      simp [this]
  unfold ThermoController.calculateSetpoint
  simp only [hc]
  rfl

theorem f64_calculateSetpoint_ok_range (c : ThermoController) (zone : ZoneController)
    (OT d : Float64) (h : c.calculateSetpoint zone OT = some (d, true)) :
    d = Float64.nan ∨ d = Float64.finite 10 ∨
    (Float64.finite 20 ≤ d ∧ d ≤ Float64.finite 75) := by
  by_cases hv : zone.getPair.2.2 = true ∧ OT > minValidTemp
  · obtain ⟨m, _, hr⟩ := f64_calculateSetpoint_valid c zone OT hv.1 hv.2
    rw [hr] at h
    have hd := congrArg Prod.fst (Option.some.inj h)
    simp only at hd
    rw [← hd]
    split_ifs
    · right; left
      norm_num [fallbackTSet]
    · rcases f64_boundTset_cases m with ⟨_, h1⟩ | h1 | h1 | ⟨q, _, h1, h20, h75⟩
      · left; exact h1
      · right; left; exact h1
      · right; right
        rw [h1, f64_le_finite, f64_le_finite]
        norm_num
      · right; right
        rw [h1, f64_le_finite, f64_le_finite]
        exact ⟨h20, h75⟩
  · rw [f64_calculateSetpoint_invalid c zone OT hv] at h
    have := congrArg Prod.snd (Option.some.inj h)
    simp at this

/-- C26 (the code at the failing input): the sample zone after the payload `NaN` on its
setpoint topic (setpoint NaN, valid timestamps, room temperature 20), outside temperature 5.
`calculateSetpoint` returns `(NaN, true)`: the model output is NaN, both comparisons of
`boundTset` are false for it, and neither override applies.  `handleUpdate` stores the NaN in
place of the demand 0.0, and on every later pass stores it again and sets `needTRupdate`,
because `newTR != c.zoneTRs[zone]` is true for NaN against NaN.  For every input an ok demand
is NaN, 10.0 or in [20.0, 75.0]. -/
theorem calculateSetpoint_nan_demand :
    sampleController.calculateSetpoint { sampleZone with setpoint := Float64.nan }
        (Float64.finite 5) = some (Float64.nan, true) ∧
    sampleController.handleUpdateZone (Float64.finite 5)
        { zone := { sampleZone with setpoint := Float64.nan }, needsUpdate := true,
          TR := Float64.finite 0.0 } =
      some ({ zone := { sampleZone with setpoint := Float64.nan }, needsUpdate := false,
              TR := Float64.nan }, true) ∧
    sampleController.handleUpdateZone (Float64.finite 5)
        { zone := { sampleZone with setpoint := Float64.nan }, needsUpdate := true,
          TR := Float64.nan } =
      some ({ zone := { sampleZone with setpoint := Float64.nan }, needsUpdate := false,
              TR := Float64.nan }, true) ∧
    (∀ (c : ThermoController) (zone : ZoneController) (OT d : Float64),
      c.calculateSetpoint zone OT = some (d, true) →
      d = Float64.nan ∨ d = Float64.finite 10 ∨
      (Float64.finite 20 ≤ d ∧ d ≤ Float64.finite 75)) := by
  have hcalc : sampleController.calculateSetpoint
      { sampleZone with setpoint := Float64.nan } (Float64.finite 5) =
      some (Float64.nan, true) := by
    have hOT : Float64.finite 5 > minValidTemp := by
      rw [gt_iff_lt]
      unfold minValidTemp
      rw [f64_lt_finite]
      norm_num
    obtain ⟨m, hm, hr⟩ := f64_calculateSetpoint_valid sampleController
      { sampleZone with setpoint := Float64.nan } (Float64.finite 5) rfl hOT
    rw [f64_CalculateSetpoint_nan_setpoint] at hm
    rw [hr, ← Option.some.inj hm]
    rfl
  refine ⟨hcalc, ?_, ?_, f64_calculateSetpoint_ok_range⟩
  · unfold ThermoController.handleUpdateZone
    simp only [hcalc]
    rfl
  · unfold ThermoController.handleUpdateZone
    simp only [hcalc]
    rfl

/-! ### The first loop of `averageSetpoints` on IEEE values -/

theorem f64_scanInit_fields :
    scanInit.maxT = Float64.finite (-1000) ∧ scanInit.minT = Float64.finite 1000 ∧
    scanInit.maxDiff = Float64.finite (-10000) ∧
    scanInit.maxZone = none ∧ scanInit.minZone = none ∧ scanInit.maxDiffZone = none := by
  refine ⟨?_, ?_, ?_, rfl, rfl, rfl⟩ <;> norm_num [scanInit]

theorem f64_scanStep_max (s : DemandScan) (e : ZoneController × Float64) :
    (scanStep s e).maxT = (if e.2 > s.maxT then e.2 else s.maxT) ∧
    (scanStep s e).maxZone = (if e.2 > s.maxT then some e.1 else s.maxZone) := by
  unfold scanStep
  by_cases h1 : e.2 > s.maxT
  · simp only [h1, if_true]
    constructor <;> split_ifs <;> rfl
  · simp only [h1, if_false]
    constructor <;> split_ifs <;> rfl

theorem f64_scanStep_min (s : DemandScan) (e : ZoneController × Float64) :
    (scanStep s e).minT =
      (if e.2 < s.minT ∧ e.2 > Float64.finite 10 then e.2 else s.minT) ∧
    (scanStep s e).minZone =
      (if e.2 < s.minT ∧ e.2 > Float64.finite 10 then some e.1 else s.minZone) := by
  have h10 : Float64.finite 10.0 = Float64.finite 10 := by norm_num
  unfold scanStep
  simp only [h10]
  by_cases h1 : e.2 > s.maxT <;> by_cases h2 : e.2 < s.minT ∧ e.2 > Float64.finite 10
  all_goals simp only [h1, h2, if_true, if_false]
  all_goals constructor <;> split_ifs <;> rfl

theorem f64_scanStep_maxDiff (s : DemandScan) (e : ZoneController × Float64) :
    (scanStep s e).maxDiff = (if gapOf e > s.maxDiff then gapOf e else s.maxDiff) ∧
    (scanStep s e).maxDiffZone =
      (if gapOf e > s.maxDiff then some e.1 else s.maxDiffZone) := by
  unfold scanStep gapOf
  dsimp only
  by_cases h : e.1.setpoint - e.1.averageTemperature > s.maxDiff
  · rw [if_pos h, if_pos h]
    constructor <;> (split_ifs <;> rfl)
  · rw [if_neg h, if_neg h]
    constructor <;> (split_ifs <;> rfl)

theorem f64_scan_max_mono (trs : List (ZoneController × Float64)) (s0 : DemandScan)
    (x : Float64) (h : x > (trs.foldl scanStep s0).maxT) : x > s0.maxT := by
  induction trs generalizing s0 with
  | nil => exact h
  | cons e rest ih =>
    rw [List.foldl_cons] at h
    have h1 := ih (scanStep s0 e) h
    rw [(f64_scanStep_max s0 e).1] at h1
    by_cases hgt : e.2 > s0.maxT
    · rw [if_pos hgt] at h1
      exact f64_lt_trans _ _ _ hgt h1
    · rw [if_neg hgt] at h1
      exact h1

theorem f64_scan_max_ub (trs : List (ZoneController × Float64)) (s0 : DemandScan) :
    ∀ e ∈ trs, ¬ e.2 > (trs.foldl scanStep s0).maxT := by
  induction trs generalizing s0 with
  | nil => intro e he; simp at he
  | cons e0 rest ih =>
    intro e he
    rw [List.foldl_cons]
    rcases List.mem_cons.mp he with h | h
    · rw [h]
      intro hgt
      have h1 := f64_scan_max_mono rest (scanStep s0 e0) e0.2 hgt
      rw [(f64_scanStep_max s0 e0).1] at h1
      by_cases h0 : e0.2 > s0.maxT
      · rw [if_pos h0] at h1
        exact f64_lt_irrefl _ h1
      · rw [if_neg h0] at h1
        exact h0 h1
    · exact ih (scanStep s0 e0) e h

theorem f64_scan_max_inv (trs : List (ZoneController × Float64)) (s0 : DemandScan) :
    ((trs.foldl scanStep s0).maxZone = s0.maxZone ∧ (trs.foldl scanStep s0).maxT = s0.maxT ∧
      ∀ e ∈ trs, ¬ e.2 > s0.maxT) ∨
    ∃ e ∈ trs, (trs.foldl scanStep s0).maxZone = some e.1 ∧
      (trs.foldl scanStep s0).maxT = e.2 ∧ e.2 > s0.maxT := by
  induction trs generalizing s0 with
  | nil => left; exact ⟨rfl, rfl, fun e he => by simp at he⟩
  | cons e rest ih =>
    rw [List.foldl_cons]
    obtain ⟨hT, hZ⟩ := f64_scanStep_max s0 e
    rcases ih (scanStep s0 e) with ⟨h1, h2, h3⟩ | ⟨e', he', h1, h2, h3⟩
    · by_cases hgt : e.2 > s0.maxT
      · right
        rw [if_pos hgt] at hT hZ
        exact ⟨e, List.mem_cons_self _ _, h1.trans hZ, h2.trans hT, hgt⟩
      · left
        rw [if_neg hgt] at hT hZ
        refine ⟨h1.trans hZ, h2.trans hT, ?_⟩
        intro e' he'
        rcases List.mem_cons.mp he' with h | h
        · rw [h]; exact hgt
        · have := h3 e' h
          rw [hT] at this
          exact this
    · right
      refine ⟨e', List.mem_cons_of_mem _ he', h1, h2, ?_⟩
      rw [hT] at h3
      by_cases hgt : e.2 > s0.maxT
      · rw [if_pos hgt] at h3
        exact f64_lt_trans _ _ _ hgt h3
      · rw [if_neg hgt] at h3
        exact h3

theorem f64_scan_min_mono (trs : List (ZoneController × Float64)) (s0 : DemandScan)
    (x : Float64) (h : x < (trs.foldl scanStep s0).minT) : x < s0.minT := by
  induction trs generalizing s0 with
  | nil => exact h
  | cons e rest ih =>
    rw [List.foldl_cons] at h
    have h1 := ih (scanStep s0 e) h
    rw [(f64_scanStep_min s0 e).1] at h1
    by_cases hlt : e.2 < s0.minT ∧ e.2 > Float64.finite 10
    · rw [if_pos hlt] at h1
      exact f64_lt_trans _ _ _ h1 hlt.1
    · rw [if_neg hlt] at h1
      exact h1

theorem f64_scan_min_lb (trs : List (ZoneController × Float64)) (s0 : DemandScan) :
    ∀ e ∈ trs, e.2 > Float64.finite 10 → ¬ e.2 < (trs.foldl scanStep s0).minT := by
  induction trs generalizing s0 with
  | nil => intro e he; simp at he
  | cons e0 rest ih =>
    intro e he h10
    rw [List.foldl_cons]
    rcases List.mem_cons.mp he with h | h
    · rw [h] at h10 ⊢
      intro hlt
      have h1 := f64_scan_min_mono rest (scanStep s0 e0) e0.2 hlt
      rw [(f64_scanStep_min s0 e0).1] at h1
      by_cases h0 : e0.2 < s0.minT ∧ e0.2 > Float64.finite 10
      · rw [if_pos h0] at h1
        exact f64_lt_irrefl _ h1
      · rw [if_neg h0] at h1
        exact h0 ⟨h1, h10⟩
    · exact ih (scanStep s0 e0) e h h10

theorem f64_scan_min_inv (trs : List (ZoneController × Float64)) (s0 : DemandScan) :
    ((trs.foldl scanStep s0).minZone = s0.minZone ∧ (trs.foldl scanStep s0).minT = s0.minT ∧
      ∀ e ∈ trs, ¬ (e.2 < s0.minT ∧ e.2 > Float64.finite 10)) ∨
    ∃ e ∈ trs, (trs.foldl scanStep s0).minZone = some e.1 ∧
      (trs.foldl scanStep s0).minT = e.2 ∧ e.2 < s0.minT ∧ e.2 > Float64.finite 10 := by
  induction trs generalizing s0 with
  | nil => left; exact ⟨rfl, rfl, fun e he => by simp at he⟩
  | cons e rest ih =>
    rw [List.foldl_cons]
    obtain ⟨hT, hZ⟩ := f64_scanStep_min s0 e
    rcases ih (scanStep s0 e) with ⟨h1, h2, h3⟩ | ⟨e', he', h1, h2, h3, h4⟩
    · by_cases hlt : e.2 < s0.minT ∧ e.2 > Float64.finite 10
      · right
        rw [if_pos hlt] at hT hZ
        exact ⟨e, List.mem_cons_self _ _, h1.trans hZ, h2.trans hT, hlt.1, hlt.2⟩
      · left
        rw [if_neg hlt] at hT hZ
        refine ⟨h1.trans hZ, h2.trans hT, ?_⟩
        intro e' he'
        rcases List.mem_cons.mp he' with h | h
        · rw [h]; exact hlt
        · have := h3 e' h
          rw [hT] at this
          exact this
    · right
      refine ⟨e', List.mem_cons_of_mem _ he', h1, h2, ?_, h4⟩
      rw [hT] at h3
      by_cases hlt : e.2 < s0.minT ∧ e.2 > Float64.finite 10
      · rw [if_pos hlt] at h3
        exact f64_lt_trans _ _ _ h3 hlt.1
      · rw [if_neg hlt] at h3
        exact h3

theorem f64_scan_maxDiff_mono (trs : List (ZoneController × Float64)) (s0 : DemandScan)
    (x : Float64) (h : x > (trs.foldl scanStep s0).maxDiff) : x > s0.maxDiff := by
  induction trs generalizing s0 with
  | nil => exact h
  | cons e rest ih =>
    rw [List.foldl_cons] at h
    have h1 := ih (scanStep s0 e) h
    rw [(f64_scanStep_maxDiff s0 e).1] at h1
    by_cases hgt : gapOf e > s0.maxDiff
    · rw [if_pos hgt] at h1
      exact f64_lt_trans _ _ _ hgt h1
    · rw [if_neg hgt] at h1
      exact h1

theorem f64_scan_maxDiff_ub (trs : List (ZoneController × Float64)) (s0 : DemandScan) :
    ∀ e ∈ trs, ¬ gapOf e > (trs.foldl scanStep s0).maxDiff := by
  induction trs generalizing s0 with
  | nil => intro e he; simp at he
  | cons e0 rest ih =>
    intro e he
    rw [List.foldl_cons]
    rcases List.mem_cons.mp he with h | h
    · rw [h]
      intro hgt
      have h1 := f64_scan_maxDiff_mono rest (scanStep s0 e0) (gapOf e0) hgt
      rw [(f64_scanStep_maxDiff s0 e0).1] at h1
      by_cases h0 : gapOf e0 > s0.maxDiff
      · rw [if_pos h0] at h1
        exact f64_lt_irrefl _ h1
      · rw [if_neg h0] at h1
        exact h0 h1
    · exact ih (scanStep s0 e0) e h

theorem f64_scan_maxDiff_inv (trs : List (ZoneController × Float64)) (s0 : DemandScan) :
    ((trs.foldl scanStep s0).maxDiffZone = s0.maxDiffZone ∧
      (trs.foldl scanStep s0).maxDiff = s0.maxDiff ∧
      ∀ e ∈ trs, ¬ gapOf e > s0.maxDiff) ∨
    ∃ e ∈ trs, (trs.foldl scanStep s0).maxDiffZone = some e.1 ∧
      (trs.foldl scanStep s0).maxDiff = gapOf e ∧ gapOf e > s0.maxDiff := by
  induction trs generalizing s0 with
  | nil => left; exact ⟨rfl, rfl, fun e he => by simp at he⟩
  | cons e rest ih =>
    rw [List.foldl_cons]
    obtain ⟨hT, hZ⟩ := f64_scanStep_maxDiff s0 e
    rcases ih (scanStep s0 e) with ⟨h1, h2, h3⟩ | ⟨e', he', h1, h2, h3⟩
    · by_cases hgt : gapOf e > s0.maxDiff
      · right
        rw [if_pos hgt] at hT hZ
        exact ⟨e, List.mem_cons_self _ _, h1.trans hZ, h2.trans hT, hgt⟩
      · left
        rw [if_neg hgt] at hT hZ
        refine ⟨h1.trans hZ, h2.trans hT, ?_⟩
        intro e' he'
        rcases List.mem_cons.mp he' with h | h
        · rw [h]; exact hgt
        · have := h3 e' h
          rw [hT] at this
          exact this
    · right
      refine ⟨e', List.mem_cons_of_mem _ he', h1, h2, ?_⟩
      rw [hT] at h3
      by_cases hgt : gapOf e > s0.maxDiff
      · rw [if_pos hgt] at h3
        exact f64_lt_trans _ _ _ hgt h3
      · rw [if_neg hgt] at h3
        exact h3


/-! ### Finite arithmetic -/

theorem f64_overflowBound_gt : (10 : ℚ) ^ 300 < Float64.overflowBound := by
  unfold Float64.overflowBound
  norm_num

theorem f64_ofRat_small (q : ℚ) (h : |q| ≤ 10 ^ 300) : Float64.ofRat q = Float64.finite q := by
  have hb := f64_overflowBound_gt
  obtain ⟨h1, h2⟩ := abs_le.mp h
  unfold Float64.ofRat
  rw [if_neg (by linarith), if_neg (by linarith)]

theorem f64_sub_finite (a b : ℚ) (h : |a - b| ≤ 10 ^ 300) :
    Float64.finite a - Float64.finite b = Float64.finite (a - b) := by
  have : Float64.finite a - Float64.finite b = Float64.ofRat (a + -b) := rfl
  rw [this, ← sub_eq_add_neg]
  exact f64_ofRat_small _ h

theorem f64_mul_finite (a b : ℚ) (h : |a * b| ≤ 10 ^ 300) :
    Float64.finite a * Float64.finite b = Float64.finite (a * b) :=
  f64_ofRat_small _ h

theorem f64_diagnosticsOf_eq (s : DemandScan) (zd : ZoneController)
    (h : s.maxDiffZone = some zd) :
    diagnosticsOf s =
      some (EngineEffect.publishMaxdiff
          (jsonMarshal { Zone := zd.name, Setpoint := zd.setpoint,
                         Temperature := zd.averageTemperature, CS := s.maxDiff }) ::
        ((match s.maxZone with
          | some z => [EngineEffect.publishMaxcs
              (jsonMarshal { Zone := z.name, Setpoint := z.setpoint,
                             Temperature := z.averageTemperature, CS := s.maxT })]
          | none => []) ++
         (match s.minZone with
          | some z => [EngineEffect.publishMincs
              (jsonMarshal { Zone := z.name, Setpoint := z.setpoint,
                             Temperature := z.averageTemperature, CS := s.minT })]
          | none => []))) := by
  unfold diagnosticsOf ThermoMarshalHelper
  rw [h]
  cases s.maxZone <;> cases s.minZone <;> rfl

theorem f64_diagnosticsOf_none (s : DemandScan) (h : s.maxDiffZone = none) :
    diagnosticsOf s = none := by
  unfold diagnosticsOf ThermoMarshalHelper
  rw [h]
  rfl

theorem f64_diagnostics_spec (L : GoMath) (trs : List (ZoneController × Float64))
    (hgap : ∃ e ∈ trs, gapOf e > Float64.finite (-10000)) :
    ∃ zd ∈ trs, ∃ maxcs mincs : List EngineEffect,
      averageSetpoints L trs =
        some (EngineEffect.publishMaxdiff
            (jsonMarshal { Zone := zd.1.name, Setpoint := zd.1.setpoint,
                           Temperature := zd.1.averageTemperature, CS := gapOf zd }) ::
              (maxcs ++ mincs),
          aggregateOf L trs) ∧
      gapOf zd > Float64.finite (-10000) ∧
      (∀ e ∈ trs, ¬ gapOf e > gapOf zd) ∧
      ((∀ e ∈ trs, ¬ e.2 > Float64.finite (-1000)) → maxcs = []) ∧
      ((∃ e ∈ trs, e.2 > Float64.finite (-1000)) → ∃ zm ∈ trs,
        maxcs = [EngineEffect.publishMaxcs
          (jsonMarshal { Zone := zm.1.name, Setpoint := zm.1.setpoint,
                         Temperature := zm.1.averageTemperature, CS := zm.2 })] ∧
        ∀ e ∈ trs, ¬ e.2 > zm.2) ∧
      ((∀ e ∈ trs, ¬ (e.2 > Float64.finite 10 ∧ e.2 < Float64.finite 1000)) → mincs = []) ∧
      ((∃ e ∈ trs, e.2 > Float64.finite 10 ∧ e.2 < Float64.finite 1000) → ∃ zn ∈ trs,
        mincs = [EngineEffect.publishMincs
          (jsonMarshal { Zone := zn.1.name, Setpoint := zn.1.setpoint,
                         Temperature := zn.1.averageTemperature, CS := zn.2 })] ∧
        zn.2 > Float64.finite 10 ∧ zn.2 < Float64.finite 1000 ∧
        ∀ e ∈ trs, e.2 > Float64.finite 10 → ¬ e.2 < zn.2) := by
  obtain ⟨i1, i2, i3, i4, i5, i6⟩ := f64_scanInit_fields
  have hD : ∃ zd ∈ trs, (trs.foldl scanStep scanInit).maxDiffZone = some zd.1 ∧
      (trs.foldl scanStep scanInit).maxDiff = gapOf zd ∧
      gapOf zd > Float64.finite (-10000) := by
    rcases f64_scan_maxDiff_inv trs scanInit with ⟨_, _, h3⟩ | ⟨zd, hzd, h1, h2, h3⟩
    · exfalso
      obtain ⟨e, he, hg⟩ := hgap
      rw [i3] at h3
      exact h3 e he hg
    · rw [i3] at h3
      exact ⟨zd, hzd, h1, h2, h3⟩
  obtain ⟨zd, hzd, hdz, hdv, hdg⟩ := hD
  refine ⟨zd, hzd,
    (match (trs.foldl scanStep scanInit).maxZone with
      | some z => [EngineEffect.publishMaxcs
          (jsonMarshal { Zone := z.name, Setpoint := z.setpoint,
                         Temperature := z.averageTemperature,
                         CS := (trs.foldl scanStep scanInit).maxT })]
      | none => []),
    (match (trs.foldl scanStep scanInit).minZone with
      | some z => [EngineEffect.publishMincs
          (jsonMarshal { Zone := z.name, Setpoint := z.setpoint,
                         Temperature := z.averageTemperature,
                         CS := (trs.foldl scanStep scanInit).minT })]
      | none => []), ?_, hdg, ?_, ?_, ?_, ?_, ?_⟩
  · unfold averageSetpoints
    rw [f64_diagnosticsOf_eq _ zd.1 hdz, hdv]
    rfl
  · intro e he
    rw [← hdv]
    exact f64_scan_maxDiff_ub trs scanInit e he
  · intro hall
    rcases f64_scan_max_inv trs scanInit with ⟨h1, _, _⟩ | ⟨e, he, _, _, h3⟩
    · rw [h1, i4]
    · rw [i1] at h3
      exact absurd h3 (hall e he)
  · rintro ⟨e0, he0, hgt⟩
    rcases f64_scan_max_inv trs scanInit with ⟨_, _, h3⟩ | ⟨e, he, h1, h2, _⟩
    · rw [i1] at h3
      exact absurd hgt (h3 e0 he0)
    · refine ⟨e, he, ?_, ?_⟩
      · rw [h1, h2]
      · intro e' he'
        rw [← h2]
        exact f64_scan_max_ub trs scanInit e' he'
  · intro hall
    rcases f64_scan_min_inv trs scanInit with ⟨h1, _, _⟩ | ⟨e, he, _, _, h3, h4⟩
    · rw [h1, i5]
    · rw [i2] at h3
      exact absurd ⟨h4, h3⟩ (hall e he)
  · rintro ⟨e0, he0, h10, hlt⟩
    rcases f64_scan_min_inv trs scanInit with ⟨_, _, h3⟩ | ⟨e, he, h1, h2, h3, h4⟩
    · rw [i2] at h3
      exact absurd ⟨hlt, h10⟩ (h3 e0 he0)
    · rw [i2] at h3
      refine ⟨e, he, ?_, h4, h3, ?_⟩
      · rw [h1, h2]
      · intro e' he' h10'
        rw [← h2]
        exact f64_scan_min_lb trs scanInit e' he' h10'


/-! ### Evaluation on finite values -/

theorem f64_add_ofRat (a b : ℚ) :
    Float64.finite a + Float64.finite b = Float64.ofRat (a + b) := rfl

theorem f64_sub_ofRat (a b : ℚ) :
    Float64.finite a - Float64.finite b = Float64.ofRat (a - b) := by
  have : Float64.finite a - Float64.finite b = Float64.ofRat (a + -b) := rfl
  rw [this, ← sub_eq_add_neg]

theorem f64_mul_ofRat (a b : ℚ) :
    Float64.finite a * Float64.finite b = Float64.ofRat (a * b) := rfl

theorem f64_div_ofRat (a b : ℚ) (hb : b ≠ 0) :
    Float64.finite a / Float64.finite b = Float64.ofRat (a / b) := by
  have : Float64.finite a / Float64.finite b =
      (if b = 0 then (if a = 0 then Float64.nan else if 0 < a then Float64.posInf
        else Float64.negInf) else Float64.ofRat (a / b)) := rfl
  rw [this, if_neg hb]

theorem f64_powCube_ofRat (a : ℚ) : (Float64.finite a).powCube = Float64.ofRat (a ^ 3) := rfl

theorem f64_mathRound_eq (x : ℚ) (n : ℤ) (h0 : 0 ≤ x) (h1 : (n : ℚ) - 1 / 2 ≤ x)
    (h2 : x < (n : ℚ) + 1 / 2) : mathRound x = n := by
  unfold mathRound
  rw [if_pos h0, Int.floor_eq_iff]
  constructor <;> linarith

theorem f64_gapOf_sampleZone (f : Float64) : gapOf (sampleZone, f) = Float64.finite 0 := by
  unfold gapOf sampleZone
  exact (f64_sub_finite 20 20 (by norm_num)).trans (by norm_num)

theorem f64_gapOf_bedroomZone (f : Float64) : gapOf (bedroomZone, f) = Float64.finite 0 := by
  unfold gapOf bedroomZone sampleZone
  exact (f64_sub_finite 20 20 (by norm_num)).trans (by norm_num)

theorem f64_jsonMarshal_cases (report : ZoneReport) :
    ((report.Setpoint.isFinite = true ∧ report.Temperature.isFinite = true ∧
        report.CS.isFinite = true) → jsonMarshal report = some report) ∧
    (¬ (report.Setpoint.isFinite = true ∧ report.Temperature.isFinite = true ∧
        report.CS.isFinite = true) → jsonMarshal report = none) := by
  unfold jsonMarshal
  constructor
  · rintro ⟨h1, h2, h3⟩
    rw [h1, h2, h3]
    rfl
  · intro h
    rw [if_neg]
    intro hc
    simp only [Bool.and_eq_true] at hc
    exact h ⟨hc.1.1, hc.1.2, hc.2⟩

theorem f64_aggregate_sample10 (L : GoMath) :
    aggregateOf L [(sampleZone, Float64.finite 10)] = (Float64.finite 10, false) := by
  unfold aggregateOf
  simp only [List.foldl_cons, List.foldl_nil]
  unfold scanStep scanInit
  norm_num [tCutOf, accumulateStep, tSetOf, defaultTSet, minEnableTemp, sampleZone,
    f64_lt_finite, f64_le_finite, f64_sub_ofRat, f64_add_ofRat,
    f64_mul_ofRat, Float64.ofRat, Float64.overflowBound]

theorem f64_powThird_sample_64000 :
    powThird sampleMath (Float64.finite 64000) = Float64.finite (40 - 1 / 2 ^ 47) := by
  norm_num [powThird, sampleMath]

theorem f64_round_80 :
    Float64.round (Float64.finite (40 - 1 / 2 ^ 47) * Float64.finite 2) / Float64.finite 2 =
      Float64.finite 40 := by
  rw [f64_mul_finite _ _ (abs_le.mpr ⟨by norm_num, by norm_num⟩)]
  have h : mathRound ((40 - 1 / 2 ^ 47) * 2) = 80 := by
    apply f64_mathRound_eq <;> norm_num
  unfold Float64.round
  simp only [h]
  rw [f64_div_ofRat _ _ (by norm_num)]
  norm_num [Float64.ofRat, Float64.overflowBound]

theorem f64_boundTset_40 : boundTset (Float64.finite 40) = Float64.finite 40 := by
  norm_num [boundTset, maxTSet, minTSet, f64_lt_finite]

theorem f64_tSetOf_sample_64000 :
    tSetOf sampleMath (Float64.finite 64000) (Float64.finite 1) = Float64.finite 40 := by
  unfold tSetOf
  rw [if_pos (by rw [gt_iff_lt, f64_lt_finite]; norm_num), f64_div_ofRat _ _ (by norm_num)]
  have h : Float64.ofRat (64000 / 1) = Float64.finite 64000 := by
    norm_num [Float64.ofRat, Float64.overflowBound]
  rw [h, f64_powThird_sample_64000, f64_round_80, f64_boundTset_40]

theorem f64_aggregate_sample40 :
    aggregateOf sampleMath [(sampleZone, Float64.finite 40)] = (Float64.finite 40, true) := by
  unfold aggregateOf
  simp only [List.foldl_cons, List.foldl_nil]
  unfold scanStep scanInit
  norm_num [tCutOf, accumulateStep, sampleZone,
    f64_lt_finite, f64_le_finite, f64_sub_ofRat, f64_add_ofRat, f64_powCube_ofRat,
    f64_mul_ofRat, Float64.ofRat, Float64.overflowBound]
  rw [f64_tSetOf_sample_64000]
  norm_num [minEnableTemp, f64_le_finite]

/-! ### C24: the diagnostic records -/

/-- C24 (amended): a run of `averageSetpoints` over a map in which some zone has setpoint minus
average temperature above -10000 completes and publishes the max-gap payload of a zone with
the largest gap; it publishes the max-demand payload exactly when some demand is above -1000
(of a zone no demand exceeds) and the min-demand payload exactly when some demand lies strictly
between 10.0 and 1000 (of a zone with the least such demand).  Every payload is the
`json.Marshal` output for zone name, setpoint, temperature and driving value: the full record
when the three numbers are finite, the empty payload when one of them is NaN or an
infinity. -/
theorem averageSetpoints_diagnostic_records (L : GoMath)
    (trs : List (ZoneController × Float64))
    (hgap : ∃ e ∈ trs, gapOf e > Float64.finite (-10000)) :
    (∃ zd ∈ trs, ∃ maxcs mincs : List EngineEffect,
      averageSetpoints L trs =
        some (EngineEffect.publishMaxdiff
            (jsonMarshal { Zone := zd.1.name, Setpoint := zd.1.setpoint,
                           Temperature := zd.1.averageTemperature, CS := gapOf zd }) ::
              (maxcs ++ mincs),
          aggregateOf L trs) ∧
      gapOf zd > Float64.finite (-10000) ∧
      (∀ e ∈ trs, ¬ gapOf e > gapOf zd) ∧
      ((∀ e ∈ trs, ¬ e.2 > Float64.finite (-1000)) → maxcs = []) ∧
      ((∃ e ∈ trs, e.2 > Float64.finite (-1000)) → ∃ zm ∈ trs,
        maxcs = [EngineEffect.publishMaxcs
          (jsonMarshal { Zone := zm.1.name, Setpoint := zm.1.setpoint,
                         Temperature := zm.1.averageTemperature, CS := zm.2 })] ∧
        ∀ e ∈ trs, ¬ e.2 > zm.2) ∧
      ((∀ e ∈ trs, ¬ (e.2 > Float64.finite 10 ∧ e.2 < Float64.finite 1000)) → mincs = []) ∧
      ((∃ e ∈ trs, e.2 > Float64.finite 10 ∧ e.2 < Float64.finite 1000) → ∃ zn ∈ trs,
        mincs = [EngineEffect.publishMincs
          (jsonMarshal { Zone := zn.1.name, Setpoint := zn.1.setpoint,
                         Temperature := zn.1.averageTemperature, CS := zn.2 })] ∧
        zn.2 > Float64.finite 10 ∧ zn.2 < Float64.finite 1000 ∧
        ∀ e ∈ trs, e.2 > Float64.finite 10 → ¬ e.2 < zn.2)) ∧
    (∀ report : ZoneReport,
      ((report.Setpoint.isFinite = true ∧ report.Temperature.isFinite = true ∧
          report.CS.isFinite = true) → jsonMarshal report = some report) ∧
      (¬ (report.Setpoint.isFinite = true ∧ report.Temperature.isFinite = true ∧
          report.CS.isFinite = true) → jsonMarshal report = none)) :=
  ⟨f64_diagnostics_spec L trs hgap, f64_jsonMarshal_cases⟩

/-- Witness for C24 (amended): the sample zone alone with stored demand 40 has gap 0; the run
publishes the three full records (driving values 0, 40 and 40) and returns `(40, true)`. -/
theorem averageSetpoints_diagnostic_records_witness :
    (∃ e ∈ [(sampleZone, Float64.finite 40)], gapOf e > Float64.finite (-10000)) ∧
    averageSetpoints sampleMath [(sampleZone, Float64.finite 40)] =
      some ([EngineEffect.publishMaxdiff (some (sampleReport (Float64.finite 0))),
             EngineEffect.publishMaxcs (some (sampleReport (Float64.finite 40))),
             EngineEffect.publishMincs (some (sampleReport (Float64.finite 40)))],
        Float64.finite 40, true) := by
  have hgap : ∃ e ∈ [(sampleZone, Float64.finite 40)], gapOf e > Float64.finite (-10000) :=
    ⟨(sampleZone, Float64.finite 40), List.mem_singleton.mpr rfl, by
      rw [f64_gapOf_sampleZone, gt_iff_lt, f64_lt_finite]
      norm_num⟩
  refine ⟨hgap, ?_⟩
  obtain ⟨⟨zd, hzd, maxcs, mincs, hrun, _, _, _, hmax, _, hmin⟩, _⟩ :=
    averageSetpoints_diagnostic_records sampleMath [(sampleZone, Float64.finite 40)] hgap
  obtain ⟨zm, hzm, hmaxcs, _⟩ := hmax ⟨(sampleZone, Float64.finite 40),
    List.mem_singleton.mpr rfl, by
      rw [gt_iff_lt, f64_lt_finite]
      norm_num⟩
  obtain ⟨zn, hzn, hmincs, _⟩ := hmin ⟨(sampleZone, Float64.finite 40),
    List.mem_singleton.mpr rfl, by
      rw [gt_iff_lt, f64_lt_finite, f64_lt_finite]
      norm_num⟩
  rw [List.mem_singleton.mp hzd, f64_gapOf_sampleZone] at hrun
  rw [List.mem_singleton.mp hzm] at hmaxcs
  rw [List.mem_singleton.mp hzn] at hmincs
  rw [hrun, hmaxcs, hmincs, f64_aggregate_sample40]
  rfl

/-- C24 (counterexample): the sample zone alone with stored demand 10.0, the case where no
zone demand exceeds 10.0.  The run completes with `(10.0, false)` and publishes two records,
the max-gap and the max-demand one; no min-demand record is published. -/
theorem averageSetpoints_min_record_absent_counterexample :
    averageSetpoints sampleMath [(sampleZone, Float64.finite 10)] =
      some ([EngineEffect.publishMaxdiff (some (sampleReport (Float64.finite 0))),
             EngineEffect.publishMaxcs (some (sampleReport (Float64.finite 10)))],
        Float64.finite 10, false) := by
  have hgap : ∃ e ∈ [(sampleZone, Float64.finite 10)], gapOf e > Float64.finite (-10000) :=
    ⟨(sampleZone, Float64.finite 10), List.mem_singleton.mpr rfl, by
      rw [f64_gapOf_sampleZone, gt_iff_lt, f64_lt_finite]
      norm_num⟩
  obtain ⟨zd, hzd, maxcs, mincs, hrun, _, _, _, hmax, hmin, _⟩ :=
    f64_diagnostics_spec sampleMath [(sampleZone, Float64.finite 10)] hgap
  obtain ⟨zm, hzm, hmaxcs, _⟩ := hmax ⟨(sampleZone, Float64.finite 10),
    List.mem_singleton.mpr rfl, by
      rw [gt_iff_lt, f64_lt_finite]
      norm_num⟩
  have hmincs : mincs = [] := by
    apply hmin
    intro e he
    rw [List.mem_singleton.mp he]
    rintro ⟨h, _⟩
    rw [gt_iff_lt, f64_lt_finite] at h
    exact lt_irrefl _ h
  rw [List.mem_singleton.mp hzd, f64_gapOf_sampleZone] at hrun
  rw [List.mem_singleton.mp hzm] at hmaxcs
  rw [hrun, hmaxcs, hmincs, f64_aggregate_sample10]
  rfl


/-! ### C25: the range of the command and the overflow of the weights -/

theorem f64_div_two_cases (y : Float64) :
    y / Float64.finite 2 = Float64.nan ∨ y / Float64.finite 2 = Float64.posInf ∨
    y / Float64.finite 2 = Float64.negInf ∨
    ∃ p : ℚ, y = Float64.finite p ∧ y / Float64.finite 2 = Float64.finite (p / 2) := by
  cases y with
  | nan => left; rfl
  | posInf =>
    right; left
    show Float64.div Float64.posInf (Float64.finite 2) = _
    simp [Float64.div]
  | negInf =>
    right; right; left
    show Float64.div Float64.negInf (Float64.finite 2) = _
    simp [Float64.div]
  | finite p =>
    rw [f64_div_ofRat p 2 (by norm_num)]
    unfold Float64.ofRat
    split_ifs
    · right; left; rfl
    · right; right; left; rfl
    · right; right; right; exact ⟨p, rfl, rfl⟩

theorem f64_round_cases (y : Float64) :
    y.round = Float64.nan ∨ y.round = Float64.posInf ∨ y.round = Float64.negInf ∨
    ∃ n : ℤ, y.round = Float64.finite n := by
  cases y with
  | nan => left; rfl
  | posInf => right; left; rfl
  | negInf => right; right; left; rfl
  | finite p => right; right; right; exact ⟨mathRound p, rfl⟩

theorem f64_boundTset_special :
    boundTset Float64.nan = Float64.nan ∧ boundTset Float64.posInf = Float64.finite 75 ∧
    boundTset Float64.negInf = Float64.finite 10 := by
  refine ⟨rfl, ?_, ?_⟩
  · unfold boundTset maxTSet
    rw [if_pos (by rw [gt_iff_lt, f64_lt_def]; rfl)]
    norm_num
  · unfold boundTset maxTSet minTSet fallbackTSet
    rw [if_neg (by rw [gt_iff_lt, f64_lt_def]; simp [Float64.lt]),
      if_pos (by rw [f64_lt_def]; rfl)]
    norm_num

theorem f64_boundTset_finite (q : ℚ) :
    boundTset (Float64.finite q) =
      Float64.finite (if 75 < q then 75 else if q < 20 then 10 else q) := by
  unfold boundTset maxTSet minTSet fallbackTSet
  simp only [gt_iff_lt, f64_lt_finite]
  norm_num
  split_ifs <;> rfl

theorem f64_tSetOf_range (L : GoMath) (tAvg weight : Float64) :
    tSetOf L tAvg weight = Float64.nan ∨ tSetOf L tAvg weight = Float64.finite 10 ∨
    ∃ k : ℤ, tSetOf L tAvg weight = Float64.finite ((k : ℚ) / 2) ∧
      (20 : ℚ) ≤ (k : ℚ) / 2 ∧ (k : ℚ) / 2 ≤ 75 := by
  obtain ⟨bn, bp, bm⟩ := f64_boundTset_special
  unfold tSetOf
  split_ifs with hw
  · rcases f64_div_two_cases (Float64.round (powThird L (tAvg / weight) * Float64.finite 2))
      with h | h | h | ⟨p, hp, h⟩
    · left; rw [h, bn]
    · right; right
      refine ⟨150, ?_, by norm_num, by norm_num⟩
      rw [h, bp]
      norm_num
    · right; left; rw [h, bm]
    · rcases f64_round_cases (powThird L (tAvg / weight) * Float64.finite 2)
        with hr | hr | hr | ⟨n, hr⟩
      · rw [hr] at hp; cases hp
      · rw [hr] at hp; cases hp
      · rw [hr] at hp; cases hp
      · rw [hr] at hp
        have hpn : p = n := by
          injection hp with hp
          exact hp.symm
        rw [h, f64_boundTset_finite, hpn]
        by_cases h75 : (75 : ℚ) < (n : ℚ) / 2
        · right; right
          refine ⟨150, ?_, by norm_num, by norm_num⟩
          rw [if_pos h75]
          norm_num
        · rw [if_neg h75]
          by_cases h20 : (n : ℚ) / 2 < 20
          · right; left; rw [if_pos h20]
          · right; right
            rw [if_neg h20]
            exact ⟨n, rfl, le_of_not_lt h20, le_of_not_lt h75⟩
  · right; left
    unfold defaultTSet
    norm_num

theorem f64_aggregateOf_eq (L : GoMath) (trs : List (ZoneController × Float64)) :
    aggregateOf L trs =
      (tSetOf L (trs.foldl (accumulateStep (tCutOf (trs.foldl scanStep scanInit)))
            (Float64.finite 0.0, Float64.finite 0.0)).1
          (trs.foldl (accumulateStep (tCutOf (trs.foldl scanStep scanInit)))
            (Float64.finite 0.0, Float64.finite 0.0)).2,
        decide (tSetOf L (trs.foldl (accumulateStep (tCutOf (trs.foldl scanStep scanInit)))
            (Float64.finite 0.0, Float64.finite 0.0)).1
          (trs.foldl (accumulateStep (tCutOf (trs.foldl scanStep scanInit)))
            (Float64.finite 0.0, Float64.finite 0.0)).2 ≥ Float64.finite 18)) := by
  have h18 : Float64.finite 18.0 = Float64.finite 18 := by norm_num
  unfold aggregateOf minEnableTemp
  simp only [h18]

theorem f64_aggregateOf_range (L : GoMath) (trs : List (ZoneController × Float64)) :
    ((aggregateOf L trs).1 = Float64.nan ∨ (aggregateOf L trs).1 = Float64.finite 10 ∨
      ∃ k : ℤ, (aggregateOf L trs).1 = Float64.finite ((k : ℚ) / 2) ∧
        (20 : ℚ) ≤ (k : ℚ) / 2 ∧ (k : ℚ) / 2 ≤ 75) ∧
    (aggregateOf L trs).2 = decide ((aggregateOf L trs).1 ≥ Float64.finite 18) ∧
    ((aggregateOf L trs).2 = true ↔ (aggregateOf L trs).1 ≥ Float64.finite 20) ∧
    ((aggregateOf L trs).1 ≠ Float64.nan →
      ((aggregateOf L trs).2 = true ↔ (aggregateOf L trs).1 ≠ Float64.finite 10)) := by
  rw [f64_aggregateOf_eq]
  generalize (trs.foldl (accumulateStep (tCutOf (trs.foldl scanStep scanInit)))
            (Float64.finite 0.0, Float64.finite 0.0)) = acc
  have hr := f64_tSetOf_range L acc.1 acc.2
  refine ⟨hr, rfl, ?_, ?_⟩
  · simp only [decide_eq_true_eq, ge_iff_le]
    rcases hr with h | h | ⟨k, h, h20, h75⟩
    · rw [h]
      constructor <;> intro hc <;> exact absurd hc (f64_not_le_nan _).1
    · rw [h, f64_le_finite, f64_le_finite]
      constructor <;> intro hc <;> norm_num at hc
    · rw [h, f64_le_finite, f64_le_finite]
      constructor <;> intro _ <;> linarith
  · intro hnan
    simp only [decide_eq_true_eq, ge_iff_le]
    rcases hr with h | h | ⟨k, h, h20, h75⟩
    · exact absurd h hnan
    · rw [h, f64_le_finite]
      constructor
      · intro hc; norm_num at hc
      · intro hc; exact absurd rfl hc
    · rw [h, f64_le_finite]
      constructor
      · intro _ hc
        injection hc with hc
        rw [hc] at h20
        norm_num at h20
      · intro _; linarith

theorem f64_aggregate_infinite_weight (L : GoMath) :
    aggregateOf L [(infiniteWeightZone, Float64.finite 40)] = (Float64.nan, false) := by
  unfold aggregateOf
  simp only [List.foldl_cons, List.foldl_nil]
  unfold scanStep scanInit
  norm_num [tCutOf, accumulateStep, infiniteWeightZone, sampleZone,
    f64_lt_finite, f64_le_finite, f64_sub_ofRat, f64_add_ofRat, f64_powCube_ofRat,
    f64_mul_ofRat, Float64.ofRat, Float64.overflowBound]
  have h1 : Float64.posInf * Float64.finite 64000 = Float64.posInf := by
    show Float64.mul Float64.posInf (Float64.finite 64000) = _
    simp [Float64.mul]
  have h2 : Float64.finite 0 + Float64.posInf = Float64.posInf := rfl
  have h3 : Float64.posInf / Float64.posInf = Float64.nan := rfl
  have h4 : Float64.posInf > Float64.finite 0 := by rw [gt_iff_lt, f64_lt_def]; rfl
  rw [h1, h2]
  unfold tSetOf
  have h5 : boundTset (Float64.round (powThird L Float64.nan * Float64.finite 2) /
      Float64.finite 2) = Float64.nan := rfl
  rw [if_pos h4, h3, h5]
  exact ⟨rfl, (f64_not_le_nan _).1⟩

theorem f64_aggregate_heavy_weights (L : GoMath) :
    aggregateOf L [(heavyZone, Float64.finite 40), (heavyBedroomZone, Float64.finite 40)] =
      (Float64.nan, false) := by
  unfold aggregateOf
  simp only [List.foldl_cons, List.foldl_nil]
  unfold scanStep scanInit
  norm_num [tCutOf, accumulateStep, heavyZone, heavyBedroomZone, sampleZone,
    f64_lt_finite, f64_le_finite, f64_sub_ofRat, f64_add_ofRat, f64_powCube_ofRat,
    f64_mul_ofRat, Float64.ofRat, Float64.overflowBound]
  have h2 : Float64.finite 0 + Float64.posInf = Float64.posInf := rfl
  have h2b : Float64.posInf + Float64.posInf = Float64.posInf := rfl
  have h3 : Float64.posInf / Float64.posInf = Float64.nan := rfl
  have h4 : Float64.posInf > Float64.finite 0 := by rw [gt_iff_lt, f64_lt_def]; rfl
  have h5 : boundTset (Float64.round (powThird L Float64.nan * Float64.finite 2) /
      Float64.finite 2) = Float64.nan := rfl
  rw [h2, h2b]
  unfold tSetOf
  rw [if_pos h4, h3, h5]
  exact ⟨rfl, (f64_not_le_nan _).1⟩

theorem f64_averageSetpoints_returns (L : GoMath) (trs : List (ZoneController × Float64))
    (hgap : ∃ e ∈ trs, gapOf e > Float64.finite (-10000)) :
    ∃ published, averageSetpoints L trs = some (published, aggregateOf L trs) := by
  obtain ⟨zd, _, maxcs, mincs, hrun, _⟩ := f64_diagnostics_spec L trs hgap
  exact ⟨_, hrun⟩

theorem f64_gapOf_readings (z : ZoneController) (f : Float64)
    (hs : z.setpoint = Float64.finite 20) (ha : z.averageTemperature = Float64.finite 20) :
    gapOf (z, f) > Float64.finite (-10000) := by
  unfold gapOf
  simp only [hs, ha]
  rw [f64_sub_finite 20 20 (by norm_num), gt_iff_lt, f64_lt_finite]
  norm_num

/-- C25 (the code at the failing inputs): two zones of weight 1e308 with stored demand 40, or
one zone of weight `+Inf` with stored demand 40 (all weights non-negative, each as
`strconv.ParseFloat` returns it for a payload on the `weight` control topic).  The weight sum
and the weighted sum of cubes both overflow to `+Inf`, their quotient is NaN, `boundTset`
passes NaN through, and `averageSetpoints` returns `(NaN, false)`: a command that is neither
10.0 nor in [20.0, 75.0].  For every map the returned `tSet` is NaN, 10.0 or a multiple of 0.5
in [20.0, 75.0]; `chEnable` is `tSet ≥ 18.0`, true exactly when `tSet ≥ 20.0`, and, for a
`tSet` other than NaN, exactly when `tSet` is not 10.0. -/
theorem averageSetpoints_overflow_nan_command (L : GoMath) :
    (heavyZone.cfg.Weight ≥ Float64.finite 0 ∧ heavyBedroomZone.cfg.Weight ≥ Float64.finite 0 ∧
      ∃ published,
        averageSetpoints L
            [(heavyZone, Float64.finite 40), (heavyBedroomZone, Float64.finite 40)] =
          some (published, Float64.nan, false)) ∧
    (infiniteWeightZone.cfg.Weight ≥ Float64.finite 0 ∧
      ∃ published,
        averageSetpoints L [(infiniteWeightZone, Float64.finite 40)] =
          some (published, Float64.nan, false)) ∧
    ∀ trs : List (ZoneController × Float64),
      ((aggregateOf L trs).1 = Float64.nan ∨ (aggregateOf L trs).1 = Float64.finite 10 ∨
        ∃ k : ℤ, (aggregateOf L trs).1 = Float64.finite ((k : ℚ) / 2) ∧
          (20 : ℚ) ≤ (k : ℚ) / 2 ∧ (k : ℚ) / 2 ≤ 75) ∧
      (aggregateOf L trs).2 = decide ((aggregateOf L trs).1 ≥ Float64.finite 18) ∧
      ((aggregateOf L trs).2 = true ↔ (aggregateOf L trs).1 ≥ Float64.finite 20) ∧
      ((aggregateOf L trs).1 ≠ Float64.nan →
        ((aggregateOf L trs).2 = true ↔ (aggregateOf L trs).1 ≠ Float64.finite 10)) := by
  refine ⟨⟨?_, ?_, ?_⟩, ⟨?_, ?_⟩, f64_aggregateOf_range L⟩
  · rw [ge_iff_le]
    exact (f64_le_finite _ _).mpr (by norm_num)
  · rw [ge_iff_le]
    exact (f64_le_finite _ _).mpr (by norm_num)
  · obtain ⟨published, hres⟩ := f64_averageSetpoints_returns L
      [(heavyZone, Float64.finite 40), (heavyBedroomZone, Float64.finite 40)]
      ⟨(heavyZone, Float64.finite 40), List.mem_cons_self _ _,
        f64_gapOf_readings _ _ rfl rfl⟩
    rw [f64_aggregate_heavy_weights] at hres
    exact ⟨published, hres⟩
  · rw [ge_iff_le, f64_le_def]
    rfl
  · obtain ⟨published, hres⟩ := f64_averageSetpoints_returns L
      [(infiniteWeightZone, Float64.finite 40)]
      ⟨(infiniteWeightZone, Float64.finite 40), List.mem_cons_self _ _,
        f64_gapOf_readings _ _ rfl rfl⟩
    rw [f64_aggregate_infinite_weight] at hres
    exact ⟨published, hres⟩

/-! ### C11: the aggregation formula -/

end ieee

end Mzotbc
